import Mathlib

/-!
Communication-Platform: channel / message consistency

A shallow embedding of the backend handlers of the chat platform

* `backend/src/models/*.js`                      (the four record sets),
* `backend/src/controllers/message.controller.js` (HTTP message handlers),
* `backend/src/controllers/channels.controller.js` (HTTP channel handlers),
* `backend/src/controllers/invite.controller.js`,
* `backend/src/services/socketio.service.js`      (socket handlers),

followed by theorems about them.

Modelling conventions.

* Object ids are natural numbers; a fresh id is taken from the counter
  `Store.nextId`.  Times are milliseconds since the epoch; the server clock
  (`new Date()`) is the argument `now` of every handler.
* A collection is the list of its documents in insertion order.  `findOne`
  returns the first match, `save` replaces the document carrying the same id.
* A handler returns an `Outcome`: the store it leaves behind, the reply given
  to the caller, and the events handed to the socket layer.  A JavaScript
  exception raised half-way leaves the writes made before it in place, and is
  answered by the catch block of the handler: status 500 (HTTP) or an error
  reply (socket); the catch block of the HTTP `markSeen` throws itself and
  gives no answer.
* `busUp` says whether the socket server handle requested by the HTTP
  controllers (`ioInstance`) has been initialised.
* Per-user maps (`unreadCounts`, `deletedAt`) are association lists with
  unique-key `set`; they stand for the entries of the mongoose Map that is
  stored.  `unreadCounts` is read and written with `get` and `set`.  The
  handlers that load a channel document read and write `deletedAt` with the
  property syntax `obj[k]`, which touches a property of the Map object and not
  an entry: such a write is not stored, and such a read finds only what the
  same handler has set.  Queries (`deletedAt.<id>: { $exists: false }`) and
  `lean()` documents see the stored entries.
-/

namespace CommPlatform

abbrev UserId := Nat
abbrev ChannelId := Nat
abbrev MessageId := Nat
abbrev Time := Nat

/-! ## Per-user maps -/

/-- Key/value map in insertion order (a JavaScript `Map` with user-id keys). -/
abbrev UMap (α : Type) := List (UserId × α)

namespace UMap

/-- Lookup `m.get(k)`; `none` stands for `undefined`. -/
def get {α : Type} : UMap α → UserId → Option α
  | [], _ => none
  | (k', v) :: rest, k => if k' = k then some v else get rest k

/-- Update `m.set(k, v)`: an existing key keeps its position, a new key is appended. -/
def set {α : Type} : UMap α → UserId → α → UMap α
  | [], k, v => [(k, v)]
  | (k', v') :: rest, k, v => if k' = k then (k, v) :: rest else (k', v') :: set rest k v

end UMap

/-! ## Records (models/*.js) -/

/-- User record of `models/User.js` (the fields the handlers read). -/
structure User where
  id : UserId
  name : String
  email : String
deriving DecidableEq, Repr

/-- Attachment sub-document of `models/Message.js`. -/
structure Attachment where
  id : String
  type : String
  name : String
  url : String
  size : Nat
deriving DecidableEq, Repr

/-- Schema validation of one attachment, run by `save()` on the message that carries it: the
paths `id`, `name` and `url` are required, which an absent or empty string does not meet, and
`type` is required with the enum `['image', 'file']`. -/
def Attachment.valid (a : Attachment) : Bool :=
  decide (a.id ≠ "") && (decide (a.type = "image") || decide (a.type = "file")) &&
    decide (a.name ≠ "") && decide (a.url ≠ "")

/-- Message status, the enum `['sent', 'seen']`. -/
inductive Status where
  | sent
  | seen
deriving DecidableEq, Repr

/-- Message document of `models/Message.js`.  The schema has no `edited` and no `updatedAt`
path, and `user` is required. -/
structure Message where
  id : MessageId
  channelId : ChannelId
  user : UserId
  senderId : UserId
  senderName : String
  text : String
  attachments : List Attachment
  replyTo : Option MessageId
  forwardedFrom : Option MessageId
  status : Status
  createdAt : Time
  visibleTo : List UserId
deriving DecidableEq, Repr

/-- Channel document of `models/Channel.js`. -/
structure Channel where
  id : ChannelId
  type : String
  name : String
  users : List UserId
  inviteToken : Option String
  deletedAt : UMap Time
  lastMessage : String
  lastMessageTime : Time
  lastMessageSenderId : Option UserId
  unreadCounts : UMap Int
  createdAt : Time
  updatedAt : Time
deriving DecidableEq, Repr

/-- Read receipt of `models/MessageReadReceipt.js`. -/
structure Receipt where
  messageId : MessageId
  userId : UserId
  seenAt : Time
deriving DecidableEq, Repr

/-- The four record sets together with the id generator. -/
structure Store where
  users : List User
  channels : List Channel
  messages : List Message
  receipts : List Receipt
  nextId : Nat
deriving DecidableEq, Repr

/-- The store before anything happened. -/
def Store.empty : Store :=
  { users := [], channels := [], messages := [], receipts := [], nextId := 0 }

/-! ## Replies and fan-out events -/

/-- Socket room: every connection joins the room of its user, and the rooms of the channels it
opened with `joinChat`. -/
inductive Room where
  | user (u : UserId)
  | channel (c : ChannelId)
deriving DecidableEq, Repr

/-- Event handed to the socket layer with `io.to(room).emit(name, ...)`. -/
structure Event where
  room : Room
  name : String
deriving DecidableEq, Repr

/-- Answer given to the caller; `noAnswer` is a request that is never answered. -/
inductive Reply where
  | http (code : Nat)
  | ack
  | socketError (message : String)
  | noAnswer
deriving DecidableEq, Repr

/-- Result of running a handler. -/
structure Outcome where
  store : Store
  reply : Reply
  events : List Event
deriving DecidableEq, Repr

/-- Whether the handler answered without an error. -/
def Outcome.succeeded (o : Outcome) : Bool :=
  match o.reply with
  | Reply.http code => decide (code < 400)
  | Reply.ack => true
  | Reply.socketError _ => false
  | Reply.noAnswer => false

/-! ## Queries -/

/-- Query `User.findById(id)`. -/
def findUser (us : List User) (id : UserId) : Option User :=
  us.find? (fun u => decide (u.id = id))

/-- Query `Channel.findById(id)`. -/
def findChannel (cs : List Channel) (id : ChannelId) : Option Channel :=
  cs.find? (fun c => decide (c.id = id))

/-- Query `Channel.findOne({ _id: id, users: uid })`. -/
def findChannelFor (cs : List Channel) (id : ChannelId) (uid : UserId) : Option Channel :=
  cs.find? (fun c => decide (c.id = id) && decide (uid ∈ c.users))

/-- Query `Message.findById(id)`. -/
def findMessage (ms : List Message) (id : MessageId) : Option Message :=
  ms.find? (fun m => decide (m.id = id))

/-- Write `channel.save()`: the document with the same id is replaced; the schema option
`timestamps` stamps `updatedAt`.  Mongoose stamps a save that modified some path; the model
stamps every save, so it differs from the code only in the `updatedAt` of a document that was
saved without any change. -/
def saveChannel (now : Time) (cs : List Channel) (c : Channel) : List Channel :=
  cs.map (fun x => if x.id = c.id then { c with updatedAt := now } else x)

/-- Write `message.save()` of a loaded message. -/
def saveMessage (ms : List Message) (m : Message) : List Message :=
  ms.map (fun x => if x.id = m.id then m else x)

/-- Summary text `text || (attachments?.length ? '[Attachment]' : '')`. -/
def summaryText (text : String) (attachments : List Attachment) : String :=
  if text ≠ "" then text else if attachments.length ≠ 0 then "[Attachment]" else ""

/-- The loop
`users.forEach(uid => { if (uid !== me) unreadCounts.set(uid, (unreadCounts.get(uid) || 0) + 1) })`. -/
def bumpOthers (users : List UserId) (me : UserId) (m : UMap Int) : UMap Int :=
  users.foldl
    (fun acc uid => if uid ≠ me then UMap.set acc uid ((UMap.get acc uid).getD 0 + 1) else acc) m

/-- The events `channelUpdated`, one per member room. -/
def channelUpdatedEvents (users : List UserId) : List Event :=
  users.map (fun uid => { room := Room.user uid, name := "channelUpdated" })

/-- The document with the greatest `createdAt` (`sort({ createdAt: -1 })` followed by taking the
first); among equal times the earlier-stored document is taken. -/
def newest : List Message → Option Message
  | [] => none
  | m :: rest =>
    match newest rest with
    | none => some m
    | some r => if r.createdAt > m.createdAt then some r else some m

/-- Query `Message.findOne({ channelId }).sort({ createdAt: -1 })`. -/
def latestMessage (ms : List Message) (cid : ChannelId) : Option Message :=
  newest (ms.filter (fun m => decide (m.channelId = cid)))

/-- Whether a receipt `(messageId, userId)` is stored. -/
def hasReceipt (rs : List Receipt) (mid : MessageId) (uid : UserId) : Bool :=
  rs.any (fun r => decide (r.messageId = mid) && decide (r.userId = uid))

/-- Write `MessageReadReceipt.findOneAndUpdate({ messageId, userId }, { seenAt }, { upsert: true })`:
the first matching receipt gets the new `seenAt`; without a match a receipt is inserted. -/
def upsertReceipt : List Receipt → MessageId → UserId → Time → List Receipt
  | [], mid, uid, t => [{ messageId := mid, userId := uid, seenAt := t }]
  | r :: rest, mid, uid, t =>
    if r.messageId = mid ∧ r.userId = uid then { r with seenAt := t } :: rest
    else r :: upsertReceipt rest mid uid t

/-- The check "all recipients have seen the message": every member of `channel` other than the
author of `message` has a receipt for it. -/
def seenByAll (rs : List Receipt) (channel : Channel) (message : Message) : Bool :=
  (channel.users.filter (fun uid => decide (uid ≠ message.user))).all
    (fun uid => hasReceipt rs message.id uid)

/-- Write `Message.findByIdAndUpdate(messageId, { status: 'seen' })`. -/
def setSeen : List Message → MessageId → List Message
  | [], _ => []
  | m :: rest, mid => if m.id = mid then { m with status := Status.seen } :: rest
    else m :: setSeen rest mid

/-- The unread recomputation of `markSeen`: the messages of channel `cid` written by somebody
else than `uid`, counted 1 when `uid` has no receipt for them and 0 otherwise, and summed. -/
def countUnread (ms : List Message) (rs : List Receipt) (cid : ChannelId) (uid : UserId) : Int :=
  ((ms.filter (fun m => decide (m.channelId = cid) && decide (m.user ≠ uid))).map
    (fun m => if hasReceipt rs m.id uid then (0 : Int) else 1)).sum

/-- Write `Message.updateMany({ channelId, visibleTo: uid }, { $pull: { visibleTo: uid } })`. -/
def pullVisible (ms : List Message) (cid : ChannelId) (uid : UserId) : List Message :=
  ms.map (fun m =>
    if m.channelId = cid ∧ uid ∈ m.visibleTo then
      { m with visibleTo := m.visibleTo.filter (fun v => decide (v ≠ uid)) }
    else m)

/-- Validity of the optional `replyTo` of a send request: the referenced message exists and
belongs to the channel written to. -/
def replyToValid (ms : List Message) (replyTo : Option MessageId) (cid : ChannelId) : Bool :=
  match replyTo with
  | none => true
  | some r =>
    match findMessage ms r with
    | none => false
    | some rm => decide (rm.channelId = cid)

/-- The edit-window test `(currentTime - messageTime) / 1000 / 60 > 5`.  Both times are whole
milliseconds, so the quotient exceeds 5 exactly when the difference exceeds 300000. -/
def editWindowExpired (now createdAt : Time) : Bool :=
  decide ((now : Int) - (createdAt : Int) > 300000)

/-- The soft delete shared by `deleteChat` and the HTTP `deleteChannel`: the store written, and
the value of `bothDeleted`.  The loaded `channel.deletedAt` is a mongoose Map, so
`deletedAtObj[userId] = new Date()` sets a property of that object and adds no entry:
`channel.save()` stores `deletedAt` as it was.  The test
`users.every(uid => deletedAtObj[uid])` reads properties as well and finds the one just set,
so `bothDeleted` says that every member is the requester. -/
def softDelete (now : Time) (s : Store) (userId : UserId) (channel : Channel) : Store × Bool :=
  let messages := pullVisible s.messages channel.id userId
  let channel1 : Channel :=
    { channel with
      lastMessage := ""
      lastMessageTime := channel.createdAt
      lastMessageSenderId := none
      unreadCounts := UMap.set channel.unreadCounts userId 0 }
  let bothDeleted := channel.users.all (fun uid => decide (uid = userId))
  if bothDeleted then
    ({ s with
        channels := s.channels.eraseP (fun c => decide (c.id = channel.id))
        messages := messages.filter (fun m => decide (m.channelId ≠ channel.id)) }, true)
  else
    ({ s with messages := messages, channels := saveChannel now s.channels channel1 }, false)

/-! ## message.controller.js -/

namespace MessageController

/-- Body of `POST /message`; an absent `text` or `attachments` is the empty one. -/
structure SendBody where
  channelId : ChannelId
  text : String
  replyTo : Option MessageId
  forwardedFrom : Option MessageId
  attachments : List Attachment
deriving DecidableEq, Repr

/-- Handler `sendMessage`.  An attachment that the schema rejects makes `message.save()` throw
before anything is written. -/
def sendMessage (busUp : Bool) (now : Time) (s : Store) (userId : UserId) (body : SendBody) :
    Outcome :=
  match findChannelFor s.channels body.channelId userId with
  | none => ⟨s, Reply.http 403, []⟩
  | some channel =>
    if replyToValid s.messages body.replyTo body.channelId = false then ⟨s, Reply.http 400, []⟩
    else
      match findUser s.users userId with
      | none => ⟨s, Reply.http 500, []⟩
      | some user =>
        if body.attachments.all Attachment.valid = false then ⟨s, Reply.http 500, []⟩
        else
          let message : Message :=
            { id := s.nextId, channelId := body.channelId, user := userId, senderId := userId,
              senderName := user.name, text := body.text, attachments := body.attachments,
              replyTo := body.replyTo, forwardedFrom := body.forwardedFrom,
              status := Status.sent, createdAt := now, visibleTo := channel.users }
          let channel1 : Channel :=
            { channel with
              lastMessage := summaryText body.text body.attachments
              lastMessageTime := now
              lastMessageSenderId := some userId
              unreadCounts :=
                bumpOthers channel.users userId (UMap.set channel.unreadCounts userId 0) }
          let s1 : Store :=
            { s with
              messages := s.messages ++ [message]
              nextId := s.nextId + 1
              channels := saveChannel now s.channels channel1 }
          if busUp = false then ⟨s1, Reply.http 500, []⟩
          else
            ⟨s1, Reply.http 201,
              { room := Room.channel body.channelId, name := "receiveMessage" } ::
                channelUpdatedEvents channel.users⟩

/-- Reply snapshot inside a fetched message. -/
structure ReplyView where
  id : MessageId
  senderId : UserId
  senderName : String
  content : String
deriving DecidableEq, Repr

/-- One element of the array answered by `fetchMessages`, with the keys of the object literal
built there (`isCurrentUser`, a display flag, is left out). -/
structure FetchedMessage where
  id : MessageId
  channelId : ChannelId
  senderId : UserId
  senderName : String
  content : String
  attachments : List Attachment
  timestamp : Time
  status : Status
  replyTo : Option ReplyView
  forwardedFrom : Option MessageId
  seenBy : List UserId
  visibleTo : List UserId
deriving DecidableEq, Repr

/-- The mapping `messages.map(message => ({ ... }))` of `fetchMessages`; `replyTo` has been
populated with the referenced message as it is stored now. -/
def formatFetched (s : Store) (userId : UserId) (m : Message) : FetchedMessage :=
  { id := m.id, channelId := m.channelId, senderId := m.senderId, senderName := m.senderName,
    content := m.text, attachments := m.attachments, timestamp := m.createdAt,
    status := m.status,
    replyTo := (m.replyTo.bind (findMessage s.messages)).map
      (fun r => { id := r.id, senderId := r.senderId, senderName := r.senderName,
                  content := r.text }),
    forwardedFrom := m.forwardedFrom,
    seenBy := ((s.receipts.filter (fun r => decide (r.userId = userId))).filter
      (fun r => decide (r.messageId = m.id))).map (fun r => r.userId),
    visibleTo := m.visibleTo }

/-- Query `Message.find({ channelId, visibleTo: userId }).sort({ createdAt: 1 })`. -/
def visibleMessages (ms : List Message) (cid : ChannelId) (userId : UserId) : List Message :=
  (ms.filter (fun m => decide (m.channelId = cid) && decide (userId ∈ m.visibleTo))).insertionSort
    (fun a b => a.createdAt ≤ b.createdAt)

/-- Handler `fetchMessages`; the second component is the answered array. -/
def fetchMessages (busUp : Bool) (now : Time) (s : Store) (userId : UserId) (channelId : ChannelId) :
    Outcome × List FetchedMessage :=
  match findChannelFor s.channels channelId userId with
  | none => (⟨s, Reply.http 403, []⟩, [])
  | some channel =>
    let messages := visibleMessages s.messages channelId userId
    if messages.any (fun m => (findUser s.users m.user).isNone) then (⟨s, Reply.http 500, []⟩, [])
    else
      let channel1 : Channel :=
        { channel with unreadCounts := UMap.set channel.unreadCounts userId 0 }
      let s1 : Store := { s with channels := saveChannel now s.channels channel1 }
      if busUp = false then (⟨s1, Reply.http 500, []⟩, [])
      else
        (⟨s1, Reply.http 200, [{ room := Room.user userId, name := "channelUpdated" }]⟩,
          messages.map (formatFetched s userId))

/-- Handler `markSeen`.  Its catch block logs `messageId` and `userId`, which are declared
inside the `try` block and not in scope there: the catch block throws a ReferenceError before
it answers, so an exception in this handler leaves the request without an answer. -/
def markSeen (busUp : Bool) (now : Time) (s : Store) (userId : UserId) (messageId : MessageId) :
    Outcome :=
  match findMessage s.messages messageId with
  | none => ⟨s, Reply.http 404, []⟩
  | some message =>
    match findChannelFor s.channels message.channelId userId with
    | none => ⟨s, Reply.http 403, []⟩
    | some channel =>
      let receipts := upsertReceipt s.receipts messageId userId now
      let messages :=
        if seenByAll receipts channel message then setSeen s.messages messageId else s.messages
      let unreadCount := countUnread messages receipts message.channelId userId
      let channel1 : Channel :=
        { channel with unreadCounts := UMap.set channel.unreadCounts userId unreadCount }
      let s1 : Store :=
        { s with
          receipts := receipts
          messages := messages
          channels := saveChannel now s.channels channel1 }
      if busUp = false then ⟨s1, Reply.noAnswer, []⟩
      else
        ⟨s1, Reply.http 200,
          { room := Room.channel message.channelId, name := "messageSeen" } ::
            channelUpdatedEvents channel.users⟩

/-- The summary fields a channel gets after one of its messages was removed. -/
def resummarise (now : Time) (channel : Channel) (latest : Option Message) : Channel :=
  match latest with
  | some l =>
    { channel with
      lastMessage := summaryText l.text l.attachments
      lastMessageTime := l.createdAt
      lastMessageSenderId := some l.user }
  | none =>
    { channel with lastMessage := "", lastMessageTime := now, lastMessageSenderId := none }

/-- Handler `deleteMessage`. -/
def deleteMessage (busUp : Bool) (now : Time) (s : Store) (userId : UserId)
    (messageId : MessageId) : Outcome :=
  match findMessage s.messages messageId with
  | none => ⟨s, Reply.http 404, []⟩
  | some message =>
    if message.user ≠ userId then ⟨s, Reply.http 403, []⟩
    else
      match findChannelFor s.channels message.channelId userId with
      | none => ⟨s, Reply.http 403, []⟩
      | some channel =>
        let messages := s.messages.eraseP (fun m => decide (m.id = messageId))
        let channel1 := resummarise now channel (latestMessage messages message.channelId)
        let s1 : Store :=
          { s with messages := messages, channels := saveChannel now s.channels channel1 }
        if busUp = false then ⟨s1, Reply.http 500, []⟩
        else
          ⟨s1, Reply.http 200,
            { room := Room.channel message.channelId, name := "messageDeleted" } ::
              channelUpdatedEvents channel.users⟩

/-- Handler `editMessage`.  The assignments `message.edited = true` and
`message.updatedAt = new Date()` touch no path of the message schema, so `save()` stores the text
only.  After the two saves the answer is built from `message.replyTo.sender.id`; `replyTo` of the
loaded message is a bare id, so for a message that is a reply this throws. -/
def editMessage (busUp : Bool) (now : Time) (s : Store) (userId : UserId) (messageId : MessageId)
    (text : String) : Outcome :=
  match findMessage s.messages messageId with
  | none => ⟨s, Reply.http 404, []⟩
  | some message =>
    if message.user ≠ userId then ⟨s, Reply.http 403, []⟩
    else if editWindowExpired now message.createdAt then ⟨s, Reply.http 403, []⟩
    else
      let message1 : Message := { message with text := text }
      let s1 : Store := { s with messages := saveMessage s.messages message1 }
      match findChannel s1.channels message.channelId with
      | none => ⟨s1, Reply.http 500, []⟩
      | some channel =>
        match latestMessage s1.messages message.channelId with
        | none => ⟨s1, Reply.http 500, []⟩
        | some latest =>
          let channel1 : Channel :=
            if latest.id = messageId then
              { channel with
                lastMessage := summaryText text latest.attachments
                lastMessageTime := now }
            else channel
          let s2 : Store := { s1 with channels := saveChannel now s1.channels channel1 }
          if message.replyTo.isSome then ⟨s2, Reply.http 500, []⟩
          else if busUp = false then ⟨s2, Reply.http 500, []⟩
          else
            ⟨s2, Reply.http 200,
              { room := Room.channel message.channelId, name := "messageUpdated" } ::
                channelUpdatedEvents channel.users⟩

end MessageController

/-! ## socketio.service.js -/

namespace SocketService

/-- Payload of the socket event `sendMessage`; `timestamp` is the client's clock, `none` when it
does not parse as a date. -/
structure SendPayload where
  channelId : ChannelId
  content : String
  attachments : List Attachment
  replyTo : Option MessageId
  timestamp : Option Time
deriving DecidableEq, Repr

/-- Handler of `sendMessage`.  A date that does not parse, or an attachment that the schema
rejects, makes `save()` reject the message before anything is written. -/
def sendMessage (now : Time) (s : Store) (userId : UserId) (message : SendPayload) : Outcome :=
  match findChannelFor s.channels message.channelId userId with
  | none => ⟨s, Reply.socketError "Unauthorized or invalid channel", []⟩
  | some channel =>
    if replyToValid s.messages message.replyTo message.channelId = false then
      ⟨s, Reply.socketError "Invalid replyTo message", []⟩
    else
      match findUser s.users userId, message.timestamp with
      | none, _ => ⟨s, Reply.socketError "Failed to send message", []⟩
      | some _, none => ⟨s, Reply.socketError "Failed to send message", []⟩
      | some user, some timestamp =>
        if message.attachments.all Attachment.valid = false then
          ⟨s, Reply.socketError "Failed to send message", []⟩
        else
          let newMessage : Message :=
            { id := s.nextId, channelId := message.channelId, user := userId, senderId := userId,
              senderName := user.name, text := message.content,
              attachments := message.attachments, replyTo := message.replyTo,
              forwardedFrom := none, status := Status.sent, createdAt := timestamp,
              visibleTo := channel.users }
          let channel1 : Channel :=
            { channel with
              lastMessage := summaryText message.content message.attachments
              lastMessageTime := timestamp
              lastMessageSenderId := some userId
              unreadCounts :=
                bumpOthers channel.users userId (UMap.set channel.unreadCounts userId 0) }
          let s1 : Store :=
            { s with
              messages := s.messages ++ [newMessage]
              nextId := s.nextId + 1
              channels := saveChannel now s.channels channel1 }
          ⟨s1, Reply.ack,
            { room := Room.channel message.channelId, name := "receiveMessage" } ::
              channelUpdatedEvents channel.users⟩

/-- Handler of `markSeen`; the channel is the one named by the client. -/
def markSeen (now : Time) (s : Store) (userId : UserId) (channelId : ChannelId)
    (messageId : MessageId) : Outcome :=
  match findChannelFor s.channels channelId userId with
  | none => ⟨s, Reply.socketError "Unauthorized or invalid channel", []⟩
  | some channel =>
    match findMessage s.messages messageId with
    | none => ⟨s, Reply.socketError "Message not found", []⟩
    | some message =>
      let receipts := upsertReceipt s.receipts messageId userId now
      let messages :=
        if seenByAll receipts channel message then setSeen s.messages messageId else s.messages
      let unreadCount := countUnread messages receipts channelId userId
      let channel1 : Channel :=
        { channel with unreadCounts := UMap.set channel.unreadCounts userId unreadCount }
      let s1 : Store :=
        { s with
          receipts := receipts
          messages := messages
          channels := saveChannel now s.channels channel1 }
      ⟨s1, Reply.ack,
        { room := Room.channel channelId, name := "messageSeen" } ::
          channelUpdatedEvents channel.users⟩

/-- Handler of `deleteMessage`. -/
def deleteMessage (now : Time) (s : Store) (userId : UserId) (messageId : MessageId)
    (channelId : ChannelId) : Outcome :=
  match findChannelFor s.channels channelId userId with
  | none => ⟨s, Reply.socketError "Unauthorized or invalid channel", []⟩
  | some channel =>
    match findMessage s.messages messageId with
    | none => ⟨s, Reply.socketError "Message not found", []⟩
    | some message =>
      if message.user ≠ userId then ⟨s, Reply.socketError "Unauthorized to delete this message", []⟩
      else
        let messages := s.messages.eraseP (fun m => decide (m.id = messageId))
        let channel1 := MessageController.resummarise now channel (latestMessage messages channelId)
        let s1 : Store :=
          { s with messages := messages, channels := saveChannel now s.channels channel1 }
        ⟨s1, Reply.ack,
          { room := Room.channel channelId, name := "messageDeleted" } ::
            channelUpdatedEvents channel.users⟩

/-- Query `Channel.findOne({ _id, users: uid, $or: [...] })` of `forwardMessage`: a channel of
which `uid` is a member and that carries no `deletedAt` entry for `uid`. -/
def findLiveChannelFor (cs : List Channel) (id : ChannelId) (uid : UserId) : Option Channel :=
  cs.find? (fun c => decide (c.id = id) && decide (uid ∈ c.users) && (UMap.get c.deletedAt uid).isNone)

/-- Handler of `forwardMessage`.  The new document is built without `visibleTo`, which the
schema then fills with the empty array; its attachments are validated by `save()` like those
of any new message. -/
def forwardMessage (now : Time) (s : Store) (userId : UserId) (messageId : MessageId)
    (targetChannelId : ChannelId) : Outcome :=
  match findMessage s.messages messageId with
  | none => ⟨s, Reply.socketError "Message not found", []⟩
  | some sourceMessage =>
    match findLiveChannelFor s.channels sourceMessage.channelId userId with
    | none => ⟨s, Reply.socketError "Unauthorized or invalid source channel", []⟩
    | some _ =>
      match findLiveChannelFor s.channels targetChannelId userId with
      | none => ⟨s, Reply.socketError "Unauthorized, invalid, or deleted target channel", []⟩
      | some targetChannel =>
        match findUser s.users userId with
        | none => ⟨s, Reply.socketError "Failed to forward message", []⟩
        | some user =>
          if sourceMessage.attachments.all Attachment.valid = false then
            ⟨s, Reply.socketError "Failed to forward message", []⟩
          else
            let forwardedMessage : Message :=
              { id := s.nextId, channelId := targetChannelId, user := userId,
                senderId := userId, senderName := user.name, text := sourceMessage.text,
                attachments := sourceMessage.attachments, replyTo := none,
                forwardedFrom := some sourceMessage.id, status := Status.sent,
                createdAt := now, visibleTo := [] }
            let targetChannel1 : Channel :=
              { targetChannel with
                lastMessage := summaryText sourceMessage.text sourceMessage.attachments
                lastMessageTime := now
                lastMessageSenderId := some userId
                unreadCounts :=
                  bumpOthers targetChannel.users userId
                    (UMap.set targetChannel.unreadCounts userId 0) }
            let s1 : Store :=
              { s with
                messages := s.messages ++ [forwardedMessage]
                nextId := s.nextId + 1
                channels := saveChannel now s.channels targetChannel1 }
            ⟨s1, Reply.ack,
              { room := Room.channel targetChannelId, name := "receiveMessage" } ::
                channelUpdatedEvents targetChannel.users⟩

/-- Handler of `editMessage`.  As in the HTTP handler, the answer is built from
`message.replyTo.sender.id`, which throws after the two saves when the message is a reply. -/
def editMessage (now : Time) (s : Store) (userId : UserId) (messageId : MessageId) (text : String)
    (channelId : ChannelId) : Outcome :=
  match findChannelFor s.channels channelId userId with
  | none => ⟨s, Reply.socketError "Unauthorized or invalid channel", []⟩
  | some channel =>
    match findMessage s.messages messageId with
    | none => ⟨s, Reply.socketError "Message not found", []⟩
    | some message =>
      if message.user ≠ userId then ⟨s, Reply.socketError "Unauthorized to edit this message", []⟩
      else if editWindowExpired now message.createdAt then
        ⟨s, Reply.socketError "Message can only be edited within 5 minutes of sending", []⟩
      else
        let message1 : Message := { message with text := text }
        let s1 : Store := { s with messages := saveMessage s.messages message1 }
        match latestMessage s1.messages channelId with
        | none => ⟨s1, Reply.socketError "Failed to edit message", []⟩
        | some latest =>
          let channel1 : Channel :=
            if latest.id = messageId then
              { channel with
                lastMessage := summaryText text latest.attachments
                lastMessageTime := now }
            else channel
          let s2 : Store := { s1 with channels := saveChannel now s1.channels channel1 }
          if message.replyTo.isSome then ⟨s2, Reply.socketError "Failed to edit message", []⟩
          else
            ⟨s2, Reply.ack,
              { room := Room.channel channelId, name := "messageUpdated" } ::
                channelUpdatedEvents channel.users⟩

/-- Handler of `deleteChat`.  For a group that stays alive the handler calls
`postSystemMessage`, a name that is not defined in this module: the call throws after the store
was written and `channelDeleted` was sent. -/
def deleteChat (now : Time) (s : Store) (userId : UserId) (channelId : ChannelId) : Outcome :=
  match findChannelFor s.channels channelId userId with
  | none => ⟨s, Reply.socketError "Unauthorized or invalid channel", []⟩
  | some channel =>
    let r := softDelete now s userId channel
    let deleted : Event := { room := Room.user userId, name := "channelDeleted" }
    if channel.type = "group" ∧ r.2 = false then
      ⟨r.1, Reply.socketError "Failed to delete chat", [deleted]⟩
    else ⟨r.1, Reply.ack, [deleted]⟩

end SocketService

/-! ## channels.controller.js -/

namespace ChannelsController

/-- White space removed by `String.prototype.trim`. -/
def isJsSpace (c : Char) : Bool :=
  let n := c.toNat
  n = 9 || n = 10 || n = 11 || n = 12 || n = 13 || n = 32 || n = 160 || n = 5760 ||
    (8192 ≤ n && n ≤ 8202) || n = 8232 || n = 8233 || n = 8239 || n = 8287 || n = 12288 ||
    n = 65279

/-- The method `trim()`. -/
def trim (t : String) : String :=
  String.mk (((t.data.dropWhile isJsSpace).reverse.dropWhile isJsSpace).reverse)

/-- The expression `[...new Set(xs)]`: duplicates dropped, first occurrences kept in order. -/
def uniq : List UserId → List UserId
  | [] => []
  | x :: xs => x :: (uniq xs).filter (fun y => decide (y ≠ x))

/-- Body of `POST /channels`; an absent `type` or `name` is the empty string, `users` is `none`
when it is absent or not an array. -/
structure CreateBody where
  type : String
  name : String
  users : Option (List UserId)
deriving DecidableEq, Repr

/-- The tail of `createChannel`: `new Channel(channelData)`, `save()`, and the `channelCreated`
events. -/
def createNew (busUp : Bool) (now : Time) (s : Store) (type name : String) (users : List UserId)
    (inviteToken : Option String) : Outcome :=
  let newChannel : Channel :=
    { id := s.nextId, type := type, name := name, users := users, inviteToken := inviteToken,
      deletedAt := [], lastMessage := "", lastMessageTime := now, lastMessageSenderId := none,
      unreadCounts := [], createdAt := now, updatedAt := now }
  let s1 : Store := { s with channels := s.channels ++ [newChannel], nextId := s.nextId + 1 }
  if busUp = false then ⟨s1, Reply.http 500, []⟩
  else
    ⟨s1, Reply.http 201,
      users.map (fun uid => { room := Room.user uid, name := "channelCreated" })⟩

/-- Handler `createChannel`; `token` is the value drawn for `inviteToken` from the random
source.  When the direct channel of the pair exists, the handler tests `deletedAtObj[userId]`
on the mongoose Map `existing.deletedAt`: that is a property read, which is `undefined`
whatever the map holds, so the branch "Direct chat exists" is taken always and the
reactivation code in the `else` branch is never run.  The answer of that branch reads the
name of every member, which throws for a member that is not a stored user. -/
def createChannel (busUp : Bool) (now : Time) (s : Store) (userId : UserId) (body : CreateBody)
    (token : String) : Outcome :=
  match body.users with
  | none => ⟨s, Reply.http 400, []⟩
  | some users =>
    if body.type = "" then ⟨s, Reply.http 400, []⟩
    else
      let validUsers := s.users.filter (fun u => decide (u.id ∈ users))
      if validUsers.length ≠ users.length then ⟨s, Reply.http 400, []⟩
      else
        let members := uniq (users ++ [userId])
        if body.type = "direct" then
          if members.length ≠ 2 then ⟨s, Reply.http 400, []⟩
          else
            let sorted := members.insertionSort (fun a b => a ≤ b)
            match sorted.find? (fun id => decide (id ≠ userId)) with
            | none => ⟨s, Reply.http 500, []⟩
            | some otherUserId =>
              match validUsers.find? (fun u => decide (u.id = otherUserId)) with
              | none => ⟨s, Reply.http 500, []⟩
              | some otherUser =>
                let name :=
                  if trim body.name ≠ "" then trim body.name
                  else if otherUser.name ≠ "" then otherUser.name else "Direct Chat"
                match s.channels.find? (fun c =>
                    decide (c.type = "direct") && decide (c.users.length = 2) &&
                      sorted.all (fun u => decide (u ∈ c.users))) with
                | none => createNew busUp now s body.type name sorted none
                | some existing =>
                  if existing.users.any (fun uid => (findUser s.users uid).isNone) then
                    ⟨s, Reply.http 500, []⟩
                  else ⟨s, Reply.http 200, []⟩
        else if trim body.name = "" then ⟨s, Reply.http 400, []⟩
        else createNew busUp now s body.type (trim body.name) members (some token)

/-- Schema validation run by `save()` on a new message: the path `user` is `required`, so a
document whose `user` is null is rejected (`none`). -/
def validateNewMessage (user : Option UserId) (build : UserId → Message) : Option Message :=
  user.map build

/-- The closure `postSystemMessage` of `updateChannel`: a message with `user: null` is built
and saved, `receiveMessage` is sent, every member but the requester gets one more unread
message, and the channel is saved.  `Except.error` stands for an exception and carries the
store left behind. -/
def postSystemMessage (busUp : Bool) (now : Time) (s : Store) (channel : Channel)
    (userId : UserId) (text : String) : Except Store (Store × Channel × List Event) :=
  match validateNewMessage none (fun u =>
      { id := s.nextId, channelId := channel.id, user := u, senderId := u, senderName := "",
        text := text, attachments := [], replyTo := none, forwardedFrom := none,
        status := Status.sent, createdAt := now, visibleTo := channel.users }) with
  | none => Except.error s
  | some message =>
    let s1 : Store := { s with messages := s.messages ++ [message], nextId := s.nextId + 1 }
    if busUp = false then Except.error s1
    else
      let channel1 : Channel :=
        { channel with unreadCounts := bumpOthers channel.users userId channel.unreadCounts }
      Except.ok ({ s1 with channels := saveChannel now s1.channels channel1 },
            channel1, [{ room := Room.channel channel.id, name := "receiveMessage" }])

/-- The two loops of `updateChannel` over the added and the removed members: a system message
for every listed id that names a stored user.  An exception ends the loop; it carries the
store and the events sent so far. -/
def postAll (busUp : Bool) (now : Time) (userId : UserId) (suffix : String) :
    List UserId → Store → Channel → List Event →
      Except (Store × List Event) (Store × Channel × List Event)
  | [], s, channel, events => Except.ok (s, channel, events)
  | uid :: rest, s, channel, events =>
    match findUser s.users uid with
    | none => postAll busUp now userId suffix rest s channel events
    | some user =>
      match postSystemMessage busUp now s channel userId (user.name ++ suffix) with
      | Except.error s1 => Except.error (s1, events)
      | Except.ok (s1, channel1, evs) =>
        postAll busUp now userId suffix rest s1 channel1 (events ++ evs)

/-- Body of `PATCH /channels/:channelId`. -/
structure UpdateBody where
  name : String
  users : Option (List UserId)
deriving DecidableEq, Repr

/-- Handler `updateChannel`. -/
def updateChannel (busUp : Bool) (now : Time) (s : Store) (userId : UserId)
    (channelId : ChannelId) (body : UpdateBody) : Outcome :=
  match findChannelFor s.channels channelId userId with
  | none => ⟨s, Reply.http 404, []⟩
  | some channel =>
    let oldUsers := channel.users
    let newUsers := match body.users with
      | some users => uniq users
      | none => oldUsers
    if body.users.isSome ∧
        (s.users.filter (fun u => decide (u.id ∈ newUsers))).length ≠ newUsers.length then
      ⟨s, Reply.http 400, []⟩
    else
      let added := newUsers.filter (fun id => decide (id ∉ oldUsers))
      let removed := oldUsers.filter (fun id => decide (id ∉ newUsers))
      let channel1 : Channel :=
        { channel with
          name := if trim body.name ≠ "" then trim body.name else channel.name
          users := newUsers
          lastMessageTime := now }
      let s1 : Store := { s with channels := saveChannel now s.channels channel1 }
      match postAll busUp now userId " joined the group" added s1 channel1 [] with
      | Except.error (s2, events2) => ⟨s2, Reply.http 500, events2⟩
      | Except.ok (s2, channel2, events2) =>
        match postAll busUp now userId " left the group" removed s2 channel2 events2 with
        | Except.error (s3, events3) => ⟨s3, Reply.http 500, events3⟩
        | Except.ok (s3, channel3, events3) =>
          if busUp = false then ⟨s3, Reply.http 500, events3⟩
          else ⟨s3, Reply.http 200, events3 ++ channelUpdatedEvents channel3.users⟩

/-- Handler `deleteChannel`.  As in the socket handler `deleteChat`, the branch of a group that
stays alive calls `postSystemMessage`, which is a local of `updateChannel` and not defined
here: the call throws after the store was written and `channelDeleted` was sent. -/
def deleteChannel (busUp : Bool) (now : Time) (s : Store) (userId : UserId)
    (channelId : ChannelId) : Outcome :=
  match findChannelFor s.channels channelId userId with
  | none => ⟨s, Reply.http 404, []⟩
  | some channel =>
    let r := softDelete now s userId channel
    let deleted : Event := { room := Room.user userId, name := "channelDeleted" }
    if busUp = false then ⟨r.1, Reply.http 500, []⟩
    else if channel.type = "group" ∧ r.2 = false then ⟨r.1, Reply.http 500, [deleted]⟩
    else ⟨r.1, Reply.http 200, [deleted]⟩

end ChannelsController

/-! ## invite.controller.js and auth.controller.js -/

namespace InviteController

/-- Handler `generateInviteLink`; `token` is the value `generateInviteToken` would produce. -/
def generateInviteLink (now : Time) (s : Store) (channelId : ChannelId) (token : String) :
    Outcome :=
  match findChannel s.channels channelId with
  | none => ⟨s, Reply.http 404, []⟩
  | some channel =>
    match channel.inviteToken with
    | some _ => ⟨s, Reply.http 200, []⟩
    | none =>
      ⟨{ s with channels := saveChannel now s.channels { channel with inviteToken := some token } },
        Reply.http 200, []⟩

/-- Handler `regenerateInviteLink`. -/
def regenerateInviteLink (now : Time) (s : Store) (channelId : ChannelId) (token : String) :
    Outcome :=
  match findChannel s.channels channelId with
  | none => ⟨s, Reply.http 404, []⟩
  | some channel =>
    ⟨{ s with channels := saveChannel now s.channels { channel with inviteToken := some token } },
      Reply.http 200, []⟩

/-- Handler `acceptInvite`. -/
def acceptInvite (now : Time) (s : Store) (userId : UserId) (token : String) : Outcome :=
  match s.channels.find? (fun c => decide (c.inviteToken = some token)) with
  | none => ⟨s, Reply.http 404, []⟩
  | some channel =>
    if userId ∈ channel.users then ⟨s, Reply.http 200, []⟩
    else
      ⟨{ s with
          channels := saveChannel now s.channels { channel with users := channel.users ++ [userId] } },
        Reply.http 200, []⟩

end InviteController

/-- Handler `register` of `auth.controller.js`, as far as the user collection goes.  The paths
`name` and `email` of the user schema are required, so `User.create` rejects an empty one and
the handler answers 500.  (The route puts a Joi check of the body in front of the handler;
like the token check of the other routes it is not part of the handler.) -/
def register (s : Store) (name email : String) : Outcome :=
  if s.users.any (fun u => decide (u.email = email)) then ⟨s, Reply.http 400, []⟩
  else if name = "" ∨ email = "" then ⟨s, Reply.http 500, []⟩
  else
    ⟨{ s with
        users := s.users ++ [{ id := s.nextId, name := name, email := email }]
        nextId := s.nextId + 1 },
      Reply.http 201, []⟩

/-! ## The system as a transition system -/

/-- One request: the handler called, with the authenticated user, the server time at which it
runs and its arguments. -/
inductive Op where
  | register (name email : String)
  | createChannel (busUp : Bool) (now : Time) (userId : UserId)
      (body : ChannelsController.CreateBody) (token : String)
  | updateChannel (busUp : Bool) (now : Time) (userId : UserId) (channelId : ChannelId)
      (body : ChannelsController.UpdateBody)
  | deleteChannel (busUp : Bool) (now : Time) (userId : UserId) (channelId : ChannelId)
  | generateInviteLink (now : Time) (channelId : ChannelId) (token : String)
  | regenerateInviteLink (now : Time) (channelId : ChannelId) (token : String)
  | acceptInvite (now : Time) (userId : UserId) (token : String)
  | httpSendMessage (busUp : Bool) (now : Time) (userId : UserId)
      (body : MessageController.SendBody)
  | httpFetchMessages (busUp : Bool) (now : Time) (userId : UserId) (channelId : ChannelId)
  | httpMarkSeen (busUp : Bool) (now : Time) (userId : UserId) (messageId : MessageId)
  | httpDeleteMessage (busUp : Bool) (now : Time) (userId : UserId) (messageId : MessageId)
  | httpEditMessage (busUp : Bool) (now : Time) (userId : UserId) (messageId : MessageId)
      (text : String)
  | socketSendMessage (now : Time) (userId : UserId) (message : SocketService.SendPayload)
  | socketMarkSeen (now : Time) (userId : UserId) (channelId : ChannelId) (messageId : MessageId)
  | socketDeleteMessage (now : Time) (userId : UserId) (messageId : MessageId)
      (channelId : ChannelId)
  | socketForwardMessage (now : Time) (userId : UserId) (messageId : MessageId)
      (targetChannelId : ChannelId)
  | socketEditMessage (now : Time) (userId : UserId) (messageId : MessageId) (text : String)
      (channelId : ChannelId)
  | socketDeleteChat (now : Time) (userId : UserId) (channelId : ChannelId)

/-- Running one request. -/
def run (s : Store) : Op → Outcome
  | Op.register name email => register s name email
  | Op.createChannel busUp now userId body token =>
    ChannelsController.createChannel busUp now s userId body token
  | Op.updateChannel busUp now userId channelId body =>
    ChannelsController.updateChannel busUp now s userId channelId body
  | Op.deleteChannel busUp now userId channelId =>
    ChannelsController.deleteChannel busUp now s userId channelId
  | Op.generateInviteLink now channelId token =>
    InviteController.generateInviteLink now s channelId token
  | Op.regenerateInviteLink now channelId token =>
    InviteController.regenerateInviteLink now s channelId token
  | Op.acceptInvite now userId token => InviteController.acceptInvite now s userId token
  | Op.httpSendMessage busUp now userId body => MessageController.sendMessage busUp now s userId body
  | Op.httpFetchMessages busUp now userId channelId =>
    (MessageController.fetchMessages busUp now s userId channelId).1
  | Op.httpMarkSeen busUp now userId messageId =>
    MessageController.markSeen busUp now s userId messageId
  | Op.httpDeleteMessage busUp now userId messageId =>
    MessageController.deleteMessage busUp now s userId messageId
  | Op.httpEditMessage busUp now userId messageId text =>
    MessageController.editMessage busUp now s userId messageId text
  | Op.socketSendMessage now userId message => SocketService.sendMessage now s userId message
  | Op.socketMarkSeen now userId channelId messageId =>
    SocketService.markSeen now s userId channelId messageId
  | Op.socketDeleteMessage now userId messageId channelId =>
    SocketService.deleteMessage now s userId messageId channelId
  | Op.socketForwardMessage now userId messageId targetChannelId =>
    SocketService.forwardMessage now s userId messageId targetChannelId
  | Op.socketEditMessage now userId messageId text channelId =>
    SocketService.editMessage now s userId messageId text channelId
  | Op.socketDeleteChat now userId channelId => SocketService.deleteChat now s userId channelId

/-- The store after a sequence of requests, run one after the other. -/
def runAll (s : Store) : List Op → Store
  | [] => s
  | op :: rest => runAll (run s op).store rest

/-- States the system can be in: those obtained from the empty store by requests. -/
inductive Reachable : Store → Prop where
  | init : Reachable Store.empty
  | step {s : Store} (op : Op) : Reachable s → Reachable (run s op).store

/-! ## Specification predicates and scenarios -/

/-- What a send by `S` with the given text and attachments leaves in the channel `c`, read
from the stored channel `c'`: no unread message for `S`, one more for every other member,
the summary text and the sender in the summary. -/
def SentBy (S : UserId) (text : String) (attachments : List Attachment) (c c' : Channel) : Prop :=
  UMap.get c'.unreadCounts S = some 0 ∧
  (∀ u ∈ c.users, u ≠ S →
    UMap.get c'.unreadCounts u = some ((UMap.get c.unreadCounts u).getD 0 + 1)) ∧
  c'.lastMessage = (if text = "" ∧ attachments ≠ [] then "[Attachment]" else text) ∧
  c'.lastMessageSenderId = some S

/-- Scenario A up to the send: U1 (id 0) and U2 (id 1) register, U1 creates the direct channel
(id 2) with U2. -/
def scenarioA : Store :=
  runAll Store.empty
    [Op.register "U1" "u1@example.org", Op.register "U2" "u2@example.org",
     Op.createChannel true 5 0 { type := "direct", name := "", users := some [1] } ""]

/-- The direct channel of `scenarioA`. -/
def directA : Channel :=
  { id := 2, type := "direct", name := "U2", users := [0, 1], inviteToken := none, deletedAt := [],
    lastMessage := "", lastMessageTime := 5, lastMessageSenderId := none, unreadCounts := [],
    createdAt := 5, updatedAt := 5 }

/-- An attachment. -/
def picture : Attachment :=
  { id := "a1", type := "image", name := "cat.png", url := "https://files.example.org/cat.png",
    size := 2048 }

/-- Three users U1, U2, U3 (ids 0, 1, 2); the group "team" (id 3) of all three, created by U1;
the direct channel (id 4) of U1 and U2; U1 has sent "hello" (id 5) to the group and "one"
(id 6) and "two" (id 7) to the direct channel.  Nobody has marked anything seen. -/
def scenarioM : Store :=
  runAll Store.empty
    [Op.register "U1" "u1@example.org", Op.register "U2" "u2@example.org",
     Op.register "U3" "u3@example.org",
     Op.createChannel true 5 0 { type := "group", name := "team", users := some [1, 2] } "t0",
     Op.createChannel true 6 0 { type := "direct", name := "", users := some [1] } "",
     Op.httpSendMessage true 7 0
       { channelId := 3, text := "hello", replyTo := none, forwardedFrom := none,
         attachments := [] },
     Op.httpSendMessage true 8 0
       { channelId := 4, text := "one", replyTo := none, forwardedFrom := none,
         attachments := [] },
     Op.httpSendMessage true 9 0
       { channelId := 4, text := "two", replyTo := none, forwardedFrom := none,
         attachments := [] }]

/-- U1 forwards the group message 5 to the direct channel 4 over the socket. -/
def forwardToDirect : Outcome := SocketService.forwardMessage 20 scenarioM 0 5 4

/-- U2 marks the group message 5 seen over the socket and names the direct channel 4. -/
def seenNamingDirect : Outcome := SocketService.markSeen 20 scenarioM 1 4 5

/-- U2 marks the direct message 6 seen over the socket and names the group 3. -/
def seenNamingGroup : Outcome := SocketService.markSeen 20 scenarioM 1 3 6

/-- U3, who is not in the direct channel 4, marks its message 6 seen over the socket and names
the group 3. -/
def seenByOutsider : Outcome := SocketService.markSeen 20 scenarioM 2 3 6

/-- U1 sends `text` to the direct channel of `scenarioA` at time 9 (message id 3). -/
def sentInA (text : String) : Store :=
  (MessageController.sendMessage true 9 scenarioA 0
    { channelId := 2, text := text, replyTo := none, forwardedFrom := none,
      attachments := [] }).store

/-- U1 sends "hi" and, one second later, edits it to "hello" over HTTP. -/
def editedInA : Outcome := MessageController.editMessage true 1009 (sentInA "hi") 0 3 "hello"

/-- The same edit over the socket. -/
def editedInASocket : Outcome := SocketService.editMessage 1009 (sentInA "hi") 0 3 "hello" 2

/-- The relation between a stored message `m` and a later state `m'` of it: the visibility set has
not grown, a status `seen` is kept, and channel, author and creation time are the same. -/
def Message.Later (m m' : Message) : Prop :=
  m'.visibleTo ⊆ m.visibleTo ∧ (m.status = Status.seen → m'.status = Status.seen) ∧
    m'.channelId = m.channelId ∧ m'.user = m.user ∧ m'.createdAt = m.createdAt

/-- Every message of `ms'` is a later state of a message of `ms` with the same id. -/
def Derived (ms ms' : List Message) : Prop :=
  ∀ m' ∈ ms', ∃ m ∈ ms, m.id = m'.id ∧ Message.Later m m'

/-- The message collection after a request either got new documents at its end, or consists of
later states of documents it had before. -/
def MessagesEvolve (ms ms' : List Message) : Prop :=
  (∃ extra, ms' = ms ++ extra) ∨ Derived ms ms'

/-- Message 6 of `scenarioM`: "one", sent by U1 to the direct channel 4. -/
def messageOne : Message :=
  { id := 6, channelId := 4, user := 0, senderId := 0, senderName := "U1", text := "one",
    attachments := [], replyTo := none, forwardedFrom := none, status := Status.sent,
    createdAt := 8, visibleTo := [0, 1] }

/-- The store `scenarioM` after U2 has marked message 6 seen over HTTP. -/
def scenarioSeen : Store := (MessageController.markSeen true 20 scenarioM 1 6).store

/-- No stored value of a per-user counter map is negative. -/
def MapNonNeg (m : UMap Int) : Prop := ∀ p ∈ m, 0 ≤ p.2

/-- No stored unread counter of any channel is negative. -/
def CountsNonNeg (cs : List Channel) : Prop := ∀ c ∈ cs, MapNonNeg c.unreadCounts

/-- C7 as stated, for one store: every member's stored unread entry (0 when absent) is the
number of messages of the channel written by others for which the member has no receipt. -/
def UnreadExact (s : Store) : Prop :=
  ∀ c ∈ s.channels, ∀ u ∈ c.users,
    (UMap.get c.unreadCounts u).getD 0 = countUnread s.messages s.receipts c.id u

/-- Scenario A followed by a deletion: U1 sends "hi" to the direct channel and deletes the
message again. -/
def sentAndDeleted : Store :=
  runAll Store.empty
    [Op.register "U1" "u1@example.org", Op.register "U2" "u2@example.org",
     Op.createChannel true 5 0 { type := "direct", name := "", users := some [1] } "",
     Op.httpSendMessage true 9 0
       { channelId := 2, text := "hi", replyTo := none, forwardedFrom := none,
         attachments := [] },
     Op.httpDeleteMessage true 12 0 3]

/-- The writes of `markSeen`, which the HTTP handler and the socket handler share: the receipt,
the promotion to `seen`, and the unread entry of `userId` in `channel`, recounted over the
messages of channel `countIn`. -/
def markSeenWrites (now : Time) (s : Store) (userId : UserId) (messageId : MessageId)
    (countIn : ChannelId) (message : Message) (channel : Channel) : Store :=
  let receipts := upsertReceipt s.receipts messageId userId now
  let messages :=
    if seenByAll receipts channel message then setSeen s.messages messageId else s.messages
  { s with
    receipts := receipts
    messages := messages
    channels := saveChannel now s.channels
      { channel with
        unreadCounts :=
          UMap.set channel.unreadCounts userId (countUnread messages receipts countIn userId) } }

/-- What C8 compares: the `(messageId, userId)` pairs of the receipts, the messages, and the
unread map of every channel. -/
def seenView (s : Store) :
    List (MessageId × UserId) × List Message × List (ChannelId × UMap Int) :=
  (s.receipts.map (fun r => (r.messageId, r.userId)), s.messages,
    s.channels.map (fun c => (c.id, c.unreadCounts)))

/-- U1 sends "hi" to the direct channel of `scenarioA` over the socket at server time 1000000;
the client reports the time `timestamp`. -/
def socketSentInA (timestamp : Time) : Store :=
  (SocketService.sendMessage 1000000 scenarioA 0
    { channelId := 2, content := "hi", attachments := [], replyTo := none,
      timestamp := some timestamp }).store

/-- U1 deletes message 7 of the direct channel 4 over the socket and names the group 3. -/
def deletedNamingGroup : Outcome := SocketService.deleteMessage 30 scenarioM 0 7 3

/-- U1 forwards the direct message 6 to the group 3 over the socket. -/
def forwardToGroup : Outcome := SocketService.forwardMessage 20 scenarioM 0 6 3

/-- U1 sets the member list of the direct channel 4 to U1, U2 and U3. -/
def directWithThree : Outcome :=
  ChannelsController.updateChannel true 30 scenarioM 0 4 { name := "", users := some [0, 1, 2] }

/-- In scenario A, U1 sends "hi" (message 3), U2 answers "re" (message 4) as a reply to it, and
U1 edits message 3 to "hello". -/
def replyThenEdit : Store :=
  runAll (sentInA "hi")
    [Op.httpSendMessage true 10 1
       { channelId := 2, text := "re", replyTo := some 3, forwardedFrom := none,
         attachments := [] },
     Op.httpEditMessage true 1009 0 3 "hello"]

/-- Message 5 of `scenarioM`: "hello", sent by U1 to the group 3. -/
def messageHello : Message :=
  { id := 5, channelId := 3, user := 0, senderId := 0, senderName := "U1", text := "hello",
    attachments := [], replyTo := none, forwardedFrom := none, status := Status.sent,
    createdAt := 7, visibleTo := [1, 2, 0] }

/-- The direct channel 4 of `scenarioM`. -/
def directM : Channel :=
  { id := 4, type := "direct", name := "U2", users := [0, 1], inviteToken := none,
    deletedAt := [], lastMessage := "two", lastMessageTime := 9, lastMessageSenderId := some 0,
    unreadCounts := [(0, 0), (1, 2)], createdAt := 6, updatedAt := 9 }

/-- No channel lists a member twice. -/
def UsersNodup (cs : List Channel) : Prop := ∀ c ∈ cs, c.users.Nodup

/-- In scenario A, U1 has sent "hi" (message 3) and U2 has answered "re" (message 4) as a
reply to it. -/
def repliedInA : Store :=
  (MessageController.sendMessage true 10 (sentInA "hi") 1
    { channelId := 2, text := "re", replyTo := some 3, forwardedFrom := none,
      attachments := [] }).store

/-- The reply of `repliedInA` as `fetchMessages` returns it after message 3 was edited to
"hello". -/
def fetchedReply : MessageController.FetchedMessage :=
  { id := 4, channelId := 2, senderId := 1, senderName := "U2", content := "re",
    attachments := [], timestamp := 10, status := Status.sent,
    replyTo := some { id := 3, senderId := 0, senderName := "U1", content := "hello" },
    forwardedFrom := none, seenBy := [], visibleTo := [0, 1] }

/-- The member list `createChannel` gives a direct channel requested by `userId` with the
list `users`: the requester added, repetitions dropped, sorted. -/
def directPair (users : List UserId) (userId : UserId) : List UserId :=
  (ChannelsController.uniq (users ++ [userId])).insertionSort (fun a b => a ≤ b)

/-- Query `Channel.findOne({ type: "direct", users: { $all: pair, $size: 2 } })` of
`createChannel`. -/
def findDirect (cs : List Channel) (pair : List UserId) : Option Channel :=
  cs.find? (fun c =>
    decide (c.type = "direct") && decide (c.users.length = 2) &&
      pair.all (fun u => decide (u ∈ c.users)))

/-- C19 as stated, for one store: the unread map of every channel has an entry for every
member. -/
def EveryMemberHasEntry (s : Store) : Prop :=
  ∀ c ∈ s.channels, ∀ u ∈ c.users, (UMap.get c.unreadCounts u).isSome = true

/-- U1 and U2 are registered; nothing else has happened. -/
def twoUsers : Store :=
  runAll Store.empty [Op.register "U1" "u1@example.org", Op.register "U2" "u2@example.org"]

/-- Scenario C up to the soft delete: in scenario A, U1 sends "hi" (message 3) and soft-deletes
the direct channel at time 20; U2 then sends "yo" (message 4). -/
def softDeletedA : Store :=
  runAll (sentInA "hi")
    [Op.deleteChannel true 20 0 2,
     Op.httpSendMessage true 25 1
       { channelId := 2, text := "yo", replyTo := none, forwardedFrom := none,
         attachments := [] }]

/-- The store `createChannel` leaves when it creates a channel. -/
def createdStore (now : Time) (s : Store) (type name : String) (users : List UserId)
    (inviteToken : Option String) : Store :=
  { s with
    channels := s.channels ++
      [{ id := s.nextId, type := type, name := name, users := users, inviteToken := inviteToken,
         deletedAt := [], lastMessage := "", lastMessageTime := now, lastMessageSenderId := none,
         unreadCounts := [], createdAt := now, updatedAt := now }]
    nextId := s.nextId + 1 }

/-- Two channels that are both direct channels of one and the same set of users. -/
def SameDirectPair (c1 c2 : Channel) : Prop :=
  c1.type = "direct" ∧ c2.type = "direct" ∧ ∀ v, v ∈ c1.users ↔ v ∈ c2.users

/-- At most one direct channel per unordered pair: no two stored channels are direct channels
of the same set of users. -/
def DirectUnique (cs : List Channel) : Prop :=
  cs.Pairwise (fun c1 c2 => ¬ SameDirectPair c1 c2)

/-- The states reached from a store without channels by `createChannel` calls, one after the
other. -/
inductive CreatedOnly : Store → Prop where
  | init (s : Store) (h : s.channels = []) : CreatedOnly s
  | step {s : Store} (busUp : Bool) (now : Time) (u : UserId)
      (body : ChannelsController.CreateBody) (token : String) :
      CreatedOnly s → CreatedOnly (ChannelsController.createChannel busUp now s u body token).store

/-- What the `createChannel` calls maintain: channel ids are below the id counter and pairwise
different, a direct channel has two members, and no pair has two direct channels. -/
structure ChannelsWF (s : Store) : Prop where
  fresh : ∀ c ∈ s.channels, c.id < s.nextId
  ids : (s.channels.map (fun c => c.id)).Nodup
  two : ∀ c ∈ s.channels, c.type = "direct" → c.users.length = 2
  unique : DirectUnique s.channels

namespace ChannelsController

/-- One element of the array answered by `listChannels`; `users` are the populated members
with their names. -/
structure ChannelEntry where
  id : ChannelId
  name : String
  type : String
  users : List (UserId × String)
  lastMessage : String
  lastMessageTime : Time
  unreadCount : Int
  lastMessageSenderId : Option UserId
deriving DecidableEq, Repr

/-- Query `Message.findOne({ channelId, visibleTo: userId }).sort({ createdAt: -1 })`. -/
def lastVisible (ms : List Message) (cid : ChannelId) (userId : UserId) : Option Message :=
  newest (ms.filter (fun m => decide (m.channelId = cid) && decide (userId ∈ m.visibleTo)))

/-- The order `.sort({ lastMessageTime: -1, updatedAt: -1 })`. -/
def listBefore (a b : Channel) : Bool :=
  decide (a.lastMessageTime > b.lastMessageTime) ||
    (decide (a.lastMessageTime = b.lastMessageTime) && decide (a.updatedAt ≥ b.updatedAt))

/-- Query `Channel.find({ users: userId, $or: [...] }).sort(...)` of `listChannels`: the channels
that list the user as a member and carry no `deletedAt` entry for the user, in list order. -/
def listedChannels (cs : List Channel) (userId : UserId) : List Channel :=
  (cs.filter (fun c => decide (userId ∈ c.users) && (UMap.get c.deletedAt userId).isNone)).insertionSort
    (fun a b => listBefore a b = true)

/-- The object `listChannels` builds for one channel. -/
def entryOf (s : Store) (userId : UserId) (channel : Channel) : ChannelEntry :=
  let members := channel.users.filterMap (findUser s.users)
  let lastMessage := lastVisible s.messages channel.id userId
  { id := channel.id,
    name :=
      if channel.type = "direct" then
        match members.find? (fun u => decide (u.id ≠ userId)) with
        | some other => if other.name ≠ "" then other.name else "Direct Chat"
        | none => "Direct Chat"
      else channel.name,
    type := channel.type,
    users := members.map (fun u => (u.id, u.name)),
    lastMessage := match lastMessage with
      | some m => m.text
      | none => "",
    lastMessageTime := match lastMessage with
      | some m => m.createdAt
      | none => channel.createdAt,
    unreadCount := (UMap.get channel.unreadCounts userId).getD 0,
    lastMessageSenderId := lastMessage.bind (fun m => (findUser s.users m.user).map (fun u => u.id)) }

/-- Handler `listChannels`: the answered array.  The store is not written and nothing is sent.
A channel without a visible message that carries a `deletedAt` entry of the user is skipped. -/
def listChannels (s : Store) (userId : UserId) : List ChannelEntry :=
  (listedChannels s.channels userId).filterMap (fun channel =>
    if (lastVisible s.messages channel.id userId).isNone ∧
        (UMap.get channel.deletedAt userId).isSome then none
    else some (entryOf s userId channel))

end ChannelsController

/-- In scenario A, U1 sends one attachment and no text. -/
def attachmentSentInA : Store :=
  (MessageController.sendMessage true 9 scenarioA 0
    { channelId := 2, text := "", replyTo := none, forwardedFrom := none,
      attachments := [picture] }).store

/-- In `scenarioM`, U2 deletes the group 3 with the HTTP handler at time 30; U1 and U3 stay. -/
def groupLeftHttp : Outcome := ChannelsController.deleteChannel true 30 scenarioM 1 3

/-- The same request over the socket. -/
def groupLeftSocket : Outcome := SocketService.deleteChat 30 scenarioM 1 3

/-- In `scenarioM`, U1 takes U3 out of the group 3 with `updateChannel` at time 30. -/
def memberRemoved : Outcome :=
  ChannelsController.updateChannel true 30 scenarioM 0 3 { name := "", users := some [0, 1] }

/-- The request `op` with the socket layer available (`true`) or not (`false`) to the HTTP
handler that serves it, that is, with `getIO()` returning or throwing.  The handlers of the
socket service run inside the socket layer and take no such flag. -/
def Op.withBus (b : Bool) : Op → Op
  | Op.createChannel _ now userId body token => Op.createChannel b now userId body token
  | Op.updateChannel _ now userId channelId body => Op.updateChannel b now userId channelId body
  | Op.deleteChannel _ now userId channelId => Op.deleteChannel b now userId channelId
  | Op.httpSendMessage _ now userId body => Op.httpSendMessage b now userId body
  | Op.httpFetchMessages _ now userId channelId => Op.httpFetchMessages b now userId channelId
  | Op.httpMarkSeen _ now userId messageId => Op.httpMarkSeen b now userId messageId
  | Op.httpDeleteMessage _ now userId messageId => Op.httpDeleteMessage b now userId messageId
  | Op.httpEditMessage _ now userId messageId text =>
    Op.httpEditMessage b now userId messageId text
  | op => op

/-- The answers with which a handler refuses a request at one of its checks: the HTTP codes
400, 403 and 404, and the socket errors sent by a `return socket.emit('error', ...)` in front
of the first write.  The code 500 and the socket errors `Failed to ...` are the answers of the
catch blocks and are not among them. -/
def Reply.isRefusal : Reply → Bool
  | Reply.http code => decide (code = 400 ∨ code = 403 ∨ code = 404)
  | Reply.ack => false
  | Reply.noAnswer => false
  | Reply.socketError message =>
    decide (message ∈
      ["Unauthorized or invalid channel", "Invalid replyTo message", "Message not found",
       "Unauthorized to delete this message", "Unauthorized to edit this message",
       "Message can only be edited within 5 minutes of sending",
       "Unauthorized or invalid source channel",
       "Unauthorized, invalid, or deleted target channel"])

/-- The document `m` as `pullVisible ms cid uid` leaves it: a message of the channel `cid`
loses `uid` from its `visibleTo`, any other message is untouched. -/
def pulled (cid : ChannelId) (uid : UserId) (m : Message) : Message :=
  if m.channelId = cid then
    { m with visibleTo := m.visibleTo.filter (fun v => decide (v ≠ uid)) }
  else m

/-- A fetched message with `uid` taken out of its `visibleTo` field. -/
def hideFrom (uid : UserId) (f : MessageController.FetchedMessage) :
    MessageController.FetchedMessage :=
  { f with visibleTo := f.visibleTo.filter (fun v => decide (v ≠ uid)) }

/-- C23 (amended), for a store `t` reached from the store `s` in which `c` was the channel
`cid`: what `fetchMessages` answers to `U2` in `t` is what it answers in `s` with `U1` taken out
of the `visibleTo` fields; `fetchMessages` answers no message to `U1`; and the channel `c'`
stored for `cid` in `t` is listed to `U2` by `listChannels` with the unread count, the
`lastMessage` and the `lastMessageSenderId` that `c` was listed with, has the unread entry of
`U2` that `c` had, and has a cleared stored summary. -/
def ViewKept (s t : Store) (U1 U2 : UserId) (cid : ChannelId) (c : Channel) : Prop :=
  (∀ b n, (MessageController.fetchMessages b n t U2 cid).2 =
    ((MessageController.fetchMessages b n s U2 cid).2).map (hideFrom U1)) ∧
  (∀ b n, (MessageController.fetchMessages b n t U1 cid).2 = []) ∧
  ∃ c', findChannelFor t.channels cid U2 = some c' ∧
    c' ∈ ChannelsController.listedChannels t.channels U2 ∧
    UMap.get c'.unreadCounts U2 = UMap.get c.unreadCounts U2 ∧
    (ChannelsController.entryOf t U2 c').unreadCount
      = (ChannelsController.entryOf s U2 c).unreadCount ∧
    (ChannelsController.entryOf t U2 c').lastMessage
      = (ChannelsController.entryOf s U2 c).lastMessage ∧
    (ChannelsController.entryOf t U2 c').lastMessageSenderId
      = (ChannelsController.entryOf s U2 c).lastMessageSenderId ∧
    c'.lastMessage = "" ∧ c'.lastMessageSenderId = none

/-- Scenario C: in scenario A, U1 has sent "hi" (message 3); U1 deletes the direct channel at
time 20. -/
def deletedA : Store := (ChannelsController.deleteChannel true 20 (sentInA "hi") 0 2).store

/-- Scenario C, continued: U1 asks `createChannel` for the direct channel with U2 again at time
30. -/
def recreatedA : Store :=
  (ChannelsController.createChannel true 30 deletedA 0
    { type := "direct", name := "", users := some [1] } "").store

/-- No stored channel carries a `deletedAt` entry. -/
def NoDeletedAt (cs : List Channel) : Prop := ∀ c ∈ cs, c.deletedAt = []

/-- Scenario E up to the last request: in `scenarioM`, U2 deletes the group 3 over HTTP at time
30 and U3 over the socket at time 31. -/
def groupTwoLeft : Store :=
  runAll scenarioM [Op.deleteChannel true 30 1 3, Op.socketDeleteChat 31 2 3]

/-- Scenario E: U1, the last member who has not deleted the group 3, deletes it at time 40. -/
def groupAllLeft : Outcome := ChannelsController.deleteChannel true 40 groupTwoLeft 0 3

/-- U1 registers, creates the group "solo" (id 1) with nobody else, and sends "memo" (message 2)
to it. -/
def soloGroup : Store :=
  runAll Store.empty
    [Op.register "U1" "u1@example.org",
     Op.createChannel true 5 0 { type := "group", name := "solo", users := some [] } "t0",
     Op.httpSendMessage true 7 0
       { channelId := 1, text := "memo", replyTo := none, forwardedFrom := none,
         attachments := [] }]

/-- In `soloGroup`, U1 deletes the group with `deleteChannel` at time 20. -/
def soloLeft : Outcome := ChannelsController.deleteChannel true 20 soloGroup 0 1

/-- In `soloGroup`, U1 sends the empty member list with `updateChannel` at time 20, which takes
U1, the only member, out of the group. -/
def soloEmptied : Outcome :=
  ChannelsController.updateChannel true 20 soloGroup 0 1 { name := "", users := some [] }

/-- In scenario A with the message "hi", U1 and then U2 delete the direct channel. -/
def bothDeletedA : Store :=
  runAll (sentInA "hi") [Op.deleteChannel true 20 0 2, Op.socketDeleteChat 21 1 2]

/-- Scenario C with a message in between: in `softDeletedA` (U1 has deleted the direct channel,
U2 has sent "yo" since) U1 asks `createChannel` for the direct channel with U2 at time 30. -/
def recreatedAfterYo : Outcome :=
  ChannelsController.createChannel true 30 softDeletedA 0
    { type := "direct", name := "", users := some [1] } ""

/-! ## Lemmas on per-user maps and on the queries -/

theorem UMap.get_set {α : Type} (m : UMap α) (k : UserId) (v : α) (k' : UserId) :
    UMap.get (UMap.set m k v) k' = if k = k' then some v else UMap.get m k' := by
  induction m with
  | nil => simp [UMap.set, UMap.get]
  | cons p rest ih =>
    obtain ⟨a, b⟩ := p
    by_cases h : a = k
    · subst h
      by_cases h2 : a = k' <;> simp [UMap.set, UMap.get, h2]
    · by_cases h2 : a = k'
      · subst h2
        have h3 : ¬ k = a := fun e => h e.symm
        simp [UMap.set, UMap.get, h, h3]
      · simp [UMap.set, UMap.get, h, h2, ih]

theorem UMap.set_set {α : Type} (m : UMap α) (k : UserId) (v w : α) :
    UMap.set (UMap.set m k v) k w = UMap.set m k w := by
  induction m with
  | nil => simp [UMap.set]
  | cons p rest ih =>
    obtain ⟨a, b⟩ := p
    by_cases h : a = k <;> simp [UMap.set, h, ih]

theorem get_bumpOthers_of_not_mem (users : List UserId) (me u : UserId) (m : UMap Int)
    (hu : u ∉ users) : UMap.get (bumpOthers users me m) u = UMap.get m u := by
  induction users generalizing m with
  | nil => rfl
  | cons x rest ih =>
    have hx : x ≠ u := fun h => hu (h ▸ List.mem_cons_self _ _)
    have hr : u ∉ rest := fun h => hu (List.mem_cons_of_mem _ h)
    simp only [bumpOthers, List.foldl_cons] at ih ⊢
    rw [ih _ hr]
    by_cases hme : x = me
    · simp [hme]
    · simp [hme, UMap.get_set, hx]

theorem get_bumpOthers_of_mem (users : List UserId) (me u : UserId) (m : UMap Int)
    (hnd : users.Nodup) (hu : u ∈ users) (hne : u ≠ me) :
    UMap.get (bumpOthers users me m) u = some ((UMap.get m u).getD 0 + 1) := by
  induction users generalizing m with
  | nil => cases hu
  | cons x rest ih =>
    have hnd2 := List.nodup_cons.mp hnd
    by_cases hx : x = u
    · subst hx
      have h := get_bumpOthers_of_not_mem rest me x
        (UMap.set m x ((UMap.get m x).getD 0 + 1)) hnd2.1
      simp only [bumpOthers, List.foldl_cons] at h ⊢
      simp only [hne, ne_eq, not_false_eq_true, if_true]
      rw [h, UMap.get_set]
      simp
    · have hr : u ∈ rest := by
        rcases List.mem_cons.mp hu with h | h
        · exact absurd h.symm hx
        · exact h
      simp only [bumpOthers, List.foldl_cons] at ih ⊢
      rw [ih _ hnd2.2 hr]
      by_cases hme : x = me
      · simp [hme]
      · simp [hme, UMap.get_set, hx]

theorem get_bumpOthers_me (users : List UserId) (me : UserId) (m : UMap Int) :
    UMap.get (bumpOthers users me m) me = UMap.get m me := by
  induction users generalizing m with
  | nil => rfl
  | cons x rest ih =>
    simp only [bumpOthers, List.foldl_cons] at ih ⊢
    rw [ih]
    by_cases hme : x = me
    · simp [hme]
    · simp [hme, UMap.get_set]

theorem findChannel_saveChannel (now : Time) (cs : List Channel) (c c1 : Channel) (uid : UserId)
    (hfind : findChannelFor cs c.id uid = some c) (hid : c1.id = c.id) :
    findChannel (saveChannel now cs c1) c.id = some { c1 with updatedAt := now } := by
  induction cs with
  | nil => simp [findChannelFor] at hfind
  | cons x rest ih =>
    by_cases hx : x.id = c.id
    · have hx1 : x.id = c1.id := hx.trans hid.symm
      simp only [saveChannel, List.map_cons, findChannel, List.find?_cons, hx1, if_true]
      simp [hid]
    · have hx1 : ¬ x.id = c1.id := fun e => hx (e.trans hid)
      have hrest : findChannelFor rest c.id uid = some c := by
        simpa [findChannelFor, List.find?_cons, hx] using hfind
      have h2 := ih hrest
      simp only [saveChannel, findChannel] at h2
      simp only [saveChannel, findChannel, List.map_cons, List.find?_cons, hx1, if_false, hx,
        decide_False]
      exact h2

theorem findChannelFor_id (cs : List Channel) (id : ChannelId) (uid : UserId) (c : Channel)
    (h : findChannelFor cs id uid = some c) : c.id = id ∧ uid ∈ c.users := by
  have := List.find?_some h
  simpa using this

/-! ## C1: what a send leaves in the channel -/

theorem summaryText_eq (text : String) (attachments : List Attachment) :
    summaryText text attachments =
      if text = "" ∧ attachments ≠ [] then "[Attachment]" else text := by
  unfold summaryText
  by_cases h : text = ""
  · by_cases h2 : attachments = []
    · simp [h, h2]
    · simp [h, h2]
  · simp [h]

theorem sentBy_of_bump (S : UserId) (text : String) (attachments : List Attachment)
    (now t : Time) (c : Channel) (hnd : c.users.Nodup) :
    SentBy S text attachments c
      { c with
        lastMessage := summaryText text attachments
        lastMessageTime := t
        lastMessageSenderId := some S
        unreadCounts := bumpOthers c.users S (UMap.set c.unreadCounts S 0)
        updatedAt := now } := by
  refine ⟨?_, ?_, ?_, rfl⟩
  · simp [get_bumpOthers_me, UMap.get_set]
  · intro u hu hne
    have hne2 : ¬ S = u := fun e => hne e.symm
    simp [get_bumpOthers_of_mem _ _ _ _ hnd hu hne, UMap.get_set, hne2]
  · exact summaryText_eq text attachments

theorem http_send_channels (busUp : Bool) (now : Time) (s : Store) (S : UserId)
    (c : Channel) (body : MessageController.SendBody)
    (hc : findChannelFor s.channels body.channelId S = some c)
    (hok : (MessageController.sendMessage busUp now s S body).succeeded = true) :
    (MessageController.sendMessage busUp now s S body).store.channels =
      saveChannel now s.channels
        { c with
          lastMessage := summaryText body.text body.attachments
          lastMessageTime := now
          lastMessageSenderId := some S
          unreadCounts := bumpOthers c.users S (UMap.set c.unreadCounts S 0) } := by
  unfold MessageController.sendMessage at hok ⊢
  simp only [hc] at hok ⊢
  cases hr : replyToValid s.messages body.replyTo body.channelId
  · simp [hr, Outcome.succeeded] at hok
  · cases hu : findUser s.users S with
    | none => simp [hr, hu, Outcome.succeeded] at hok
    | some user =>
      cases ha : body.attachments.all Attachment.valid
      · simp [hr, hu, ha, Outcome.succeeded] at hok
      · cases busUp
        · simp [hr, hu, ha, Outcome.succeeded] at hok
        · simp [hr, hu, ha]

theorem socket_send_channels (now : Time) (s : Store) (S : UserId)
    (c : Channel) (message : SocketService.SendPayload)
    (hc : findChannelFor s.channels message.channelId S = some c)
    (hok : (SocketService.sendMessage now s S message).succeeded = true) :
    ∃ timestamp, message.timestamp = some timestamp ∧
    (SocketService.sendMessage now s S message).store.channels =
      saveChannel now s.channels
        { c with
          lastMessage := summaryText message.content message.attachments
          lastMessageTime := timestamp
          lastMessageSenderId := some S
          unreadCounts := bumpOthers c.users S (UMap.set c.unreadCounts S 0) } := by
  unfold SocketService.sendMessage at hok ⊢
  simp only [hc] at hok ⊢
  cases hr : replyToValid s.messages message.replyTo message.channelId
  · simp [hr, Outcome.succeeded] at hok
  · cases hu : findUser s.users S with
    | none => simp [hr, hu, Outcome.succeeded] at hok
    | some user =>
      cases ht : message.timestamp with
      | none => simp [hr, hu, ht, Outcome.succeeded] at hok
      | some timestamp =>
        cases ha : message.attachments.all Attachment.valid
        · simp [hr, hu, ht, ha, Outcome.succeeded] at hok
        · simp [hr, hu, ha]

/-- C1 (amended): for a channel `c` whose member list has no repetition and a member `S` of it,
after a successful `sendMessage` by `S` (HTTP handler or socket handler) the stored channel has
the unread entry 0 for `S`, for every other member its previous entry (0 when absent) plus 1,
`lastMessageSenderId = S`, and `lastMessage` equal to the sent text, or to the placeholder
`[Attachment]` when the text is empty and attachments were sent. -/
theorem send_updates_summary_and_unread (busUp : Bool) (now : Time) (s : Store) (S : UserId)
    (c : Channel) (body : MessageController.SendBody) (message : SocketService.SendPayload)
    (hc : findChannelFor s.channels c.id S = some c) (hnd : c.users.Nodup) :
    (body.channelId = c.id →
      (MessageController.sendMessage busUp now s S body).succeeded = true →
      ∃ c', findChannel (MessageController.sendMessage busUp now s S body).store.channels c.id
          = some c' ∧ SentBy S body.text body.attachments c c') ∧
    (message.channelId = c.id →
      (SocketService.sendMessage now s S message).succeeded = true →
      ∃ c', findChannel (SocketService.sendMessage now s S message).store.channels c.id
          = some c' ∧ SentBy S message.content message.attachments c c') := by
  constructor
  · intro hid hok
    rw [http_send_channels busUp now s S c body (hid ▸ hc) hok]
    exact ⟨_, findChannel_saveChannel now s.channels c _ S hc rfl,
      sentBy_of_bump S body.text body.attachments now now c hnd⟩
  · intro hid hok
    obtain ⟨timestamp, _, hst⟩ := socket_send_channels now s S c message (hid ▸ hc) hok
    rw [hst]
    exact ⟨_, findChannel_saveChannel now s.channels c _ S hc rfl,
      sentBy_of_bump S message.content message.attachments now timestamp c hnd⟩

/-- Scenario A: U1 creates a direct channel with U2 and sends "hi"; afterwards the summary is
"hi", U1 has 0 unread messages and U2 has 1. -/
theorem send_updates_summary_and_unread_witness :
    (MessageController.sendMessage true 9 scenarioA 0
        { channelId := 2, text := "hi", replyTo := none, forwardedFrom := none,
          attachments := [] }).succeeded = true ∧
    ∃ c', findChannel (MessageController.sendMessage true 9 scenarioA 0
        { channelId := 2, text := "hi", replyTo := none, forwardedFrom := none,
          attachments := [] }).store.channels 2 = some c' ∧ SentBy 0 "hi" [] directA c' :=
  ⟨by decide,
   (send_updates_summary_and_unread true 9 scenarioA 0 directA
      { channelId := 2, text := "hi", replyTo := none, forwardedFrom := none, attachments := [] }
      { channelId := 2, content := "hi", attachments := [], replyTo := none, timestamp := some 9 }
      (by decide) (by decide)).1 rfl (by decide)⟩

/-- C1 as stated fails for a message without text: U1 sends one attachment and an empty text
to the direct channel; both handlers succeed and store the summary `[Attachment]`, which is not
the sent text. -/
theorem send_attachment_only_summary :
    (MessageController.sendMessage true 9 scenarioA 0
        { channelId := 2, text := "", replyTo := none, forwardedFrom := none,
          attachments := [picture] }).succeeded = true ∧
    (findChannel (MessageController.sendMessage true 9 scenarioA 0
        { channelId := 2, text := "", replyTo := none, forwardedFrom := none,
          attachments := [picture] }).store.channels 2).map (fun c => c.lastMessage)
      = some "[Attachment]" ∧
    (SocketService.sendMessage 9 scenarioA 0
        { channelId := 2, content := "", attachments := [picture], replyTo := none,
          timestamp := some 9 }).succeeded = true ∧
    (findChannel (SocketService.sendMessage 9 scenarioA 0
        { channelId := 2, content := "", attachments := [picture], replyTo := none,
          timestamp := some 9 }).store.channels 2).map (fun c => c.lastMessage)
      = some "[Attachment]" ∧
    "[Attachment]" ≠ "" := by
  decide

/-! ## C2: visibility of a new message -/

/-- Both send handlers store the new message with `visibleTo` equal to the member list of
the channel. -/
theorem send_visibleTo_members (busUp : Bool) (now : Time) (s : Store) (S : UserId)
    (body : MessageController.SendBody) (message : SocketService.SendPayload) :
    ((MessageController.sendMessage busUp now s S body).succeeded = true →
      ∃ c m, findChannelFor s.channels body.channelId S = some c ∧
        (MessageController.sendMessage busUp now s S body).store.messages = s.messages ++ [m] ∧
        m.channelId = body.channelId ∧ m.visibleTo = c.users) ∧
    ((SocketService.sendMessage now s S message).succeeded = true →
      ∃ c m, findChannelFor s.channels message.channelId S = some c ∧
        (SocketService.sendMessage now s S message).store.messages = s.messages ++ [m] ∧
        m.channelId = message.channelId ∧ m.visibleTo = c.users) := by
  constructor
  · intro hok
    unfold MessageController.sendMessage at hok ⊢
    cases hc : findChannelFor s.channels body.channelId S with
    | none => simp [hc, Outcome.succeeded] at hok
    | some c =>
      simp only [hc] at hok ⊢
      cases hr : replyToValid s.messages body.replyTo body.channelId
      · simp [hr, Outcome.succeeded] at hok
      · cases hu : findUser s.users S with
        | none => simp [hr, hu, Outcome.succeeded] at hok
        | some user =>
          cases ha : body.attachments.all Attachment.valid
          · simp [hr, hu, ha, Outcome.succeeded] at hok
          · cases busUp
            · simp [hr, hu, ha, Outcome.succeeded] at hok
            · simp [hr, hu, ha]
  · intro hok
    unfold SocketService.sendMessage at hok ⊢
    cases hc : findChannelFor s.channels message.channelId S with
    | none => simp [hc, Outcome.succeeded] at hok
    | some c =>
      simp only [hc] at hok ⊢
      cases hr : replyToValid s.messages message.replyTo message.channelId
      · simp [hr, Outcome.succeeded] at hok
      · cases hu : findUser s.users S with
        | none => simp [hr, hu, Outcome.succeeded] at hok
        | some user =>
          cases ht : message.timestamp with
          | none => simp [hr, hu, ht, Outcome.succeeded] at hok
          | some timestamp =>
            cases ha : message.attachments.all Attachment.valid
            · simp [hr, hu, ht, ha, Outcome.succeeded] at hok
            · simp [hr, hu, ha]

/-- C2, the forward handler at a concrete input: U1 forwards the group message 5 to the direct
channel 4, whose members are U1 and U2.  The handler succeeds, and the message it creates
(id 8, `forwardedFrom = 5`) is stored with an empty `visibleTo`, so that `fetchMessages` returns
it to neither member. -/
theorem forward_creates_invisible_message :
    forwardToDirect.succeeded = true ∧
    (findChannel scenarioM.channels 4).map (fun c => c.users) = some [0, 1] ∧
    findMessage scenarioM.messages 8 = none ∧
    (findMessage forwardToDirect.store.messages 8).map
      (fun m => (m.channelId, m.forwardedFrom, m.text, m.visibleTo)) = some (4, some 5, "hello", []) ∧
    ((MessageController.fetchMessages true 21 forwardToDirect.store 0 4).2.map (fun m => m.id)
      = [6, 7]) ∧
    ((MessageController.fetchMessages true 21 forwardToDirect.store 1 4).2.map (fun m => m.id)
      = [6, 7]) := by
  decide

/-! ## C4, C6, C9: the socket handler `markSeen` and the channel named by the client -/

/-- C4 at a concrete input: message 5 belongs to the group 3 (members U2, U3, U1; author U1)
and has status `sent`.  U2 marks it seen over the socket, naming the direct channel 4.  The
status becomes `seen` although U3, a member of the owning channel, has no receipt. -/
theorem socket_markSeen_promotes_without_all_receipts :
    seenNamingDirect.succeeded = true ∧
    (findMessage scenarioM.messages 5).map (fun m => (m.channelId, m.user, m.status))
      = some (3, 0, Status.sent) ∧
    (findChannel scenarioM.channels 3).map (fun c => c.users) = some [1, 2, 0] ∧
    (findMessage seenNamingDirect.store.messages 5).map (fun m => m.status) = some Status.seen ∧
    hasReceipt seenNamingDirect.store.receipts 5 2 = false := by
  decide

/-- C6 at a concrete input: the direct channel 4 holds the messages 6 and 7 of U1, and U2 has
2 unread messages there.  U2 marks message 6 seen over the socket, naming the group 3.  The
receipt is stored, one message of the direct channel is left without a receipt of U2, and the
unread entry of U2 in the direct channel is still 2. -/
theorem socket_markSeen_leaves_owning_unread :
    seenNamingGroup.succeeded = true ∧
    (findMessage scenarioM.messages 6).map (fun m => m.channelId) = some 4 ∧
    hasReceipt seenNamingGroup.store.receipts 6 1 = true ∧
    countUnread seenNamingGroup.store.messages seenNamingGroup.store.receipts 4 1 = 1 ∧
    (findChannel seenNamingGroup.store.channels 4).map (fun c => UMap.get c.unreadCounts 1)
      = some (some 2) := by
  decide

/-- C9 at a concrete input: U3 is not a member of the direct channel 4, which owns message 6.
Over the socket U3 marks message 6 seen, naming the group 3 of which U3 is a member.  The
handler answers without an error and stores a receipt of U3 for message 6. -/
theorem socket_markSeen_by_outsider_stores_receipt :
    (findMessage scenarioM.messages 6).map (fun m => m.channelId) = some 4 ∧
    (findChannel scenarioM.channels 4).map (fun c => c.users) = some [0, 1] ∧
    scenarioM.receipts = [] ∧
    seenByOutsider.succeeded = true ∧
    seenByOutsider.store.receipts = [{ messageId := 6, userId := 2, seenAt := 20 }] := by
  decide

/-- The HTTP handler refuses the same request: a user who is not a member of the channel owning
the message gets status 403 and the store is left as it was. -/
theorem http_markSeen_refuses_outsider (busUp : Bool) (now : Time) (s : Store) (userId : UserId)
    (messageId : MessageId) (m : Message) (hm : findMessage s.messages messageId = some m)
    (hout : ∀ c ∈ s.channels, c.id = m.channelId → userId ∉ c.users) :
    MessageController.markSeen busUp now s userId messageId = ⟨s, Reply.http 403, []⟩ := by
  unfold MessageController.markSeen
  have hnone : findChannelFor s.channels m.channelId userId = none := by
    unfold findChannelFor
    rw [List.find?_eq_none]
    intro c hc
    by_cases hid : c.id = m.channelId
    · simp [hid, hout c hc hid]
    · simp [hid]
  simp [hm, hnone]

/-! ## C10: what a fetch shows of an edit -/

/-- C10 at a concrete input: U1 sends "hi" to the direct channel and edits it to "hello" one
second later (HTTP or socket handler).  Both edits succeed.  U2 then fetches the channel and
gets the message with `content = "hello"`; the answer is, field by field, the one U2 gets when
U1 had sent "hello" in the first place and never edited it: it carries no `edited` mark. -/
theorem fetch_after_edit_shows_no_edit :
    editedInA.succeeded = true ∧ editedInASocket.succeeded = true ∧
    (MessageController.fetchMessages true 2000 editedInA.store 1 2).2 =
      [{ id := 3, channelId := 2, senderId := 0, senderName := "U1", content := "hello",
         attachments := [], timestamp := 9, status := Status.sent, replyTo := none,
         forwardedFrom := none, seenBy := [], visibleTo := [0, 1] }] ∧
    (MessageController.fetchMessages true 2000 editedInA.store 1 2).2 =
      (MessageController.fetchMessages true 2000 (sentInA "hello") 1 2).2 ∧
    (MessageController.fetchMessages true 2000 editedInASocket.store 1 2).2 =
      (MessageController.fetchMessages true 2000 (sentInA "hello") 1 2).2 ∧
    editedInA.store.messages = (sentInA "hello").messages := by
  decide

/-! ## C3, C5: how a stored message changes under a request -/

theorem Message.later_refl (m : Message) : Message.Later m m :=
  ⟨fun _ h => h, fun h => h, rfl, rfl, rfl⟩

theorem derived_refl (ms : List Message) : Derived ms ms :=
  fun m hm => ⟨m, hm, rfl, Message.later_refl m⟩

theorem derived_of_subset {ms ms' : List Message} (h : ms' ⊆ ms) : Derived ms ms' :=
  fun m hm => ⟨m, h hm, rfl, Message.later_refl m⟩

theorem derived_trans {a b c : List Message} (hab : Derived a b) (hbc : Derived b c) :
    Derived a c := by
  intro m'' hm''
  obtain ⟨m', hm', hid', hl'⟩ := hbc m'' hm''
  obtain ⟨m, hm, hid, hl⟩ := hab m' hm'
  refine ⟨m, hm, hid.trans hid', ?_⟩
  obtain ⟨v1, s1, c1, u1, t1⟩ := hl
  obtain ⟨v2, s2, c2, u2, t2⟩ := hl'
  exact ⟨fun x hx => v1 (v2 hx), fun h => s2 (s1 h), c2.trans c1, u2.trans u1, t2.trans t1⟩

theorem derived_setSeen (ms : List Message) (mid : MessageId) : Derived ms (setSeen ms mid) := by
  induction ms with
  | nil => intro m hm; simp [setSeen] at hm
  | cons x rest ih =>
    intro m' hm'
    by_cases hx : x.id = mid
    · subst hx
      simp only [setSeen, if_true, List.mem_cons] at hm'
      rcases hm' with h | h
      · subst h
        exact ⟨x, List.mem_cons_self _ _, rfl, fun _ h => h, fun _ => rfl, rfl, rfl, rfl⟩
      · exact ⟨m', List.mem_cons_of_mem _ h, rfl, Message.later_refl m'⟩
    · simp only [setSeen, hx, if_false, List.mem_cons] at hm'
      rcases hm' with h | h
      · subst h
        exact ⟨m', List.mem_cons_self _ _, rfl, Message.later_refl m'⟩
      · obtain ⟨m, hm, hid, hl⟩ := ih m' h
        exact ⟨m, List.mem_cons_of_mem _ hm, hid, hl⟩

theorem derived_pullVisible (ms : List Message) (cid : ChannelId) (uid : UserId) :
    Derived ms (pullVisible ms cid uid) := by
  intro m' hm'
  simp only [pullVisible, List.mem_map] at hm'
  obtain ⟨x, hx, rfl⟩ := hm'
  refine ⟨x, hx, ?_, ?_⟩
  · split <;> rfl
  · split
    · exact ⟨fun v hv => (List.mem_filter.mp hv).1, fun h => h, rfl, rfl, rfl⟩
    · exact Message.later_refl x

theorem findMessage_mem {ms : List Message} {i : MessageId} {m : Message}
    (h : findMessage ms i = some m) : m ∈ ms ∧ m.id = i := by
  unfold findMessage at h
  exact ⟨List.mem_of_find?_eq_some h, by simpa using List.find?_some h⟩

theorem eq_of_same_id {ms : List Message} (hnd : (ms.map (fun m => m.id)).Nodup)
    {a b : Message} (ha : a ∈ ms) (hb : b ∈ ms) (h : a.id = b.id) : a = b :=
  List.inj_on_of_nodup_map hnd ha hb h

theorem derived_saveMessage (ms : List Message) (hnd : (ms.map (fun m => m.id)).Nodup)
    (i : MessageId) (m : Message) (text : String) (hfind : findMessage ms i = some m) :
    Derived ms (saveMessage ms { m with text := text }) := by
  intro m' hm'
  simp only [saveMessage, List.mem_map] at hm'
  obtain ⟨x, hx, rfl⟩ := hm'
  by_cases hid : x.id = m.id
  · have hxm : x = m := eq_of_same_id hnd hx (findMessage_mem hfind).1 hid
    subst hxm
    simp only [if_true]
    exact ⟨x, hx, rfl, fun _ h => h, fun h => h, rfl, rfl, rfl⟩
  · simp only [hid, if_false]
    exact ⟨x, hx, rfl, Message.later_refl x⟩

theorem later_of_evolve {ms ms' : List Message} (hnd : (ms.map (fun m => m.id)).Nodup)
    (h : MessagesEvolve ms ms') {i : MessageId} {m m' : Message}
    (hm : findMessage ms i = some m) (hm' : findMessage ms' i = some m') :
    Message.Later m m' := by
  rcases h with ⟨extra, rfl⟩ | h
  · have : findMessage (ms ++ extra) i = some m := by
      unfold findMessage at hm ⊢
      rw [List.find?_append, hm]
      rfl
    rw [this] at hm'
    cases hm'
    exact Message.later_refl m
  · obtain ⟨hmem', hid'⟩ := findMessage_mem hm'
    obtain ⟨hmem, hid⟩ := findMessage_mem hm
    obtain ⟨x, hx, hxid, hl⟩ := h m' hmem'
    have : x = m := eq_of_same_id hnd hx hmem (by rw [hxid, hid', hid])
    exact this ▸ hl

theorem evolve_refl (ms : List Message) : MessagesEvolve ms ms := Or.inr (derived_refl ms)

theorem derived_softDelete (now : Time) (s : Store) (userId : UserId) (channel : Channel) :
    Derived s.messages (softDelete now s userId channel).1.messages := by
  unfold softDelete
  repeat' (first | split | dsimp only)
  · exact derived_trans (derived_pullVisible _ _ _)
      (derived_of_subset (fun _ h => (List.mem_filter.mp h).1))
  · exact derived_pullVisible _ _ _

/-- The system message of `updateChannel` is never stored: its `user` is null, which the
schema rejects. -/
theorem postSystemMessage_throws (busUp : Bool) (now : Time) (s : Store) (channel : Channel)
    (userId : UserId) (text : String) :
    ChannelsController.postSystemMessage busUp now s channel userId text = Except.error s := by
  simp [ChannelsController.postSystemMessage, ChannelsController.validateNewMessage]

theorem postAll_stays (busUp : Bool) (now : Time) (userId : UserId) (suffix : String)
    (uids : List UserId) (s : Store) (channel : Channel) (events : List Event) :
    ChannelsController.postAll busUp now userId suffix uids s channel events
        = Except.ok (s, channel, events) ∨
      ChannelsController.postAll busUp now userId suffix uids s channel events
        = Except.error (s, events) := by
  induction uids with
  | nil => exact Or.inl rfl
  | cons uid rest ih =>
    unfold ChannelsController.postAll
    cases hu : findUser s.users uid with
    | none => simpa [hu] using ih
    | some user => simp [hu, postSystemMessage_throws]

theorem postAll_error {busUp : Bool} {now : Time} {userId : UserId} {suffix : String}
    {uids : List UserId} {s : Store} {channel : Channel} {events : List Event}
    {s1 : Store} {events1 : List Event}
    (h : ChannelsController.postAll busUp now userId suffix uids s channel events
      = Except.error (s1, events1)) : s1 = s ∧ events1 = events := by
  rcases postAll_stays busUp now userId suffix uids s channel events with h2 | h2
  · rw [h2] at h; cases h
  · rw [h2] at h; cases h; exact ⟨rfl, rfl⟩

theorem postAll_ok {busUp : Bool} {now : Time} {userId : UserId} {suffix : String}
    {uids : List UserId} {s : Store} {channel : Channel} {events : List Event}
    {s1 : Store} {channel1 : Channel} {events1 : List Event}
    (h : ChannelsController.postAll busUp now userId suffix uids s channel events
      = Except.ok (s1, channel1, events1)) : s1 = s ∧ channel1 = channel ∧ events1 = events := by
  rcases postAll_stays busUp now userId suffix uids s channel events with h2 | h2
  · rw [h2] at h; cases h; exact ⟨rfl, rfl, rfl⟩
  · rw [h2] at h; cases h

theorem updateChannel_store (busUp : Bool) (now : Time) (s : Store) (userId : UserId)
    (channelId : ChannelId) (body : ChannelsController.UpdateBody) :
    (ChannelsController.updateChannel busUp now s userId channelId body).store = s ∨
    ∃ channel name users, findChannelFor s.channels channelId userId = some channel ∧
      (ChannelsController.updateChannel busUp now s userId channelId body).store =
        { s with
          channels :=
            saveChannel now s.channels
              { channel with name := name, users := users, lastMessageTime := now } } := by
  unfold ChannelsController.updateChannel
  cases hc : findChannelFor s.channels channelId userId with
  | none => exact Or.inl rfl
  | some channel =>
    dsimp only
    split
    · exact Or.inl rfl
    · refine Or.inr ⟨channel,
        (if ChannelsController.trim body.name ≠ "" then ChannelsController.trim body.name
          else channel.name),
        (match body.users with
          | some users => ChannelsController.uniq users
          | none => channel.users), rfl, ?_⟩
      split
      · rename_i s2 events2 heq
        rw [(postAll_error heq).1]
      · rename_i s2 channel2 events2 heq
        obtain ⟨rfl, rfl, rfl⟩ := postAll_ok heq
        split
        · rename_i s3 events3 heq3
          rw [(postAll_error heq3).1]
        · rename_i s3 channel3 events3 heq3
          obtain ⟨rfl, rfl, rfl⟩ := postAll_ok heq3
          split <;> rfl

theorem run_evolve (s : Store) (op : Op) (hnd : (s.messages.map (fun m => m.id)).Nodup) :
    MessagesEvolve s.messages (run s op).store.messages := by
  cases op
  all_goals simp only [run]
  case updateChannel busUp now userId channelId body =>
    rcases updateChannel_store busUp now s userId channelId body with h | ⟨_, _, _, _, h⟩
    · rw [h]; exact evolve_refl _
    · rw [h]; exact evolve_refl _
  all_goals
    first
    | unfold register
    | unfold ChannelsController.createChannel ChannelsController.createNew
    | unfold ChannelsController.deleteChannel
    | unfold InviteController.generateInviteLink
    | unfold InviteController.regenerateInviteLink
    | unfold InviteController.acceptInvite
    | unfold MessageController.sendMessage
    | unfold MessageController.fetchMessages
    | unfold MessageController.markSeen
    | unfold MessageController.deleteMessage
    | unfold MessageController.editMessage
    | unfold SocketService.sendMessage
    | unfold SocketService.markSeen
    | unfold SocketService.deleteMessage
    | unfold SocketService.forwardMessage
    | unfold SocketService.editMessage
    | unfold SocketService.deleteChat
  all_goals repeat' (first | split | dsimp only)
  all_goals first
    | exact evolve_refl _
    | exact Or.inl ⟨_, rfl⟩
    | exact Or.inr (derived_setSeen _ _)
    | exact Or.inr (derived_pullVisible _ _ _)
    | exact Or.inr (derived_softDelete _ _ _ _)
    | exact Or.inr (derived_of_subset (List.eraseP_subset _))
    | exact Or.inr (derived_saveMessage _ hnd _ _ _ (by assumption))

/-- C3: for every store with unique message ids, every request `op` of the system (send, edit,
forward, markSeen, fetchMessages, createChannel, updateChannel, deleteChannel and deleteChat,
and the others) and every message that is stored before and after it, the
`visibleTo` set after the request is a subset of the set before. -/
theorem visibleTo_never_grows (s : Store) (op : Op)
    (hnd : (s.messages.map (fun m => m.id)).Nodup) (i : MessageId) (m m' : Message)
    (hm : findMessage s.messages i = some m)
    (hm' : findMessage (run s op).store.messages i = some m') :
    m'.visibleTo ⊆ m.visibleTo :=
  (later_of_evolve hnd (run_evolve s op hnd) hm hm').1

/-- U2 soft-deletes the direct channel of `scenarioM`: message 6 loses U2 from `visibleTo`. -/
theorem visibleTo_never_grows_witness :
    (scenarioM.messages.map (fun m => m.id)).Nodup ∧
    findMessage scenarioM.messages 6 = some messageOne ∧
    findMessage (run scenarioM (Op.deleteChannel true 30 1 4)).store.messages 6
      = some { messageOne with visibleTo := [0] } ∧
    ({ messageOne with visibleTo := [0] } : Message).visibleTo ⊆ messageOne.visibleTo :=
  ⟨by decide, by decide, by decide,
    visibleTo_never_grows scenarioM (Op.deleteChannel true 30 1 4) (by decide) 6 messageOne
      { messageOne with visibleTo := [0] } (by decide) (by decide)⟩

/-- C5: for every store with unique message ids and every request `op` of the system, a message
that has status `seen` before the request and is still stored after it has status `seen`
after it. -/
theorem seen_status_is_kept (s : Store) (op : Op)
    (hnd : (s.messages.map (fun m => m.id)).Nodup) (i : MessageId) (m m' : Message)
    (hm : findMessage s.messages i = some m)
    (hm' : findMessage (run s op).store.messages i = some m')
    (hseen : m.status = Status.seen) : m'.status = Status.seen :=
  (later_of_evolve hnd (run_evolve s op hnd) hm hm').2.1 hseen

/-- Message 6 has been seen by U2; U1 then edits it, and it keeps the status `seen`. -/
theorem seen_status_is_kept_witness :
    (scenarioSeen.messages.map (fun m => m.id)).Nodup ∧
    findMessage scenarioSeen.messages 6 = some { messageOne with status := Status.seen } ∧
    findMessage (run scenarioSeen (Op.httpEditMessage true 25 0 6 "uno")).store.messages 6
      = some { messageOne with status := Status.seen, text := "uno" } ∧
    ({ messageOne with status := Status.seen, text := "uno" } : Message).status = Status.seen :=
  ⟨by decide, by decide, by decide,
    seen_status_is_kept scenarioSeen (Op.httpEditMessage true 25 0 6 "uno") (by decide) 6
      { messageOne with status := Status.seen }
      { messageOne with status := Status.seen, text := "uno" } (by decide) (by decide) rfl⟩

/-! ## C7: the stored unread counters -/

theorem mapNonNeg_set (m : UMap Int) (k : UserId) (v : Int) (hm : MapNonNeg m) (hv : 0 ≤ v) :
    MapNonNeg (UMap.set m k v) := by
  induction m with
  | nil =>
    intro p hp
    simp only [UMap.set, List.mem_singleton] at hp
    subst hp
    exact hv
  | cons q rest ih =>
    obtain ⟨a, b⟩ := q
    have hrest : MapNonNeg rest := fun p hp => hm p (List.mem_cons_of_mem _ hp)
    intro p hp
    by_cases h : a = k
    · simp only [UMap.set, h, if_true, List.mem_cons] at hp
      rcases hp with hp | hp
      · subst hp; exact hv
      · exact hrest p hp
    · simp only [UMap.set, h, if_false, List.mem_cons] at hp
      rcases hp with hp | hp
      · subst hp; exact hm (a, b) (List.mem_cons_self _ _)
      · exact ih hrest p hp

theorem get_nonneg (m : UMap Int) (k : UserId) (hm : MapNonNeg m) :
    0 ≤ (UMap.get m k).getD 0 := by
  induction m with
  | nil => simp [UMap.get]
  | cons q rest ih =>
    obtain ⟨a, b⟩ := q
    by_cases h : a = k
    · simpa [UMap.get, h] using hm (a, b) (List.mem_cons_self _ _)
    · simpa [UMap.get, h] using ih (fun p hp => hm p (List.mem_cons_of_mem _ hp))

theorem mapNonNeg_bumpOthers (users : List UserId) (me : UserId) (m : UMap Int)
    (hm : MapNonNeg m) : MapNonNeg (bumpOthers users me m) := by
  induction users generalizing m with
  | nil => exact hm
  | cons x rest ih =>
    simp only [bumpOthers, List.foldl_cons] at ih ⊢
    apply ih
    split
    · exact mapNonNeg_set m x _ hm (by have := get_nonneg m x hm; omega)
    · exact hm

theorem countUnread_nonneg (ms : List Message) (rs : List Receipt) (cid : ChannelId)
    (uid : UserId) : 0 ≤ countUnread ms rs cid uid := by
  unfold countUnread
  apply List.sum_nonneg
  intro x hx
  simp only [List.mem_map] at hx
  obtain ⟨m, _, rfl⟩ := hx
  split <;> decide

theorem countsNonNeg_save (now : Time) (cs : List Channel) (c : Channel)
    (h : CountsNonNeg cs) (hc : MapNonNeg c.unreadCounts) :
    CountsNonNeg (saveChannel now cs c) := by
  intro x hx
  simp only [saveChannel, List.mem_map] at hx
  obtain ⟨y, hy, rfl⟩ := hx
  split
  · exact hc
  · exact h y hy

theorem countsNonNeg_find {cs : List Channel} {p : Channel → Bool} {c : Channel}
    (h : CountsNonNeg cs) (hf : cs.find? p = some c) : MapNonNeg c.unreadCounts :=
  h c (List.mem_of_find?_eq_some hf)

theorem countsNonNeg_append (cs : List Channel) (c : Channel) (h : CountsNonNeg cs)
    (hc : MapNonNeg c.unreadCounts) : CountsNonNeg (cs ++ [c]) := by
  intro x hx
  rcases List.mem_append.mp hx with hx | hx
  · exact h x hx
  · rw [List.mem_singleton.mp hx]; exact hc

theorem resummarise_unreadCounts (now : Time) (c : Channel) (l : Option Message) :
    (MessageController.resummarise now c l).unreadCounts = c.unreadCounts := by
  cases l <;> rfl

theorem countsNonNeg_softDelete (now : Time) (s : Store) (userId : UserId) (channel : Channel)
    (h : CountsNonNeg s.channels) (hc : MapNonNeg channel.unreadCounts) :
    CountsNonNeg (softDelete now s userId channel).1.channels := by
  unfold softDelete
  repeat' (first | split | dsimp only)
  · exact fun c hc => h c (List.eraseP_subset _ hc)
  · exact countsNonNeg_save _ _ _ h (mapNonNeg_set _ _ _ hc (le_refl 0))

theorem run_countsNonNeg (s : Store) (op : Op) (h : CountsNonNeg s.channels) :
    CountsNonNeg (run s op).store.channels := by
  cases op
  all_goals simp only [run]
  case updateChannel busUp now userId channelId body =>
    rcases updateChannel_store busUp now s userId channelId body with h2 | ⟨c, _, _, hc, h2⟩
    · rw [h2]; exact h
    · rw [h2]; exact countsNonNeg_save _ _ _ h (countsNonNeg_find (c := c) h hc)
  all_goals
    first
    | unfold register
    | unfold ChannelsController.createChannel ChannelsController.createNew
    | unfold ChannelsController.deleteChannel
    | unfold InviteController.generateInviteLink
    | unfold InviteController.regenerateInviteLink
    | unfold InviteController.acceptInvite
    | unfold MessageController.sendMessage
    | unfold MessageController.fetchMessages
    | unfold MessageController.markSeen
    | unfold MessageController.deleteMessage
    | unfold MessageController.editMessage
    | unfold SocketService.sendMessage
    | unfold SocketService.markSeen
    | unfold SocketService.deleteMessage
    | unfold SocketService.forwardMessage
    | unfold SocketService.editMessage
    | unfold SocketService.deleteChat
  all_goals repeat' (first | split | dsimp only)
  all_goals first
    | exact h
    | exact countsNonNeg_append _ _ h (fun _ hp => absurd hp (List.not_mem_nil _))
    | exact countsNonNeg_softDelete _ _ _ _ h (countsNonNeg_find h (by assumption))
    | (apply countsNonNeg_save _ _ _ h
       try dsimp only
       first
       | exact countsNonNeg_find h (by assumption)
       | exact mapNonNeg_set _ _ _ (countsNonNeg_find h (by assumption)) (le_refl 0)
       | exact mapNonNeg_set _ _ _ (countsNonNeg_find h (by assumption)) (countUnread_nonneg _ _ _ _)
       | exact mapNonNeg_bumpOthers _ _ _
           (mapNonNeg_set _ _ _ (countsNonNeg_find h (by assumption)) (le_refl 0))
       | (rw [resummarise_unreadCounts]; exact countsNonNeg_find h (by assumption)))

theorem reachable_runAll (s : Store) (ops : List Op) (h : Reachable s) :
    Reachable (runAll s ops) := by
  induction ops generalizing s with
  | nil => exact h
  | cons op rest ih => exact ih _ (Reachable.step op h)

theorem reachable_countsNonNeg (s : Store) (h : Reachable s) : CountsNonNeg s.channels := by
  induction h with
  | init => intro c hc; cases hc
  | step op _ ih => exact run_countsNonNeg _ op ih

theorem mem_of_get {m : UMap Int} {k : UserId} {v : Int} (h : UMap.get m k = some v) :
    (k, v) ∈ m := by
  induction m with
  | nil => simp [UMap.get] at h
  | cons q rest ih =>
    obtain ⟨a, b⟩ := q
    by_cases hk : a = k
    · simp only [UMap.get, hk, if_true, Option.some.injEq] at h
      subst h; subst hk
      exact List.mem_cons_self _ _
    · simp only [UMap.get, hk, if_false] at h
      exact List.mem_cons_of_mem _ (ih h)

/-- C7 as stated fails after a deletion: U1 sends "hi" to the direct channel with U2 and
deletes the message.  The state is reachable, the channel holds no message at all, and the
stored unread entry of U2 is still 1. -/
theorem unread_counter_survives_deletion :
    Reachable sentAndDeleted ∧
    sentAndDeleted.messages = [] ∧
    (findChannel sentAndDeleted.channels 2).map (fun c => (c.users, UMap.get c.unreadCounts 1))
      = some ([0, 1], some 1) ∧
    countUnread sentAndDeleted.messages sentAndDeleted.receipts 2 1 = 0 ∧
    ¬ UnreadExact sentAndDeleted := by
  refine ⟨reachable_runAll _ _ Reachable.init, by decide, by decide, by decide, ?_⟩
  unfold UnreadExact
  decide

/-- C7 (amended): in every state reachable through the requests of the system, for every
channel and every user, the stored unreadCounts entry is never negative. -/
theorem unread_never_negative (s : Store) (h : Reachable s) (c : Channel) (hc : c ∈ s.channels)
    (u : UserId) (n : Int) (hn : UMap.get c.unreadCounts u = some n) : 0 ≤ n :=
  reachable_countsNonNeg s h c hc (u, n) (mem_of_get hn)

/-- In scenario A after the send, U2 has the entry 1 in the direct channel. -/
theorem unread_never_negative_witness :
    Reachable (sentInA "hi") ∧
    { directA with
        lastMessage := "hi", lastMessageTime := 9, lastMessageSenderId := some 0,
        unreadCounts := [(0, 0), (1, 1)], updatedAt := 9 } ∈ (sentInA "hi").channels ∧
    UMap.get [(0, (0 : Int)), (1, 1)] 1 = some 1 ∧ (0 : Int) ≤ 1 :=
  ⟨Reachable.step (Op.httpSendMessage true 9 0
      { channelId := 2, text := "hi", replyTo := none, forwardedFrom := none,
        attachments := [] }) (reachable_runAll _ _ Reachable.init),
    by decide, by decide,
    unread_never_negative (sentInA "hi")
      (Reachable.step (Op.httpSendMessage true 9 0
        { channelId := 2, text := "hi", replyTo := none, forwardedFrom := none,
          attachments := [] }) (reachable_runAll _ _ Reachable.init))
      { directA with
        lastMessage := "hi", lastMessageTime := 9, lastMessageSenderId := some 0,
        unreadCounts := [(0, 0), (1, 1)], updatedAt := 9 }
      (by decide) 1 1 (by decide)⟩

/-! ## C8: marking seen twice -/

theorem http_markSeen_store (busUp : Bool) (now : Time) (s : Store) (userId : UserId)
    (messageId : MessageId) :
    (MessageController.markSeen busUp now s userId messageId).store =
      match findMessage s.messages messageId with
      | none => s
      | some message =>
        match findChannelFor s.channels message.channelId userId with
        | none => s
        | some channel =>
          markSeenWrites now s userId messageId message.channelId message channel := by
  unfold MessageController.markSeen markSeenWrites
  repeat' (first | split | dsimp only)

theorem socket_markSeen_store (now : Time) (s : Store) (userId : UserId)
    (channelId : ChannelId) (messageId : MessageId) :
    (SocketService.markSeen now s userId channelId messageId).store =
      match findChannelFor s.channels channelId userId with
      | none => s
      | some channel =>
        match findMessage s.messages messageId with
        | none => s
        | some message => markSeenWrites now s userId messageId channelId message channel := by
  unfold SocketService.markSeen markSeenWrites
  repeat' (first | split | dsimp only)

theorem findMessage_setSeen (ms : List Message) (mid : MessageId) (m : Message)
    (h : findMessage ms mid = some m) :
    findMessage (setSeen ms mid) mid = some { m with status := Status.seen } := by
  induction ms with
  | nil => simp [findMessage] at h
  | cons x rest ih =>
    by_cases hx : x.id = mid
    · have hxm : x = m := by simpa [findMessage, List.find?_cons, hx] using h
      subst hxm
      simp [setSeen, findMessage, List.find?_cons, hx]
    · have hrest : findMessage rest mid = some m := by
        simpa [findMessage, List.find?_cons, hx] using h
      have := ih hrest
      simp only [findMessage] at this
      simp only [setSeen, hx, if_false, findMessage, List.find?_cons, decide_False]
      exact this

theorem setSeen_idem (ms : List Message) (mid : MessageId) :
    setSeen (setSeen ms mid) mid = setSeen ms mid := by
  induction ms with
  | nil => rfl
  | cons x rest ih =>
    by_cases hx : x.id = mid
    · simp [setSeen, hx]
    · simp [setSeen, hx, ih]

theorem hasReceipt_upsert (rs : List Receipt) (mid : MessageId) (uid : UserId) (t : Time)
    (a : MessageId) (b : UserId) :
    hasReceipt (upsertReceipt rs mid uid t) a b =
      (hasReceipt rs a b || (decide (mid = a) && decide (uid = b))) := by
  induction rs with
  | nil => simp [upsertReceipt, hasReceipt]
  | cons r rest ih =>
    unfold hasReceipt at ih ⊢
    by_cases hr : r.messageId = mid ∧ r.userId = uid
    · obtain ⟨h1, h2⟩ := hr
      subst h1; subst h2
      simp only [upsertReceipt, and_self, if_true, List.any_cons]
      cases hA : decide (r.messageId = a) && decide (r.userId = b) <;> simp [hA]
    · simp only [upsertReceipt, hr, if_false, List.any_cons, ih, Bool.or_assoc]

theorem hasReceipt_upsert_self (rs : List Receipt) (mid : MessageId) (uid : UserId) (t : Time) :
    hasReceipt (upsertReceipt rs mid uid t) mid uid = true := by
  simp [hasReceipt_upsert]

theorem keys_upsert_of_has (rs : List Receipt) (mid : MessageId) (uid : UserId) (t : Time)
    (h : hasReceipt rs mid uid = true) :
    (upsertReceipt rs mid uid t).map (fun r => (r.messageId, r.userId)) =
      rs.map (fun r => (r.messageId, r.userId)) := by
  induction rs with
  | nil => simp [hasReceipt] at h
  | cons r rest ih =>
    by_cases hr : r.messageId = mid ∧ r.userId = uid
    · simp [upsertReceipt, hr]
    · have hrest : hasReceipt rest mid uid = true := by
        unfold hasReceipt at h ⊢
        simp only [List.any_cons, Bool.or_eq_true] at h
        rcases h with h | h
        · exact absurd (by simpa using h) hr
        · exact h
      simp [upsertReceipt, hr, ih hrest]

theorem findChannelFor_saveChannel (now : Time) (cs : List Channel) (cid : ChannelId)
    (uid : UserId) (c c1 : Channel) (hfind : findChannelFor cs cid uid = some c)
    (hid : c1.id = c.id) (hu : uid ∈ c1.users) :
    findChannelFor (saveChannel now cs c1) cid uid = some { c1 with updatedAt := now } := by
  have hcid : c.id = cid := (findChannelFor_id cs cid uid c hfind).1
  induction cs with
  | nil => simp [findChannelFor] at hfind
  | cons x rest ih =>
    by_cases hx : x.id = c1.id
    · have hx2 : c1.id = cid := hid.trans hcid
      simp [saveChannel, findChannelFor, List.find?_cons, hx, hx2, hu]
    · have hx2 : ¬ x.id = cid := fun e => hx (e.trans (hid.trans hcid).symm)
      have hrest : findChannelFor rest cid uid = some c := by
        simpa [findChannelFor, List.find?_cons, hx2] using hfind
      have := ih hrest
      simp only [findChannelFor, saveChannel] at this
      simp only [findChannelFor, saveChannel, List.map_cons, hx, if_false, List.find?_cons, hx2,
        decide_False, Bool.false_and]
      exact this

theorem countUnread_congr (ms : List Message) (r1 r2 : List Receipt) (cid : ChannelId)
    (uid : UserId) (h : ∀ a, hasReceipt r2 a uid = hasReceipt r1 a uid) :
    countUnread ms r2 cid uid = countUnread ms r1 cid uid := by
  unfold countUnread
  simp only [h]

theorem seenByAll_congr (r1 r2 : List Receipt) (c1 c2 : Channel) (m1 m2 : Message)
    (h : ∀ a b, hasReceipt r2 a b = hasReceipt r1 a b) (hu : c2.users = c1.users)
    (hid : m2.id = m1.id) (huser : m2.user = m1.user) :
    seenByAll r2 c2 m2 = seenByAll r1 c1 m1 := by
  unfold seenByAll
  simp only [h, hu, hid, huser]

theorem saveChannel_view_idem (t1 t2 : Time) (cs : List Channel) (c1 c2 : Channel)
    (hid : c2.id = c1.id) (hu : c2.unreadCounts = c1.unreadCounts) :
    (saveChannel t2 (saveChannel t1 cs c1) c2).map (fun c => (c.id, c.unreadCounts)) =
      (saveChannel t1 cs c1).map (fun c => (c.id, c.unreadCounts)) := by
  induction cs with
  | nil => rfl
  | cons x rest ih =>
    simp only [saveChannel, List.map_cons, List.cons.injEq] at ih ⊢
    refine ⟨?_, ih⟩
    by_cases hx : x.id = c1.id
    · simp [hx, hid, hu]
    · simp [hx, hid]
theorem hasReceipt_upsert_twice (rs : List Receipt) (mid : MessageId) (uid : UserId)
    (t1 t2 : Time) (a : MessageId) (b : UserId) :
    hasReceipt (upsertReceipt (upsertReceipt rs mid uid t1) mid uid t2) a b =
      hasReceipt (upsertReceipt rs mid uid t1) a b := by
  rw [hasReceipt_upsert (upsertReceipt rs mid uid t1), hasReceipt_upsert rs]
  cases hasReceipt rs a b <;> cases (decide (mid = a) && decide (uid = b)) <;> rfl

theorem markSeenWrites_again (t1 t2 : Time) (s : Store) (u : UserId) (mid : MessageId)
    (k : ChannelId) (message : Message) (channel : Channel)
    (hm : findMessage s.messages mid = some message)
    (hc : findChannelFor s.channels k u = some channel) :
    ∃ message' channel',
      findMessage (markSeenWrites t1 s u mid k message channel).messages mid = some message' ∧
      message'.channelId = message.channelId ∧
      findChannelFor (markSeenWrites t1 s u mid k message channel).channels k u
        = some channel' ∧
      seenView (markSeenWrites t2 (markSeenWrites t1 s u mid k message channel) u mid k
          message' channel')
        = seenView (markSeenWrites t1 s u mid k message channel) := by
  have hmem := findChannelFor_id s.channels k u channel hc
  have hmid : message.id = mid := (findMessage_mem hm).2
  cases hsba : seenByAll (upsertReceipt s.receipts mid u t1) channel message
  · -- not everybody has seen the message: it stays as it is
    have hch := findChannelFor_saveChannel t1 s.channels k u channel
      { channel with
        unreadCounts := UMap.set channel.unreadCounts u
          (countUnread s.messages (upsertReceipt s.receipts mid u t1) k u) } hc rfl hmem.2
    refine ⟨message,
      { channel with
        unreadCounts := UMap.set channel.unreadCounts u
          (countUnread s.messages (upsertReceipt s.receipts mid u t1) k u)
        updatedAt := t1 }, ?_, rfl, ?_, ?_⟩
    · simp [markSeenWrites, hsba, hm]
    · simpa [markSeenWrites, hsba] using hch
    · have hsba2 : seenByAll (upsertReceipt (upsertReceipt s.receipts mid u t1) mid u t2)
          { channel with
            unreadCounts := UMap.set channel.unreadCounts u
              (countUnread s.messages (upsertReceipt s.receipts mid u t1) k u)
            updatedAt := t1 } message = false := by
        rw [← hsba]
        exact seenByAll_congr _ _ _ _ _ _ (hasReceipt_upsert_twice _ _ _ _ _) rfl rfl rfl
      have hcnt := countUnread_congr s.messages (upsertReceipt s.receipts mid u t1)
        (upsertReceipt (upsertReceipt s.receipts mid u t1) mid u t2) k u
        (fun a => hasReceipt_upsert_twice _ _ _ _ _ a u)
      simp only [markSeenWrites, seenView, hsba, hsba2, hcnt, UMap.set_set, Bool.false_eq_true,
        if_false, Prod.mk.injEq, true_and]
      exact ⟨keys_upsert_of_has _ _ _ _ (hasReceipt_upsert_self _ _ _ _),
        saveChannel_view_idem _ _ _ _ _ rfl rfl⟩
  · -- everybody has seen the message: it is promoted, once
    have hch := findChannelFor_saveChannel t1 s.channels k u channel
      { channel with
        unreadCounts := UMap.set channel.unreadCounts u
          (countUnread (setSeen s.messages mid) (upsertReceipt s.receipts mid u t1) k u) }
      hc rfl hmem.2
    refine ⟨{ message with status := Status.seen },
      { channel with
        unreadCounts := UMap.set channel.unreadCounts u
          (countUnread (setSeen s.messages mid) (upsertReceipt s.receipts mid u t1) k u)
        updatedAt := t1 }, ?_, rfl, ?_, ?_⟩
    · simpa [markSeenWrites, hsba] using findMessage_setSeen _ _ _ hm
    · simpa [markSeenWrites, hsba] using hch
    · have hsba2 : seenByAll (upsertReceipt (upsertReceipt s.receipts mid u t1) mid u t2)
          { channel with
            unreadCounts := UMap.set channel.unreadCounts u
              (countUnread (setSeen s.messages mid) (upsertReceipt s.receipts mid u t1) k u)
            updatedAt := t1 } { message with status := Status.seen } = true := by
        rw [← hsba]
        exact seenByAll_congr _ _ _ _ _ _ (hasReceipt_upsert_twice _ _ _ _ _) rfl rfl rfl
      have hcnt := countUnread_congr (setSeen s.messages mid)
        (upsertReceipt s.receipts mid u t1)
        (upsertReceipt (upsertReceipt s.receipts mid u t1) mid u t2) k u
        (fun a => hasReceipt_upsert_twice _ _ _ _ _ a u)
      simp only [markSeenWrites, seenView, hsba, hsba2, hcnt, UMap.set_set, setSeen_idem,
        if_true, Prod.mk.injEq, true_and]
      exact ⟨keys_upsert_of_has _ _ _ _ (hasReceipt_upsert_self _ _ _ _),
        saveChannel_view_idem _ _ _ _ _ rfl rfl⟩

/-- C8: `markSeen` is idempotent.  For every store, message id and user, running the handler
(HTTP, or socket with a fixed channel id) a second time right after the first, at any later
time, leaves the same `(messageId, userId)` receipt pairs, the same messages (status included)
and the same unread map in every channel as running it once; only `seenAt` and the channel's
`updatedAt` stamp may differ. -/
theorem markSeen_idempotent (busUp1 busUp2 : Bool) (t1 t2 : Time) (s : Store) (u : UserId)
    (mid : MessageId) (k : ChannelId) :
    seenView (MessageController.markSeen busUp2 t2
        (MessageController.markSeen busUp1 t1 s u mid).store u mid).store
      = seenView (MessageController.markSeen busUp1 t1 s u mid).store ∧
    seenView (SocketService.markSeen t2 (SocketService.markSeen t1 s u k mid).store u k mid).store
      = seenView (SocketService.markSeen t1 s u k mid).store := by
  constructor
  · rw [http_markSeen_store busUp2, http_markSeen_store busUp1]
    cases hm : findMessage s.messages mid with
    | none => simp [hm]
    | some message =>
      simp only [hm]
      cases hc : findChannelFor s.channels message.channelId u with
      | none => simp [hm, hc]
      | some channel =>
        obtain ⟨m', c', h1, h2, h3, h4⟩ :=
          markSeenWrites_again t1 t2 s u mid message.channelId message channel hm hc
        simp only [h1, h2, h3, h4]
  · rw [socket_markSeen_store t2, socket_markSeen_store t1]
    cases hc : findChannelFor s.channels k u with
    | none => simp [hc]
    | some channel =>
      simp only [hc]
      cases hm : findMessage s.messages mid with
      | none => simp [hc, hm]
      | some message =>
        obtain ⟨m', c', h1, _, h3, h4⟩ := markSeenWrites_again t1 t2 s u mid k message channel hm hc
        simp only [h1, h3, h4]

/-! ## C4, C6: what the HTTP handler `markSeen` guarantees -/

theorem seenByAll_iff (rs : List Receipt) (c : Channel) (m : Message) :
    seenByAll rs c m = true ↔ ∀ v ∈ c.users, v ≠ m.user → hasReceipt rs m.id v = true := by
  unfold seenByAll
  simp only [List.all_eq_true, List.mem_filter, decide_eq_true_eq, and_imp]

/-- The HTTP handler, which looks the channel up from the message, does what C4 says: when the
requester is a member of the owning channel `c` and the message had status `sent`, the message
has status `seen` afterwards exactly when every member of `c` other than the author has a
receipt for it. -/
theorem http_markSeen_status_iff (busUp : Bool) (now : Time) (s : Store) (u : UserId)
    (mid : MessageId) (m : Message) (c : Channel)
    (hm : findMessage s.messages mid = some m) (hsent : m.status = Status.sent)
    (hc : findChannelFor s.channels m.channelId u = some c) :
    ∃ m', findMessage (MessageController.markSeen busUp now s u mid).store.messages mid
        = some m' ∧
      (m'.status = Status.seen ↔
        ∀ v ∈ c.users, v ≠ m.user →
          hasReceipt (MessageController.markSeen busUp now s u mid).store.receipts mid v
            = true) := by
  have hmid : m.id = mid := (findMessage_mem hm).2
  rw [http_markSeen_store]
  simp only [hm, hc, markSeenWrites]
  cases hsba : seenByAll (upsertReceipt s.receipts mid u now) c m
  · refine ⟨m, by simp [hm], ?_⟩
    have hno := (seenByAll_iff (upsertReceipt s.receipts mid u now) c m).not.mp (by simp [hsba])
    rw [hmid] at hno
    constructor
    · intro h
      rw [hsent] at h
      cases h
    · intro h
      exact absurd h hno
  · refine ⟨{ m with status := Status.seen }, by simpa using findMessage_setSeen _ _ _ hm, ?_⟩
    have hyes := (seenByAll_iff (upsertReceipt s.receipts mid u now) c m).mp hsba
    rw [hmid] at hyes
    simp only [true_iff]
    exact hyes

theorem countUnread_eq_length (ms : List Message) (rs : List Receipt) (cid : ChannelId)
    (uid : UserId) :
    countUnread ms rs cid uid =
      ((ms.filter (fun m => decide (m.channelId = cid) && decide (m.user ≠ uid) &&
        !hasReceipt rs m.id uid)).length : Int) := by
  unfold countUnread
  induction ms with
  | nil => rfl
  | cons x rest ih =>
    simp only [List.filter_cons]
    by_cases h1 : x.channelId = cid
    · by_cases h2 : x.user = uid
      · simpa [h1, h2] using ih
      · cases h3 : hasReceipt rs x.id uid
        · simp only [h1, h2, h3, decide_True, ne_eq, not_false_eq_true, Bool.and_self,
            if_true, List.map_cons, List.sum_cons, Bool.false_eq_true, if_false, Bool.not_false,
            List.length_cons, Nat.cast_add, Nat.cast_one]
          rw [ih]; ring
        · simpa [h1, h2, h3] using ih
    · simpa [h1] using ih

theorem findChannel_saveChannel_at (now : Time) (cs : List Channel) (cid : ChannelId)
    (uid : UserId) (c c1 : Channel) (hfind : findChannelFor cs cid uid = some c)
    (hid : c1.id = c.id) :
    findChannel (saveChannel now cs c1) cid = some { c1 with updatedAt := now } := by
  obtain ⟨rfl, _⟩ := findChannelFor_id cs cid uid c hfind
  exact findChannel_saveChannel now cs c c1 uid hfind hid

/-- The HTTP handler does what C6 says: the unread entry of the requester in the owning channel
becomes the number of messages of that channel written by others for which the requester has
no receipt, and the entries of all other users stay as they were. -/
theorem http_markSeen_recounts (busUp : Bool) (now : Time) (s : Store) (u : UserId)
    (mid : MessageId) (m : Message) (c : Channel)
    (hm : findMessage s.messages mid = some m)
    (hc : findChannelFor s.channels m.channelId u = some c) :
    ∃ c', findChannel (MessageController.markSeen busUp now s u mid).store.channels m.channelId
        = some c' ∧
      UMap.get c'.unreadCounts u = some
        (((MessageController.markSeen busUp now s u mid).store.messages.filter
          (fun x => decide (x.channelId = m.channelId) && decide (x.user ≠ u) &&
            !hasReceipt (MessageController.markSeen busUp now s u mid).store.receipts x.id u)).length
          : Int) ∧
      ∀ v, v ≠ u → UMap.get c'.unreadCounts v = UMap.get c.unreadCounts v := by
  rw [http_markSeen_store]
  simp only [hm, hc, markSeenWrites]
  have hf := findChannel_saveChannel_at now s.channels m.channelId u c
    { c with
      unreadCounts := UMap.set c.unreadCounts u
        (countUnread
          (if seenByAll (upsertReceipt s.receipts mid u now) c m = true then
            setSeen s.messages mid else s.messages)
          (upsertReceipt s.receipts mid u now) m.channelId u) } hc rfl
  refine ⟨_, hf, ?_, ?_⟩
  · simp only [UMap.get_set, if_true]
    rw [countUnread_eq_length]
  · intro v hv
    have hv2 : ¬ u = v := fun e => hv e.symm
    simp only [UMap.get_set, hv2, if_false]

/-! ## C11: the edit window and the client's clock -/

/-- C11 at a concrete input: at server time 1000000 U1 sends "hi" over the socket, once with
the client timestamp 0 and once with the client timestamp 1000000; nothing else differs.
The same edit request, handled at server time 1000001, is rejected after the first send and
accepted after the second (socket and HTTP handler alike): the stored `createdAt` is the
client's timestamp. -/
theorem edit_window_follows_client_timestamp :
    (findMessage (socketSentInA 0).messages 3).map (fun m => m.createdAt) = some 0 ∧
    (findMessage (socketSentInA 1000000).messages 3).map (fun m => m.createdAt)
      = some 1000000 ∧
    (SocketService.editMessage 1000001 (socketSentInA 0) 0 3 "hello" 2).succeeded = false ∧
    (SocketService.editMessage 1000001 (socketSentInA 1000000) 0 3 "hello" 2).succeeded
      = true ∧
    (MessageController.editMessage true 1000001 (socketSentInA 0) 0 3 "hello").succeeded
      = false ∧
    (MessageController.editMessage true 1000001 (socketSentInA 1000000) 0 3 "hello").succeeded
      = true := by
  decide

/-- The HTTP handler `sendMessage` stamps the message with the server clock. -/
theorem http_send_createdAt (busUp : Bool) (now : Time) (s : Store) (S : UserId)
    (body : MessageController.SendBody)
    (hok : (MessageController.sendMessage busUp now s S body).succeeded = true) :
    ∃ m, (MessageController.sendMessage busUp now s S body).store.messages = s.messages ++ [m] ∧
      m.createdAt = now := by
  revert hok
  unfold MessageController.sendMessage
  repeat' (first | split | dsimp only)
  all_goals first
    | (intro _; exact ⟨_, rfl, rfl⟩)
    | (intro hok; simp [Outcome.succeeded] at hok)

/-! ## C13: the summary after a deletion over the socket -/

/-- C13 at a concrete input: the direct channel 4 holds "one" (message 6, time 8) and "two"
(message 7, time 9) of U1, and its summary is "two".  U1 deletes message 7 over the socket and
names the group 3, of which U1 is a member too.  The handler succeeds and message 7 is gone,
but the summary of the owning channel 4 is still "two" at time 9, not that of the remaining
message "one". -/
theorem socket_delete_leaves_stale_summary :
    deletedNamingGroup.succeeded = true ∧
    (findMessage scenarioM.messages 7).map (fun m => (m.channelId, m.user, m.text))
      = some (4, 0, "two") ∧
    findMessage deletedNamingGroup.store.messages 7 = none ∧
    (latestMessage deletedNamingGroup.store.messages 4).map (fun m => (m.text, m.createdAt))
      = some ("one", 8) ∧
    (findChannel deletedNamingGroup.store.channels 4).map
      (fun c => (c.lastMessage, c.lastMessageTime)) = some ("two", 9) := by
  decide

/-! ## C16: what a fetch returns of a forwarded message -/

/-- C16 at a concrete input: U1 forwards the direct message 6 to the group 3, whose members
are U2, U3 and U1.  The handler succeeds and stores message 8 in the group; `fetchMessages` on
the group then returns message 5 only, to each of the three members. -/
theorem forwarded_message_is_not_fetched :
    forwardToGroup.succeeded = true ∧
    (findMessage forwardToGroup.store.messages 8).map (fun m => (m.channelId, m.forwardedFrom))
      = some (3, some 6) ∧
    (findChannel forwardToGroup.store.channels 3).map (fun c => c.users) = some [1, 2, 0] ∧
    (MessageController.fetchMessages true 21 forwardToGroup.store 0 3).2.map (fun m => m.id)
      = [5] ∧
    (MessageController.fetchMessages true 21 forwardToGroup.store 1 3).2.map (fun m => m.id)
      = [5] ∧
    (MessageController.fetchMessages true 21 forwardToGroup.store 2 3).2.map (fun m => m.id)
      = [5] := by
  decide

/-! ## C17: the members of a direct channel -/

/-- C17 at a concrete input: `scenarioM` is reached by registrations, `createChannel` and sends.
U1 then calls `updateChannel` on the direct channel 4 with the member list U1, U2, U3.  The
channel is stored with three members and still has type `direct`. -/
theorem updateChannel_makes_direct_of_three :
    Reachable directWithThree.store ∧
    (findChannel scenarioM.channels 4).map (fun c => (c.type, c.users))
      = some ("direct", [0, 1]) ∧
    (findChannel directWithThree.store.channels 4).map (fun c => (c.type, c.users))
      = some ("direct", [0, 1, 2]) := by
  refine ⟨Reachable.step (Op.updateChannel true 30 0 4 { name := "", users := some [0, 1, 2] })
    (reachable_runAll _ _ Reachable.init), by decide, by decide⟩

/-! ## C12: edits and deletions by somebody else -/

/-- C12: for every stored message `m` and every requester `u` who is not its author, the
handlers `editMessage` and `deleteMessage` fail, over HTTP with status 403 and over the socket
(whatever channel is named) with an error reply; the store is exactly as before, so the message
still exists with its text and every channel summary is unchanged, and no event is sent. -/
theorem foreign_edit_and_delete_refused (busUp : Bool) (now : Time) (s : Store) (u : UserId)
    (mid : MessageId) (m : Message) (text : String) (cid : ChannelId)
    (hm : findMessage s.messages mid = some m) (hu : m.user ≠ u) :
    MessageController.editMessage busUp now s u mid text = ⟨s, Reply.http 403, []⟩ ∧
    MessageController.deleteMessage busUp now s u mid = ⟨s, Reply.http 403, []⟩ ∧
    (SocketService.editMessage now s u mid text cid).store = s ∧
    (SocketService.editMessage now s u mid text cid).succeeded = false ∧
    (SocketService.editMessage now s u mid text cid).events = [] ∧
    (SocketService.deleteMessage now s u mid cid).store = s ∧
    (SocketService.deleteMessage now s u mid cid).succeeded = false ∧
    (SocketService.deleteMessage now s u mid cid).events = [] := by
  refine ⟨?_, ?_, ?_, ?_, ?_, ?_, ?_, ?_⟩
  · simp [MessageController.editMessage, hm, hu]
  · simp [MessageController.deleteMessage, hm, hu]
  all_goals
    first
    | unfold SocketService.editMessage
    | unfold SocketService.deleteMessage
  all_goals
    cases hc : findChannelFor s.channels cid u <;> simp [hm, hu, Outcome.succeeded]

/-- U2 tries to edit and to delete message 6 of U1 in `scenarioM`. -/
theorem foreign_edit_and_delete_refused_witness :
    findMessage scenarioM.messages 6 = some messageOne ∧ messageOne.user ≠ 1 ∧
    MessageController.editMessage true 20 scenarioM 1 6 "mine" = ⟨scenarioM, Reply.http 403, []⟩ ∧
    MessageController.deleteMessage true 20 scenarioM 1 6 = ⟨scenarioM, Reply.http 403, []⟩ ∧
    (SocketService.editMessage 20 scenarioM 1 6 "mine" 4).store = scenarioM ∧
    (SocketService.editMessage 20 scenarioM 1 6 "mine" 4).succeeded = false ∧
    (SocketService.editMessage 20 scenarioM 1 6 "mine" 4).events = [] ∧
    (SocketService.deleteMessage 20 scenarioM 1 6 4).store = scenarioM ∧
    (SocketService.deleteMessage 20 scenarioM 1 6 4).succeeded = false ∧
    (SocketService.deleteMessage 20 scenarioM 1 6 4).events = [] :=
  ⟨by decide, by decide,
    foreign_edit_and_delete_refused true 20 scenarioM 1 6 messageOne "mine" 4 (by decide)
      (by decide)⟩

/-! ## C13: what the HTTP handler `deleteMessage` guarantees -/

theorem newest_none (l : List Message) : newest l = none ↔ l = [] := by
  cases l with
  | nil => simp [newest]
  | cons m rest =>
    simp only [newest]
    split <;> simp
    split <;> simp

theorem newest_some (l : List Message) (m : Message) (h : newest l = some m) :
    m ∈ l ∧ ∀ x ∈ l, x.createdAt ≤ m.createdAt := by
  induction l generalizing m with
  | nil => simp [newest] at h
  | cons a rest ih =>
    simp only [newest] at h
    cases hr : newest rest with
    | none =>
      rw [hr] at h
      have hnil := (newest_none rest).mp hr
      subst hnil
      cases h
      simp
    | some r =>
      rw [hr] at h
      obtain ⟨hmem, hmax⟩ := ih r hr
      by_cases hgt : r.createdAt > a.createdAt
      · simp only [hgt, if_true, Option.some.injEq] at h
        subst h
        refine ⟨List.mem_cons_of_mem _ hmem, ?_⟩
        intro x hx
        rcases List.mem_cons.mp hx with hx | hx
        · subst hx; exact Nat.le_of_lt hgt
        · exact hmax x hx
      · simp only [hgt, if_false, Option.some.injEq] at h
        subst h
        refine ⟨List.mem_cons_self _ _, ?_⟩
        intro x hx
        rcases List.mem_cons.mp hx with hx | hx
        · subst hx; exact Nat.le_refl _
        · exact Nat.le_trans (hmax x hx) (Nat.le_of_not_lt hgt)

/-- The message found by `latestMessage` is a message of the channel, and no message of the
channel is younger. -/
theorem latestMessage_spec (ms : List Message) (cid : ChannelId) (l : Message)
    (h : latestMessage ms cid = some l) :
    l ∈ ms ∧ l.channelId = cid ∧ ∀ x ∈ ms, x.channelId = cid → x.createdAt ≤ l.createdAt := by
  obtain ⟨hmem, hmax⟩ := newest_some _ l h
  have hl := List.mem_filter.mp hmem
  refine ⟨hl.1, by simpa using hl.2, ?_⟩
  intro x hx hc
  exact hmax x (List.mem_filter.mpr ⟨hx, by simpa using hc⟩)

theorem latestMessage_none (ms : List Message) (cid : ChannelId)
    (h : latestMessage ms cid = none) : ∀ x ∈ ms, x.channelId ≠ cid := by
  intro x hx hc
  have := (newest_none _).mp h
  have hmem : x ∈ ms.filter (fun m => decide (m.channelId = cid)) :=
    List.mem_filter.mpr ⟨hx, by simpa using hc⟩
  rw [this] at hmem
  cases hmem

theorem findMessage_eraseP (ms : List Message) (mid : MessageId)
    (hnd : (ms.map (fun m => m.id)).Nodup) :
    findMessage (ms.eraseP (fun m => decide (m.id = mid))) mid = none := by
  induction ms with
  | nil => rfl
  | cons x rest ih =>
    have hnd2 : x.id ∉ rest.map (fun m => m.id) ∧ (rest.map (fun m => m.id)).Nodup :=
      List.nodup_cons.mp hnd
    by_cases hx : x.id = mid
    · simp only [List.eraseP_cons, hx, decide_True, cond_true]
      unfold findMessage
      rw [List.find?_eq_none]
      intro y hy hyid
      have : y.id = mid := by simpa using hyid
      exact hnd2.1 (List.mem_map.mpr ⟨y, hy, this.trans hx.symm⟩)
    · have := ih hnd2.2
      simp only [findMessage] at this
      simp only [List.eraseP_cons, hx, decide_False, cond_false, findMessage, List.find?_cons]
      exact this

/-- The HTTP handler does what C13 says: when the author `u` deletes message `m` and is a
member of the owning channel `c`, then (message ids being unique) the message is not stored
any more, and the summary of the owning channel is taken from the youngest remaining message
of that channel, or cleared when none remains. -/
theorem http_delete_resummarises (busUp : Bool) (now : Time) (s : Store) (u : UserId)
    (mid : MessageId) (m : Message) (c : Channel)
    (hnd : (s.messages.map (fun m => m.id)).Nodup)
    (hm : findMessage s.messages mid = some m) (hu : m.user = u)
    (hc : findChannelFor s.channels m.channelId u = some c) :
    findMessage (MessageController.deleteMessage busUp now s u mid).store.messages mid = none ∧
    ∃ c', findChannel (MessageController.deleteMessage busUp now s u mid).store.channels
        m.channelId = some c' ∧
      match latestMessage (MessageController.deleteMessage busUp now s u mid).store.messages
          m.channelId with
      | some l =>
        c'.lastMessage = (if l.text = "" ∧ l.attachments ≠ [] then "[Attachment]" else l.text) ∧
          c'.lastMessageTime = l.createdAt ∧ c'.lastMessageSenderId = some l.user
      | none => c'.lastMessage = "" ∧ c'.lastMessageSenderId = none := by
  have hstore : (MessageController.deleteMessage busUp now s u mid).store =
      { s with
        messages := s.messages.eraseP (fun x => decide (x.id = mid))
        channels := saveChannel now s.channels
          (MessageController.resummarise now c
            (latestMessage (s.messages.eraseP (fun x => decide (x.id = mid))) m.channelId)) } := by
    unfold MessageController.deleteMessage
    simp only [hm, hu, hc, ne_eq, not_true_eq_false, if_false]
    cases busUp <;> rfl
  rw [hstore]
  refine ⟨findMessage_eraseP _ _ hnd, ?_⟩
  have hid : (MessageController.resummarise now c
      (latestMessage (s.messages.eraseP (fun x => decide (x.id = mid))) m.channelId)).id
        = c.id := by
    cases latestMessage (s.messages.eraseP (fun x => decide (x.id = mid))) m.channelId <;> rfl
  refine ⟨_, findChannel_saveChannel_at now s.channels m.channelId u c _ hc hid, ?_⟩
  dsimp only
  cases latestMessage (s.messages.eraseP (fun x => decide (x.id = mid))) m.channelId with
  | none => exact ⟨rfl, rfl⟩
  | some l => exact ⟨summaryText_eq _ _, rfl, rfl⟩

/-! ## Member lists have no repetition -/

theorem uniq_subset (l : List UserId) : ∀ x, x ∈ ChannelsController.uniq l ↔ x ∈ l := by
  induction l with
  | nil => intro x; simp [ChannelsController.uniq]
  | cons a rest ih =>
    intro x
    simp only [ChannelsController.uniq, List.mem_cons, List.mem_filter, decide_eq_true_eq, ih]
    constructor
    · rintro (h | ⟨h, _⟩)
      · exact Or.inl h
      · exact Or.inr h
    · rintro (h | h)
      · exact Or.inl h
      · by_cases hx : x = a
        · exact Or.inl hx
        · exact Or.inr ⟨h, hx⟩

theorem uniq_nodup (l : List UserId) : (ChannelsController.uniq l).Nodup := by
  induction l with
  | nil => simp [ChannelsController.uniq]
  | cons a rest ih =>
    simp only [ChannelsController.uniq, List.nodup_cons, List.mem_filter, decide_eq_true_eq,
      ne_eq, not_true_eq_false, and_false, not_false_eq_true, true_and]
    exact ih.filter _

theorem usersNodup_save (now : Time) (cs : List Channel) (c : Channel)
    (h : UsersNodup cs) (hc : c.users.Nodup) : UsersNodup (saveChannel now cs c) := by
  intro x hx
  simp only [saveChannel, List.mem_map] at hx
  obtain ⟨y, hy, rfl⟩ := hx
  split
  · exact hc
  · exact h y hy

theorem usersNodup_append (cs : List Channel) (c : Channel) (h : UsersNodup cs)
    (hc : c.users.Nodup) : UsersNodup (cs ++ [c]) := by
  intro x hx
  rcases List.mem_append.mp hx with hx | hx
  · exact h x hx
  · rw [List.mem_singleton.mp hx]; exact hc

theorem usersNodup_find {cs : List Channel} {p : Channel → Bool} {c : Channel}
    (h : UsersNodup cs) (hf : cs.find? p = some c) : c.users.Nodup :=
  h c (List.mem_of_find?_eq_some hf)

theorem resummarise_users (now : Time) (c : Channel) (l : Option Message) :
    (MessageController.resummarise now c l).users = c.users := by
  cases l <;> rfl

theorem usersNodup_softDelete (now : Time) (s : Store) (userId : UserId) (channel : Channel)
    (h : UsersNodup s.channels) (hc : channel.users.Nodup) :
    UsersNodup (softDelete now s userId channel).1.channels := by
  unfold softDelete
  repeat' (first | split | dsimp only)
  · exact fun c hc => h c (List.eraseP_subset _ hc)
  · exact usersNodup_save _ _ _ h hc

theorem updateChannel_store_users (busUp : Bool) (now : Time) (s : Store) (userId : UserId)
    (channelId : ChannelId) (body : ChannelsController.UpdateBody) :
    (ChannelsController.updateChannel busUp now s userId channelId body).store = s ∨
    ∃ channel name, findChannelFor s.channels channelId userId = some channel ∧
      (ChannelsController.updateChannel busUp now s userId channelId body).store =
        { s with
          channels :=
            saveChannel now s.channels
              { channel with
                name := name
                users := (match body.users with
                  | some users => ChannelsController.uniq users
                  | none => channel.users)
                lastMessageTime := now } } := by
  unfold ChannelsController.updateChannel
  cases hc : findChannelFor s.channels channelId userId with
  | none => exact Or.inl rfl
  | some channel =>
    dsimp only
    split
    · exact Or.inl rfl
    · refine Or.inr ⟨channel,
        (if ChannelsController.trim body.name ≠ "" then ChannelsController.trim body.name
          else channel.name), rfl, ?_⟩
      split
      · rename_i s2 events2 heq
        rw [(postAll_error heq).1]
      · rename_i s2 channel2 events2 heq
        obtain ⟨rfl, rfl, rfl⟩ := postAll_ok heq
        split
        · rename_i s3 events3 heq3
          rw [(postAll_error heq3).1]
        · rename_i s3 channel3 events3 heq3
          obtain ⟨rfl, rfl, rfl⟩ := postAll_ok heq3
          split <;> rfl

theorem run_usersNodup (s : Store) (op : Op) (h : UsersNodup s.channels) :
    UsersNodup (run s op).store.channels := by
  cases op
  all_goals simp only [run]
  case updateChannel busUp now userId channelId body =>
    rcases updateChannel_store_users busUp now s userId channelId body with h2 | ⟨c, _, hc, h2⟩
    · rw [h2]; exact h
    · rw [h2]
      apply usersNodup_save _ _ _ h
      dsimp only
      split
      · exact uniq_nodup _
      · exact usersNodup_find (c := c) h hc
  all_goals
    first
    | unfold register
    | unfold ChannelsController.createChannel ChannelsController.createNew
    | unfold ChannelsController.deleteChannel
    | unfold InviteController.generateInviteLink
    | unfold InviteController.regenerateInviteLink
    | unfold InviteController.acceptInvite
    | unfold MessageController.sendMessage
    | unfold MessageController.fetchMessages
    | unfold MessageController.markSeen
    | unfold MessageController.deleteMessage
    | unfold MessageController.editMessage
    | unfold SocketService.sendMessage
    | unfold SocketService.markSeen
    | unfold SocketService.deleteMessage
    | unfold SocketService.forwardMessage
    | unfold SocketService.editMessage
    | unfold SocketService.deleteChat
  all_goals repeat' (first | split | dsimp only)
  all_goals first
    | exact h
    | exact usersNodup_append _ _ h (uniq_nodup _)
    | exact usersNodup_append _ _ h
        ((List.perm_insertionSort _ _).nodup_iff.mpr (uniq_nodup _))
    | exact usersNodup_softDelete _ _ _ _ h (usersNodup_find h (by assumption))
    | (apply usersNodup_save _ _ _ h
       try dsimp only
       first
       | exact usersNodup_find h (by assumption)
       | (rw [resummarise_users]; exact usersNodup_find h (by assumption))
       | (apply List.Nodup.append (usersNodup_find h (by assumption)) (List.nodup_singleton _)
          simp only [List.disjoint_singleton]
          assumption))

theorem reachable_usersNodup (s : Store) (h : Reachable s) : UsersNodup s.channels := by
  induction h with
  | init => intro c hc; cases hc
  | step op _ ih => exact run_usersNodup _ op ih

/-! ## C14: what a forward leaves behind -/

theorem findChannel_saveChannel_mem (now : Time) (cs : List Channel) (c c1 : Channel)
    (hmem : c ∈ cs) (hid : c1.id = c.id) :
    findChannel (saveChannel now cs c1) c.id = some { c1 with updatedAt := now } := by
  induction cs with
  | nil => cases hmem
  | cons x rest ih =>
    by_cases hx : x.id = c.id
    · have hx1 : x.id = c1.id := hx.trans hid.symm
      simp only [saveChannel, List.map_cons, findChannel, List.find?_cons, hx1, if_true]
      simp [hid]
    · have hx1 : ¬ x.id = c1.id := fun e => hx (e.trans hid)
      have hrest : c ∈ rest := by
        rcases List.mem_cons.mp hmem with h | h
        · exact absurd (h ▸ rfl) hx
        · exact h
      have h2 := ih hrest
      simp only [saveChannel, findChannel] at h2
      simp only [saveChannel, findChannel, List.map_cons, List.find?_cons, hx1, if_false, hx,
        decide_False]
      exact h2

theorem findChannel_saveChannel_other (now : Time) (cs : List Channel) (c1 : Channel)
    (cid : ChannelId) (hne : cid ≠ c1.id) :
    findChannel (saveChannel now cs c1) cid = findChannel cs cid := by
  induction cs with
  | nil => rfl
  | cons x rest ih =>
    simp only [saveChannel, findChannel] at ih
    by_cases hx : x.id = c1.id
    · have hx2 : ¬ x.id = cid := fun e => hne (e.symm.trans hx)
      have hx3 : ¬ c1.id = cid := fun e => hne e.symm
      simp only [saveChannel, findChannel, List.map_cons, hx, if_true, List.find?_cons, hx3,
        decide_False, hx2]
      exact ih
    · by_cases hx2 : x.id = cid
      · subst hx2
        simp [saveChannel, findChannel, hx]
      · simp only [saveChannel, findChannel, List.map_cons, hx, if_false, List.find?_cons, hx2,
          decide_False]
        exact ih

theorem findMessage_append_of_some (ms extra : List Message) (i : MessageId) (m : Message)
    (h : findMessage ms i = some m) : findMessage (ms ++ extra) i = some m := by
  unfold findMessage at h ⊢
  rw [List.find?_append, h]
  rfl

/-- C14: in every reachable state, after a successful `forwardMessage(messageId,
targetChannelId)` by `R` into the channel `tc`, the message collection is the old
one followed by exactly one new message; the new message belongs to the target channel, has
author `R`, the text and attachments of the source message and `forwardedFrom` equal to the
source id; in the target channel the unread entry of `R` is 0 and that of every other member
is its previous value (0 when absent) plus 1; the source message is stored as before, and
every channel other than the target (in particular a different source channel) is stored as
before. -/
theorem forward_copies_and_counts (now : Time) (s : Store) (R : UserId) (mid : MessageId)
    (target : ChannelId) (src : Message) (tc : Channel)
    (hsrc : findMessage s.messages mid = some src)
    (hreach : Reachable s)
    (htc : SocketService.findLiveChannelFor s.channels target R = some tc)
    (hok : (SocketService.forwardMessage now s R mid target).succeeded = true) :
    (∃ fm, (SocketService.forwardMessage now s R mid target).store.messages
          = s.messages ++ [fm] ∧
        fm.channelId = target ∧ fm.user = R ∧ fm.senderId = R ∧ fm.text = src.text ∧
        fm.attachments = src.attachments ∧ fm.forwardedFrom = some src.id) ∧
    (∃ tc', findChannel (SocketService.forwardMessage now s R mid target).store.channels target
          = some tc' ∧
        UMap.get tc'.unreadCounts R = some 0 ∧
        ∀ v ∈ tc.users, v ≠ R →
          UMap.get tc'.unreadCounts v = some ((UMap.get tc.unreadCounts v).getD 0 + 1)) ∧
    findMessage (SocketService.forwardMessage now s R mid target).store.messages mid
      = some src ∧
    ∀ cid, cid ≠ target →
      findChannel (SocketService.forwardMessage now s R mid target).store.channels cid
        = findChannel s.channels cid := by
  have hmem : tc ∈ s.channels := List.mem_of_find?_eq_some htc
  have hnd : tc.users.Nodup := reachable_usersNodup s hreach tc hmem
  have htid : tc.id = target := by
    have := List.find?_some htc
    simp only [Bool.and_eq_true, decide_eq_true_eq] at this
    exact this.1.1
  subst htid
  unfold SocketService.forwardMessage at hok ⊢
  simp only [hsrc, htc] at hok ⊢
  cases hsc : SocketService.findLiveChannelFor s.channels src.channelId R with
  | none => simp [hsc, Outcome.succeeded] at hok
  | some sc =>
    cases hu : findUser s.users R with
    | none => simp [hsc, hu, Outcome.succeeded] at hok
    | some user =>
      cases ha : src.attachments.all Attachment.valid with
      | false => simp [hsc, hu, ha, Outcome.succeeded] at hok
      | true =>
      simp only [hsc, hu, ha, Bool.true_eq_false, if_false]
      refine ⟨⟨_, rfl, rfl, rfl, rfl, rfl, rfl, rfl⟩, ?_, ?_, ?_⟩
      · have hf := findChannel_saveChannel_mem now s.channels tc
          { tc with
            lastMessage := summaryText src.text src.attachments
            lastMessageTime := now
            lastMessageSenderId := some R
            unreadCounts := bumpOthers tc.users R (UMap.set tc.unreadCounts R 0) } hmem rfl
        have hs := sentBy_of_bump R src.text src.attachments now now tc hnd
        exact ⟨_, hf, hs.1, hs.2.1⟩
      · exact findMessage_append_of_some _ _ _ _ hsrc
      · intro cid hne
        exact findChannel_saveChannel_other now s.channels _ cid hne

/-- Scenario D: U1 forwards the group message 5 to the direct channel 4. -/
theorem forward_copies_and_counts_witness :
    findMessage scenarioM.messages 5 = some messageHello ∧
    Reachable scenarioM ∧
    SocketService.findLiveChannelFor scenarioM.channels 4 0 = some directM ∧
    (SocketService.forwardMessage 20 scenarioM 0 5 4).succeeded = true ∧
    (findChannel (SocketService.forwardMessage 20 scenarioM 0 5 4).store.channels 4).map
      (fun c => c.unreadCounts) = some [(0, 0), (1, 3)] ∧
    findMessage (SocketService.forwardMessage 20 scenarioM 0 5 4).store.messages 5
      = some messageHello :=
  ⟨by decide, reachable_runAll _ _ Reachable.init, by decide, by decide, by decide,
    (forward_copies_and_counts 20 scenarioM 0 5 4 messageHello directM (by decide)
      (reachable_runAll _ _ Reachable.init) (by decide) (by decide)).2.2.1⟩

/-! ## C15: the reply preview and later edits -/

/-- C15 as stated fails: U1 sends "hi" (message 3), U2 answers with a reply to it (message 4),
then U1 edits message 3 to "hello".  When U2 fetches the channel, the reply is returned with
`replyTo.content = "hello"`, not with the text "hi" the original had when the reply was sent. -/
theorem reply_preview_follows_edit :
    (findMessage (sentInA "hi").messages 3).map (fun m => m.text) = some "hi" ∧
    (findMessage replyThenEdit.messages 4).map (fun m => (m.text, m.replyTo))
      = some ("re", some 3) ∧
    ((MessageController.fetchMessages true 2000 replyThenEdit 1 2).2.map
      (fun m => (m.id, m.replyTo.map (fun r => (r.id, r.content)))))
      = [(3, none), (4, some (3, "hello"))] := by
  decide

theorem findMessage_saveMessage (ms : List Message) (i : MessageId) (m : Message)
    (text : String) (h : findMessage ms i = some m) :
    findMessage (saveMessage ms { m with text := text }) i = some { m with text := text } := by
  have hid : m.id = i := (findMessage_mem h).2
  induction ms with
  | nil => simp [findMessage] at h
  | cons x rest ih =>
    by_cases hx : x.id = i
    · have hxm : x.id = m.id := hx.trans hid.symm
      simp [saveMessage, findMessage, hxm, hid]
    · have hxm : ¬ x.id = m.id := fun e => hx (e.trans hid)
      have hrest : findMessage rest i = some m := by
        simpa [findMessage, List.find?_cons, hx] using h
      have := ih hrest
      simp only [saveMessage, findMessage] at this
      simp only [saveMessage, findMessage, List.map_cons, hxm, if_false, List.find?_cons, hx,
        decide_False]
      exact this

theorem http_edit_messages (busUp : Bool) (now : Time) (s : Store) (u : UserId)
    (oid : MessageId) (t : String) (m : Message) (hm : findMessage s.messages oid = some m)
    (hok : (MessageController.editMessage busUp now s u oid t).succeeded = true) :
    (MessageController.editMessage busUp now s u oid t).store.messages
      = saveMessage s.messages { m with text := t } := by
  unfold MessageController.editMessage at hok ⊢
  simp only [hm] at hok ⊢
  repeat' (first | split | dsimp only)
  all_goals first
    | rfl
    | simp_all [Outcome.succeeded]

theorem socket_edit_messages (now : Time) (s : Store) (u : UserId)
    (oid : MessageId) (t : String) (cid : ChannelId) (m : Message)
    (hm : findMessage s.messages oid = some m)
    (hok : (SocketService.editMessage now s u oid t cid).succeeded = true) :
    (SocketService.editMessage now s u oid t cid).store.messages
      = saveMessage s.messages { m with text := t } := by
  unfold SocketService.editMessage at hok ⊢
  simp only [hm] at hok ⊢
  repeat' (first | split | dsimp only)
  all_goals first
    | rfl
    | simp_all [Outcome.succeeded]

theorem http_edit_stores_text (busUp : Bool) (now : Time) (s : Store) (u : UserId)
    (oid : MessageId) (t : String)
    (hok : (MessageController.editMessage busUp now s u oid t).succeeded = true) :
    (findMessage (MessageController.editMessage busUp now s u oid t).store.messages oid).map
      (fun m => m.text) = some t := by
  cases hm : findMessage s.messages oid with
  | none => simp [MessageController.editMessage, hm, Outcome.succeeded] at hok
  | some m =>
    rw [http_edit_messages busUp now s u oid t m hm hok, findMessage_saveMessage _ _ _ _ hm]
    rfl

theorem socket_edit_stores_text (now : Time) (s : Store) (u : UserId)
    (oid : MessageId) (t : String) (cid : ChannelId)
    (hok : (SocketService.editMessage now s u oid t cid).succeeded = true) :
    (findMessage (SocketService.editMessage now s u oid t cid).store.messages oid).map
      (fun m => m.text) = some t := by
  cases hm : findMessage s.messages oid with
  | none =>
    unfold SocketService.editMessage at hok
    cases hc : findChannelFor s.channels cid u <;> simp [hc, hm, Outcome.succeeded] at hok
  | some m =>
    rw [socket_edit_messages now s u oid t cid m hm hok, findMessage_saveMessage _ _ _ _ hm]
    rfl

theorem fetched_mem (busUp : Bool) (now : Time) (s : Store) (u : UserId) (cid : ChannelId)
    (fm : MessageController.FetchedMessage)
    (h : fm ∈ (MessageController.fetchMessages busUp now s u cid).2) :
    ∃ m ∈ MessageController.visibleMessages s.messages cid u,
      fm = MessageController.formatFetched s u m := by
  unfold MessageController.fetchMessages at h
  repeat' (first | split at h | dsimp only at h)
  all_goals first
    | (simp at h; done)
    | skip
  all_goals
    obtain ⟨m, hm, rfl⟩ := List.mem_map.mp h
    exact ⟨m, hm, rfl⟩

theorem fetched_reply_content (busUp : Bool) (now : Time) (s : Store) (u : UserId)
    (cid : ChannelId) (oid : MessageId) (t : String)
    (ho : (findMessage s.messages oid).map (fun m => m.text) = some t)
    (fm : MessageController.FetchedMessage)
    (hfm : fm ∈ (MessageController.fetchMessages busUp now s u cid).2)
    (rv : MessageController.ReplyView) (hrv : fm.replyTo = some rv) (hid : rv.id = oid) :
    rv.content = t := by
  obtain ⟨m, _, rfl⟩ := fetched_mem busUp now s u cid fm hfm
  simp only [MessageController.formatFetched, Option.map_eq_some', Option.bind_eq_some] at hrv
  obtain ⟨r, ⟨rid, _, hr⟩, rfl⟩ := hrv
  have hrid : r.id = rid := (findMessage_mem hr).2
  dsimp only at hid
  have : rid = oid := hrid.symm.trans hid
  subst this
  rw [hr] at ho
  simpa using ho

/-- C15 (amended): the reply preview is read from the original message as it is stored now.
After the author of `O` has edited it to the text `t` (HTTP or socket handler, successfully),
every message that `fetchMessages` returns with a `replyTo` referring to `O` carries
`replyTo.content = t`. -/
theorem reply_preview_is_current_text (busUp busUp' : Bool) (now now' : Time) (s : Store)
    (sender u : UserId) (oid : MessageId) (t : String) (cid cid' : ChannelId)
    (fm : MessageController.FetchedMessage) (rv : MessageController.ReplyView)
    (hrv : fm.replyTo = some rv) (hid : rv.id = oid) :
    ((MessageController.editMessage busUp now s sender oid t).succeeded = true →
      fm ∈ (MessageController.fetchMessages busUp' now'
        (MessageController.editMessage busUp now s sender oid t).store u cid).2 →
      rv.content = t) ∧
    ((SocketService.editMessage now s sender oid t cid').succeeded = true →
      fm ∈ (MessageController.fetchMessages busUp' now'
        (SocketService.editMessage now s sender oid t cid').store u cid).2 →
      rv.content = t) :=
  ⟨fun hok hfm => fetched_reply_content busUp' now' _ u cid oid t
      (http_edit_stores_text busUp now s sender oid t hok) fm hfm rv hrv hid,
    fun hok hfm => fetched_reply_content busUp' now' _ u cid oid t
      (socket_edit_stores_text now s sender oid t cid' hok) fm hfm rv hrv hid⟩

/-- U1 edits message 3 of `repliedInA` to "hello"; U2 fetches and gets the reply with the
preview "hello". -/
theorem reply_preview_is_current_text_witness :
    fetchedReply.replyTo = some { id := 3, senderId := 0, senderName := "U1", content := "hello" } ∧
    (MessageController.editMessage true 1009 repliedInA 0 3 "hello").succeeded = true ∧
    fetchedReply ∈ (MessageController.fetchMessages true 2000
      (MessageController.editMessage true 1009 repliedInA 0 3 "hello").store 1 2).2 ∧
    ({ id := 3, senderId := 0, senderName := "U1", content := "hello" } :
      MessageController.ReplyView).content = "hello" :=
  ⟨by decide, by decide, by decide,
    (reply_preview_is_current_text true true 1009 2000 repliedInA 0 1 3 "hello" 2 2 fetchedReply
      { id := 3, senderId := 0, senderName := "U1", content := "hello" } rfl rfl).1
      (by decide) (by decide)⟩

/-! ## C16: what the handler `fetchMessages` returns -/

theorem mem_visibleMessages (ms : List Message) (cid : ChannelId) (u : UserId) (m : Message) :
    m ∈ MessageController.visibleMessages ms cid u ↔
      m ∈ ms ∧ m.channelId = cid ∧ u ∈ m.visibleTo := by
  unfold MessageController.visibleMessages
  rw [(List.perm_insertionSort _ _).mem_iff]
  simp [List.mem_filter]

theorem visibleMessages_sorted (ms : List Message) (cid : ChannelId) (u : UserId) :
    (MessageController.visibleMessages ms cid u).Sorted
      (fun a b => a.createdAt ≤ b.createdAt) := by
  unfold MessageController.visibleMessages
  haveI : IsTotal Message (fun a b => a.createdAt ≤ b.createdAt) :=
    ⟨fun a b => Nat.le_total a.createdAt b.createdAt⟩
  haveI : IsTrans Message (fun a b => a.createdAt ≤ b.createdAt) :=
    ⟨fun _ _ _ h1 h2 => Nat.le_trans h1 h2⟩
  exact List.sorted_insertionSort _ _

/-- The first half of C16 holds: a successful `fetchMessages(channelId, userId)` answers the
messages of the channel whose `visibleTo` contains the user, each once per stored document, in
ascending order of `createdAt`; a message without the user in `visibleTo` is not answered. -/
theorem fetch_answers_visible_sorted (busUp : Bool) (now : Time) (s : Store) (u : UserId)
    (cid : ChannelId)
    (hok : (MessageController.fetchMessages busUp now s u cid).1.succeeded = true) :
    (MessageController.fetchMessages busUp now s u cid).2 =
      (MessageController.visibleMessages s.messages cid u).map
        (MessageController.formatFetched s u) ∧
    (∀ m, m ∈ MessageController.visibleMessages s.messages cid u ↔
      m ∈ s.messages ∧ m.channelId = cid ∧ u ∈ m.visibleTo) ∧
    (MessageController.visibleMessages s.messages cid u).Sorted
      (fun a b => a.createdAt ≤ b.createdAt) := by
  refine ⟨?_, mem_visibleMessages _ _ _, visibleMessages_sorted _ _ _⟩
  unfold MessageController.fetchMessages at hok ⊢
  repeat' (first | split | dsimp only)
  all_goals first
    | rfl
    | simp_all [Outcome.succeeded]

/-! ## The four outcomes of `createChannel` -/

/-- The handler `createChannel` ends in one of four ways: it fails and leaves the store as it
was; it finds the direct channel of the pair and leaves the store as it was; it creates a
group; or it creates a direct channel for a pair that has none. -/
theorem createChannel_cases (busUp : Bool) (now : Time) (s : Store) (u : UserId)
    (body : ChannelsController.CreateBody) (token : String) :
    ((ChannelsController.createChannel busUp now s u body token).store = s ∧
      (ChannelsController.createChannel busUp now s u body token).succeeded = false) ∨
    (∃ users e, body.type = "direct" ∧ body.users = some users ∧
      findDirect s.channels (directPair users u) = some e ∧
      (ChannelsController.createChannel busUp now s u body token).store = s ∧
      (ChannelsController.createChannel busUp now s u body token).events = [] ∧
      (ChannelsController.createChannel busUp now s u body token).reply ≠ Reply.http 201) ∨
    (∃ users name, body.type ≠ "direct" ∧ body.users = some users ∧
      (ChannelsController.createChannel busUp now s u body token).store =
        createdStore now s body.type name (ChannelsController.uniq (users ++ [u])) (some token) ∧
      ((ChannelsController.createChannel busUp now s u body token).succeeded = true →
        (ChannelsController.createChannel busUp now s u body token).reply = Reply.http 201)) ∨
    (∃ users name, body.type = "direct" ∧ body.users = some users ∧
      (directPair users u).length = 2 ∧ findDirect s.channels (directPair users u) = none ∧
      (ChannelsController.createChannel busUp now s u body token).store =
        createdStore now s "direct" name (directPair users u) none ∧
      ((ChannelsController.createChannel busUp now s u body token).succeeded = true →
        (ChannelsController.createChannel busUp now s u body token).reply = Reply.http 201)) := by
  obtain ⟨o, ho⟩ : ∃ o, ChannelsController.createChannel busUp now s u body token = o :=
    ⟨_, rfl⟩
  rw [ho]
  unfold ChannelsController.createChannel at ho
  cases hus : body.users with
  | none =>
    simp only [hus] at ho
    subst ho
    exact Or.inl ⟨rfl, rfl⟩
  | some users =>
    simp only [hus] at ho
    by_cases ht : body.type = ""
    · rw [if_pos ht] at ho
      subst ho
      exact Or.inl ⟨rfl, rfl⟩
    rw [if_neg ht] at ho
    by_cases hv : (s.users.filter (fun x => decide (x.id ∈ users))).length ≠ users.length
    · rw [if_pos hv] at ho
      subst ho
      exact Or.inl ⟨rfl, rfl⟩
    rw [if_neg hv] at ho
    by_cases hd : body.type = "direct"
    · rw [if_pos hd] at ho
      by_cases hl : (ChannelsController.uniq (users ++ [u])).length ≠ 2
      · rw [if_pos hl] at ho
        subst ho
        exact Or.inl ⟨rfl, rfl⟩
      rw [if_neg hl] at ho
      cases hf1 : ((ChannelsController.uniq (users ++ [u])).insertionSort
          (fun a b => a ≤ b)).find? (fun id => decide (id ≠ u)) with
      | none =>
        simp only [hf1] at ho
        subst ho
        exact Or.inl ⟨rfl, rfl⟩
      | some other =>
        simp only [hf1] at ho
        cases hf2 : (s.users.filter (fun x => decide (x.id ∈ users))).find?
            (fun x => decide (x.id = other)) with
        | none =>
          simp only [hf2] at ho
          subst ho
          exact Or.inl ⟨rfl, rfl⟩
        | some otherUser =>
          simp only [hf2] at ho
          have hlen : (directPair users u).length = 2 := by
            unfold directPair
            rw [List.length_insertionSort]
            exact not_not.mp hl
          cases hf3 : findDirect s.channels (directPair users u) with
          | none =>
            have hf3' := hf3
            unfold findDirect directPair at hf3'
            simp only [hf3'] at ho
            unfold ChannelsController.createNew at ho
            refine Or.inr (Or.inr (Or.inr ⟨users,
              (if ChannelsController.trim body.name ≠ "" then ChannelsController.trim body.name
                else if otherUser.name ≠ "" then otherUser.name else "Direct Chat"),
              hd, rfl, hlen, hf3, ?_, ?_⟩))
            · subst ho
              unfold createdStore directPair
              rw [hd]
              cases busUp <;> rfl
            · subst ho
              cases busUp <;> simp [Outcome.succeeded]
          | some e =>
            have hf3' := hf3
            unfold findDirect directPair at hf3'
            simp only [hf3'] at ho
            refine Or.inr (Or.inl ⟨users, e, hd, rfl, hf3, ?_, ?_, ?_⟩)
            · subst ho
              split <;> rfl
            · subst ho
              split <;> rfl
            · subst ho
              split <;> simp
    · rw [if_neg hd] at ho
      by_cases hn : ChannelsController.trim body.name = ""
      · rw [if_pos hn] at ho
        subst ho
        exact Or.inl ⟨rfl, rfl⟩
      rw [if_neg hn] at ho
      unfold ChannelsController.createNew at ho
      refine Or.inr (Or.inr (Or.inl ⟨users, ChannelsController.trim body.name, hd, rfl, ?_, ?_⟩))
      · subst ho
        cases busUp <;> rfl
      · subst ho
        cases busUp <;> simp [Outcome.succeeded]
/-! ## C19: the unread map of a new channel -/

/-- C19 as stated fails in scenario A: the state is reachable, the direct channel just created
by U1 has the members U1 and U2, and its unread map has no entry for either of them. -/
theorem new_channel_has_no_unread_entries :
    Reachable scenarioA ∧ scenarioA.channels = [directA] ∧ directA.users = [0, 1] ∧
    UMap.get directA.unreadCounts 0 = none ∧ UMap.get directA.unreadCounts 1 = none ∧
    ¬ EveryMemberHasEntry scenarioA := by
  refine ⟨reachable_runAll _ _ Reachable.init, by decide, by decide, by decide, by decide, ?_⟩
  unfold EveryMemberHasEntry
  decide

/-- C19 (amended): in a reachable state, when `createChannel` creates a channel (status 201),
the new channel is stored last with an empty unread map, so that no member has an entry and
every unread count, read as `unreadCounts.get(u) || 0`, is 0; and in the state reached every
unread count of every channel, read in this way, is a non-negative number. -/
theorem new_channel_reads_zero (busUp : Bool) (now : Time) (s : Store) (u : UserId)
    (body : ChannelsController.CreateBody) (token : String) (hreach : Reachable s)
    (hnew : (ChannelsController.createChannel busUp now s u body token).reply = Reply.http 201) :
    (∃ c, (ChannelsController.createChannel busUp now s u body token).store.channels
          = s.channels ++ [c] ∧
        c.id = s.nextId ∧ c.unreadCounts = [] ∧ ∀ v, (UMap.get c.unreadCounts v).getD 0 = 0) ∧
    ∀ c ∈ (ChannelsController.createChannel busUp now s u body token).store.channels,
      ∀ v, 0 ≤ (UMap.get c.unreadCounts v).getD 0 := by
  constructor
  · have hsucc : (ChannelsController.createChannel busUp now s u body token).succeeded = true := by
      simp [Outcome.succeeded, hnew]
    rcases createChannel_cases busUp now s u body token with
      ⟨_, h⟩ | ⟨_, _, _, _, _, _, _, h⟩ | ⟨_, _, _, _, h, _⟩ | ⟨_, _, _, _, _, _, h, _⟩
    · rw [hsucc] at h; cases h
    · exact absurd hnew h
    · rw [h]; exact ⟨_, rfl, rfl, rfl, fun _ => rfl⟩
    · rw [h]; exact ⟨_, rfl, rfl, rfl, fun _ => rfl⟩
  · intro c hc v
    exact get_nonneg _ v
      (reachable_countsNonNeg _ (Reachable.step (Op.createChannel busUp now u body token) hreach)
        c hc)

/-- Scenario A: U1 creates the direct channel with U2. -/
theorem new_channel_reads_zero_witness :
    Reachable twoUsers ∧
    (ChannelsController.createChannel true 5 twoUsers 0
      { type := "direct", name := "", users := some [1] } "").reply = Reply.http 201 ∧
    (∃ c, (ChannelsController.createChannel true 5 twoUsers 0
          { type := "direct", name := "", users := some [1] } "").store.channels
            = twoUsers.channels ++ [c] ∧
        c.id = twoUsers.nextId ∧ c.unreadCounts = [] ∧
        ∀ v, (UMap.get c.unreadCounts v).getD 0 = 0) :=
  ⟨reachable_runAll _ _ Reachable.init, by decide,
    (new_channel_reads_zero true 5 twoUsers 0 { type := "direct", name := "", users := some [1] }
      "" (reachable_runAll _ _ Reachable.init) (by decide)).1⟩
/-! ## Two lemmas on `pullVisible` and on the direct-channel lookup -/

theorem pullVisible_eq_map (ms : List Message) (cid : ChannelId) (uid : UserId) :
    pullVisible ms cid uid =
      ms.map (fun m =>
        if m.channelId = cid then
          { m with visibleTo := m.visibleTo.filter (fun v => decide (v ≠ uid)) }
        else m) := by
  unfold pullVisible
  apply List.map_congr_left
  intro m _
  by_cases hc : m.channelId = cid
  · subst hc
    by_cases hu : uid ∈ m.visibleTo
    · simp [hu]
    · have hf : m.visibleTo.filter (fun v => decide (v ≠ uid)) = m.visibleTo := by
        rw [List.filter_eq_self]
        intro v hv
        have : v ≠ uid := fun e => hu (e ▸ hv)
        simpa using this
      simp only [hu, and_false, if_false, if_true, hf]
  · simp [hc]

theorem findDirect_mem {cs : List Channel} {pair : List UserId} {e : Channel}
    (h : findDirect cs pair = some e) :
    e ∈ cs ∧ e.type = "direct" ∧ e.users.length = 2 ∧ ∀ v ∈ pair, v ∈ e.users := by
  unfold findDirect at h
  have h2 := List.find?_some h
  simp only [Bool.and_eq_true, decide_eq_true_eq, List.all_eq_true] at h2
  exact ⟨List.mem_of_find?_eq_some h, h2.1.1, h2.1.2, h2.2⟩

/-! ## C18: one direct channel per pair -/

theorem findDirect_none {cs : List Channel} {pair : List UserId}
    (h : findDirect cs pair = none) (c : Channel) (hc : c ∈ cs) (ht : c.type = "direct")
    (hl : c.users.length = 2) : ¬ ∀ v ∈ pair, v ∈ c.users := by
  unfold findDirect at h
  rw [List.find?_eq_none] at h
  intro hall
  have := h c hc
  simp [ht, hl] at this
  obtain ⟨v, hv, hnot⟩ := this
  exact hnot (hall v hv)

theorem channelsWF_append (now : Time) (s : Store) (type name : String) (users : List UserId)
    (tok : Option String) (h : ChannelsWF s)
    (htwo : type = "direct" → users.length = 2)
    (hnew : ∀ c ∈ s.channels, c.type = "direct" → type = "direct" →
      ¬ ∀ v, v ∈ c.users ↔ v ∈ users) :
    ChannelsWF (createdStore now s type name users tok) := by
  unfold createdStore
  refine ⟨?_, ?_, ?_, ?_⟩
  · intro c hc
    rcases List.mem_append.mp hc with hc | hc
    · exact Nat.lt_succ_of_lt (h.fresh c hc)
    · rw [List.mem_singleton.mp hc]; exact Nat.lt_succ_self _
  · dsimp only
    rw [List.map_append, List.nodup_append]
    refine ⟨h.ids, List.nodup_singleton _, ?_⟩
    intro a ha hb
    simp only [List.map_cons, List.map_nil, List.mem_singleton] at hb
    obtain ⟨c, hc, rfl⟩ := List.mem_map.mp ha
    exact absurd hb (Nat.ne_of_lt (h.fresh c hc))
  · intro c hc
    rcases List.mem_append.mp hc with hc | hc
    · exact h.two c hc
    · rw [List.mem_singleton.mp hc]; exact htwo
  · unfold DirectUnique
    dsimp only
    rw [List.pairwise_append]
    refine ⟨h.unique, List.pairwise_singleton _ _, ?_⟩
    intro a ha b hb
    rw [List.mem_singleton.mp hb]
    rintro ⟨h1, h2, h3⟩
    exact hnew a ha h1 h2 h3

theorem createChannel_channelsWF (busUp : Bool) (now : Time) (s : Store) (u : UserId)
    (body : ChannelsController.CreateBody) (token : String) (h : ChannelsWF s) :
    ChannelsWF (ChannelsController.createChannel busUp now s u body token).store := by
  rcases createChannel_cases busUp now s u body token with
    ⟨h1, _⟩ | ⟨_, _, _, _, _, h1, _⟩ | ⟨_, _, hnd, _, h1, _⟩ | ⟨us, _, _, _, hlen, hnone, h1, _⟩
  · rw [h1]; exact h
  · rw [h1]; exact h
  · rw [h1]
    exact channelsWF_append now s _ _ _ _ h (fun ht => absurd ht hnd)
      (fun _ _ _ ht => absurd ht hnd)
  · rw [h1]
    refine channelsWF_append now s _ _ _ _ h (fun _ => hlen) ?_
    intro c hc ht _ hsame
    exact findDirect_none hnone c hc ht (h.two c hc ht) (fun v hv => (hsame v).mpr hv)

theorem createdOnly_channelsWF (s : Store) (h : CreatedOnly s) : ChannelsWF s := by
  induction h with
  | init s h0 =>
    refine ⟨?_, ?_, ?_, ?_⟩
    · intro c hc; rw [h0] at hc; cases hc
    · rw [h0]; exact List.nodup_nil
    · intro c hc; rw [h0] at hc; cases hc
    · unfold DirectUnique; rw [h0]; exact List.Pairwise.nil
  | step busUp now u body token _ ih => exact createChannel_channelsWF busUp now _ u body token ih

/-- C18: let `c` be a stored direct channel with two members, and let `u` request a direct
channel (`createChannel` with type `direct`) for a pair whose members all belong to `c`.  Then
the call adds no channel; if moreover no direct channel of that pair carries a `deletedAt`
entry of `u`, the store is left exactly as it was.  Consequently, in every state reached from
a store without channels by `createChannel` calls, no two stored channels are direct channels
of the same pair. -/
theorem direct_channel_is_not_duplicated (busUp : Bool) (now : Time) (s : Store) (u : UserId)
    (body : ChannelsController.CreateBody) (token : String) (users : List UserId) (c : Channel)
    (hd : body.type = "direct") (hus : body.users = some users)
    (hc : c ∈ s.channels) (hct : c.type = "direct") (hlen : c.users.length = 2)
    (hpair : ∀ v ∈ directPair users u, v ∈ c.users) :
    (ChannelsController.createChannel busUp now s u body token).store.channels.length
      = s.channels.length ∧
    ((∀ c' ∈ s.channels, c'.type = "direct" → c'.users.length = 2 →
        (∀ v ∈ directPair users u, v ∈ c'.users) → UMap.get c'.deletedAt u = none) →
      (ChannelsController.createChannel busUp now s u body token).store = s) ∧
    ∀ t, CreatedOnly t → DirectUnique t.channels := by
  refine ⟨?_, ?_, fun t ht => (createdOnly_channelsWF t ht).unique⟩
  · rcases createChannel_cases busUp now s u body token with
      ⟨h1, _⟩ | ⟨_, _, _, _, _, h1, _⟩ | ⟨_, _, hnd, _⟩ | ⟨us, _, _, hus2, _, hnone, _⟩
    · rw [h1]
    · rw [h1]
    · exact absurd hd hnd
    · rw [hus] at hus2; cases hus2
      exact absurd hpair (findDirect_none hnone c hc hct hlen)
  · intro _
    rcases createChannel_cases busUp now s u body token with
      ⟨h1, _⟩ | ⟨_, _, _, _, _, h1, _⟩ | ⟨_, _, hnd, _⟩ | ⟨us, _, _, hus2, _, hnone, _⟩
    · exact h1
    · exact h1
    · exact absurd hd hnd
    · rw [hus] at hus2; cases hus2
      exact absurd hpair (findDirect_none hnone c hc hct hlen)

/-- Scenario A: the direct channel of U1 and U2 exists; U2 asks for it. -/
theorem direct_channel_is_not_duplicated_witness :
    directA ∈ scenarioA.channels ∧ directA.type = "direct" ∧ directA.users.length = 2 ∧
    (∀ v ∈ directPair [0] 1, v ∈ directA.users) ∧
    (ChannelsController.createChannel true 30 scenarioA 1
      { type := "direct", name := "", users := some [0] } "").store.channels.length
      = scenarioA.channels.length ∧
    (ChannelsController.createChannel true 30 scenarioA 1
      { type := "direct", name := "", users := some [0] } "").store = scenarioA :=
  ⟨by decide, by decide, by decide, by decide,
    (direct_channel_is_not_duplicated true 30 scenarioA 1
      { type := "direct", name := "", users := some [0] } "" [0] directA rfl rfl (by decide)
      (by decide) (by decide) (by decide)).1,
    (direct_channel_is_not_duplicated true 30 scenarioA 1
      { type := "direct", name := "", users := some [0] } "" [0] directA rfl rfl (by decide)
      (by decide) (by decide) (by decide)).2.1 (by decide)⟩

/-! ## C26: what `listChannels` answers -/

theorem listBefore_iff (a b : Channel) :
    ChannelsController.listBefore a b = true ↔
      (a.lastMessageTime > b.lastMessageTime ∨
        (a.lastMessageTime = b.lastMessageTime ∧ a.updatedAt ≥ b.updatedAt)) := by
  simp [ChannelsController.listBefore]

theorem mem_listedChannels (cs : List Channel) (u : UserId) (c : Channel) :
    c ∈ ChannelsController.listedChannels cs u ↔
      c ∈ cs ∧ u ∈ c.users ∧ UMap.get c.deletedAt u = none := by
  unfold ChannelsController.listedChannels
  rw [(List.perm_insertionSort _ _).mem_iff]
  simp [List.mem_filter]

theorem listedChannels_sorted (cs : List Channel) (u : UserId) :
    (ChannelsController.listedChannels cs u).Sorted
      (fun a b => ChannelsController.listBefore a b = true) := by
  unfold ChannelsController.listedChannels
  haveI : IsTotal Channel (fun a b => ChannelsController.listBefore a b = true) :=
    ⟨fun a b => by
      simp only [listBefore_iff]
      have key : ∀ x y p q : Nat,
          (x > y ∨ (x = y ∧ p ≥ q)) ∨ (y > x ∨ (y = x ∧ q ≥ p)) := by
        intro x y p q
        omega
      exact key _ _ _ _⟩
  haveI : IsTrans Channel (fun a b => ChannelsController.listBefore a b = true) :=
    ⟨fun a b c h1 h2 => by
      simp only [listBefore_iff] at h1 h2 ⊢
      have key : ∀ x y z p q r : Nat,
          (x > y ∨ (x = y ∧ p ≥ q)) → (y > z ∨ (y = z ∧ q ≥ r)) →
            (x > z ∨ (x = z ∧ p ≥ r)) := by
        intro x y z p q r
        omega
      exact key _ _ _ _ _ _ h1 h2⟩
  exact List.sorted_insertionSort _ _

theorem lastVisible_some (ms : List Message) (cid : ChannelId) (u : UserId) (m : Message)
    (h : ChannelsController.lastVisible ms cid u = some m) :
    m ∈ ms ∧ m.channelId = cid ∧ u ∈ m.visibleTo ∧
      ∀ x ∈ ms, x.channelId = cid → u ∈ x.visibleTo → x.createdAt ≤ m.createdAt := by
  obtain ⟨hmem, hmax⟩ := newest_some _ m h
  have hl := List.mem_filter.mp hmem
  have hl2 : m.channelId = cid ∧ u ∈ m.visibleTo := by simpa using hl.2
  refine ⟨hl.1, hl2.1, hl2.2, ?_⟩
  intro x hx hc hv
  exact hmax x (List.mem_filter.mpr ⟨hx, by simp [hc, hv]⟩)

theorem lastVisible_none (ms : List Message) (cid : ChannelId) (u : UserId)
    (h : ChannelsController.lastVisible ms cid u = none) :
    ∀ x ∈ ms, x.channelId = cid → u ∉ x.visibleTo := by
  intro x hx hc hv
  have hnil := (newest_none _).mp h
  have hmem : x ∈ ms.filter
      (fun m => decide (m.channelId = cid) && decide (u ∈ m.visibleTo)) :=
    List.mem_filter.mpr ⟨hx, by simp [hc, hv]⟩
  rw [hnil] at hmem
  cases hmem

theorem listChannels_eq_map (s : Store) (u : UserId) :
    ChannelsController.listChannels s u =
      (ChannelsController.listedChannels s.channels u).map (ChannelsController.entryOf s u) := by
  unfold ChannelsController.listChannels
  rw [← List.filterMap_eq_map]
  apply List.filterMap_congr
  intro c hc
  have hdel := ((mem_listedChannels s.channels u c).mp hc).2.2
  simp [hdel]

/-- C26: `listChannels(userId)` answers one entry for every stored channel whose member list
contains the user and that has no `deletedAt` entry for the user, and for no other channel; the
entries are ordered by the channel's `lastMessageTime`, descending, then by `updatedAt`,
descending; and the `lastMessage` of an entry is the text of the message of greatest
`createdAt` among the messages of that channel whose `visibleTo` contains the user, or empty
when there is none. -/
theorem listChannels_answers_member_channels (s : Store) (u : UserId) :
    ChannelsController.listChannels s u =
      (ChannelsController.listedChannels s.channels u).map (ChannelsController.entryOf s u) ∧
    (ChannelsController.listedChannels s.channels u).Perm
      (s.channels.filter
        (fun c => decide (u ∈ c.users) && (UMap.get c.deletedAt u).isNone)) ∧
    (∀ c, c ∈ ChannelsController.listedChannels s.channels u ↔
      c ∈ s.channels ∧ u ∈ c.users ∧ UMap.get c.deletedAt u = none) ∧
    (ChannelsController.listedChannels s.channels u).Sorted
      (fun a b => a.lastMessageTime > b.lastMessageTime ∨
        (a.lastMessageTime = b.lastMessageTime ∧ a.updatedAt ≥ b.updatedAt)) ∧
    ∀ c, (ChannelsController.entryOf s u c).id = c.id ∧
      (∀ m, ChannelsController.lastVisible s.messages c.id u = some m →
        (ChannelsController.entryOf s u c).lastMessage = m.text ∧
        m ∈ s.messages ∧ m.channelId = c.id ∧ u ∈ m.visibleTo ∧
        ∀ x ∈ s.messages, x.channelId = c.id → u ∈ x.visibleTo → x.createdAt ≤ m.createdAt) ∧
      (ChannelsController.lastVisible s.messages c.id u = none →
        (ChannelsController.entryOf s u c).lastMessage = "" ∧
        ∀ x ∈ s.messages, x.channelId = c.id → u ∉ x.visibleTo) := by
  refine ⟨listChannels_eq_map s u, List.perm_insertionSort _ _, mem_listedChannels _ _, ?_, ?_⟩
  · exact (listedChannels_sorted s.channels u).imp (fun h => (listBefore_iff _ _).mp h)
  · intro c
    refine ⟨rfl, ?_, ?_⟩
    · intro m hm
      refine ⟨?_, lastVisible_some _ _ _ _ hm⟩
      simp [ChannelsController.entryOf, hm]
    · intro hn
      refine ⟨?_, lastVisible_none _ _ _ hn⟩
      simp [ChannelsController.entryOf, hn]

/-! ## C27: the summary of an attachment-only message -/

/-- C27 at a concrete input: in scenario A, U1 sends one attachment and an empty text.  The
stored channel summary is the placeholder `[Attachment]`, but the entry `listChannels` answers
to U2 (and to U1) for that channel has an empty `lastMessage`. -/
theorem listChannels_drops_attachment_placeholder :
    (latestMessage attachmentSentInA.messages 2).map (fun m => (m.text, m.attachments))
      = some ("", [picture]) ∧
    (findChannel attachmentSentInA.channels 2).map (fun c => c.lastMessage)
      = some "[Attachment]" ∧
    (ChannelsController.listChannels attachmentSentInA 1).map (fun e => (e.id, e.lastMessage))
      = [(2, "")] ∧
    (ChannelsController.listChannels attachmentSentInA 0).map (fun e => (e.id, e.lastMessage))
      = [(2, "")] := by
  decide

/-! ## C25: the system messages of `updateChannel` -/

theorem postAll_found_error (busUp : Bool) (now : Time) (userId : UserId) (suffix : String)
    (uids : List UserId) (s : Store) (channel : Channel) (events : List Event)
    (h : ∃ uid ∈ uids, (findUser s.users uid).isSome = true) :
    ChannelsController.postAll busUp now userId suffix uids s channel events
      = Except.error (s, events) := by
  induction uids with
  | nil =>
    obtain ⟨uid, hmem, _⟩ := h
    cases hmem
  | cons x rest ih =>
    unfold ChannelsController.postAll
    cases hu : findUser s.users x with
    | some user => simp [postSystemMessage_throws]
    | none =>
      simp only
      apply ih
      obtain ⟨uid, hmem, hf⟩ := h
      rcases List.mem_cons.mp hmem with e | hr
      · subst e
        rw [hu] at hf
        cases hf
      · exact ⟨uid, hr, hf⟩

/-- C25: an `updateChannel` request whose member list is valid and adds or removes at least
one stored user is never answered with success.  The new member list is stored, then the first
system message is rejected by the message schema (its `user` is null): the answer is 500, no
message is added to the store, the unread counts of the channel are the ones it had, and no
event is sent. -/
theorem updateChannel_member_change_fails (busUp : Bool) (now : Time) (s : Store)
    (userId : UserId) (channelId : ChannelId) (body : ChannelsController.UpdateBody)
    (channel : Channel) (users : List UserId)
    (hc : findChannelFor s.channels channelId userId = some channel)
    (hb : body.users = some users)
    (hvalid : (s.users.filter
      (fun u => decide (u.id ∈ ChannelsController.uniq users))).length
        = (ChannelsController.uniq users).length)
    (hchange : ∃ uid, (findUser s.users uid).isSome = true ∧
      ((uid ∈ ChannelsController.uniq users ∧ uid ∉ channel.users) ∨
        (uid ∈ channel.users ∧ uid ∉ ChannelsController.uniq users))) :
    (ChannelsController.updateChannel busUp now s userId channelId body).reply = Reply.http 500 ∧
    (ChannelsController.updateChannel busUp now s userId channelId body).succeeded = false ∧
    (ChannelsController.updateChannel busUp now s userId channelId body).events = [] ∧
    (ChannelsController.updateChannel busUp now s userId channelId body).store.messages
      = s.messages ∧
    (ChannelsController.updateChannel busUp now s userId channelId body).store.channels
      = saveChannel now s.channels
          { channel with
            name := if ChannelsController.trim body.name ≠ ""
              then ChannelsController.trim body.name else channel.name
            users := ChannelsController.uniq users
            lastMessageTime := now } := by
  obtain ⟨o, ho⟩ : ∃ o, ChannelsController.updateChannel busUp now s userId channelId body = o :=
    ⟨_, rfl⟩
  rw [ho]
  unfold ChannelsController.updateChannel at ho
  simp only [hc, hb] at ho
  rw [if_neg (by simp [hvalid])] at ho
  obtain ⟨uid, hf, hch⟩ := hchange
  generalize hs1 : ({ s with
      channels := saveChannel now s.channels
        { channel with
          name := if ChannelsController.trim body.name ≠ ""
            then ChannelsController.trim body.name else channel.name
          users := ChannelsController.uniq users
          lastMessageTime := now } } : Store) = s1 at ho
  have hus : s1.users = s.users := by rw [← hs1]
  have hms : s1.messages = s.messages := by rw [← hs1]
  have hcs : s1.channels = saveChannel now s.channels
      { channel with
        name := if ChannelsController.trim body.name ≠ ""
          then ChannelsController.trim body.name else channel.name
        users := ChannelsController.uniq users
        lastMessageTime := now } := by rw [← hs1]
  rcases hch with ⟨hin, hout⟩ | ⟨hin, hout⟩
  · rw [postAll_found_error busUp now userId " joined the group" _ s1 _ []
      ⟨uid, List.mem_filter.mpr ⟨hin, by simpa using hout⟩, by rw [hus]; exact hf⟩] at ho
    subst ho
    exact ⟨rfl, rfl, rfl, hms, hcs⟩
  · rcases postAll_stays busUp now userId " joined the group"
      (List.filter (fun id => decide (id ∉ channel.users)) (ChannelsController.uniq users))
      s1 _ [] with h1 | h1
    · rw [h1] at ho
      simp only at ho
      rw [postAll_found_error busUp now userId " left the group" _ s1 _ []
        ⟨uid, List.mem_filter.mpr ⟨hin, by simpa using hout⟩, by rw [hus]; exact hf⟩] at ho
      subst ho
      exact ⟨rfl, rfl, rfl, hms, hcs⟩
    · rw [h1] at ho
      subst ho
      exact ⟨rfl, rfl, rfl, hms, hcs⟩

/-- C25 at a concrete input: in `scenarioM` (group 3 of U2, U3, U1, unread counts 0 for U1 and
1 for U2 and U3) U1 sends the member list `[U1, U2]`, which removes the stored user U3.  The
answer is 500; the channel now has the members U1 and U2 and the same unread counts; the
messages of the store are the three that were there. -/
theorem updateChannel_member_change_fails_witness :
    findChannelFor scenarioM.channels 3 0 =
      some { id := 3, type := "group", name := "team", users := [1, 2, 0],
             inviteToken := some "t0", deletedAt := [], lastMessage := "hello",
             lastMessageTime := 7, lastMessageSenderId := some 0,
             unreadCounts := [(0, 0), (1, 1), (2, 1)], createdAt := 5, updatedAt := 7 } ∧
    memberRemoved.reply = Reply.http 500 ∧
    memberRemoved.succeeded = false ∧
    memberRemoved.events = [] ∧
    memberRemoved.store.messages = scenarioM.messages ∧
    memberRemoved.store.channels
      = saveChannel 30 scenarioM.channels
          { id := 3, type := "group", name := "team", users := [0, 1],
            inviteToken := some "t0", deletedAt := [], lastMessage := "hello",
            lastMessageTime := 30, lastMessageSenderId := some 0,
            unreadCounts := [(0, 0), (1, 1), (2, 1)], createdAt := 5, updatedAt := 7 } :=
  ⟨by decide,
   updateChannel_member_change_fails true 30 scenarioM 0 3 { name := "", users := some [0, 1] }
    { id := 3, type := "group", name := "team", users := [1, 2, 0],
      inviteToken := some "t0", deletedAt := [], lastMessage := "hello",
      lastMessageTime := 7, lastMessageSenderId := some 0,
      unreadCounts := [(0, 0), (1, 1), (2, 1)], createdAt := 5, updatedAt := 7 }
    [0, 1] (by decide) rfl (by decide) ⟨2, by decide, Or.inr ⟨by decide, by decide⟩⟩⟩
/-! ## C30: the edit window -/

theorem editWindowExpired_iff (now createdAt : Time) :
    editWindowExpired now createdAt = true ↔ (now : Int) - (createdAt : Int) > 300000 := by
  simp [editWindowExpired]

theorem http_edit_by_sender (busUp : Bool) (now : Time) (s : Store) (u : UserId)
    (mid : MessageId) (text : String) (m : Message)
    (hm : findMessage s.messages mid = some m) (hu : m.user = u) :
    (editWindowExpired now m.createdAt = true →
      MessageController.editMessage busUp now s u mid text = ⟨s, Reply.http 403, []⟩) ∧
    (editWindowExpired now m.createdAt = false →
      (MessageController.editMessage busUp now s u mid text).reply ≠ Reply.http 403) := by
  constructor
  · intro he
    unfold MessageController.editMessage
    simp [hm, hu, he]
  · intro he
    unfold MessageController.editMessage
    simp only [hm, hu, he]
    repeat' (first | split | dsimp only)
    all_goals first | (intro h; cases h; done) | simp_all

theorem socket_edit_by_sender (now : Time) (s : Store) (u : UserId)
    (mid : MessageId) (text : String) (cid : ChannelId) (m : Message) (c : Channel)
    (hm : findMessage s.messages mid = some m) (hu : m.user = u)
    (hc : findChannelFor s.channels cid u = some c) :
    (editWindowExpired now m.createdAt = true →
      SocketService.editMessage now s u mid text cid =
        ⟨s, Reply.socketError "Message can only be edited within 5 minutes of sending", []⟩) ∧
    (editWindowExpired now m.createdAt = false →
      (SocketService.editMessage now s u mid text cid).reply ≠
        Reply.socketError "Message can only be edited within 5 minutes of sending") := by
  constructor
  · intro he
    unfold SocketService.editMessage
    simp [hm, hu, hc, he]
  · intro he
    unfold SocketService.editMessage
    simp only [hm, hu, hc, he]
    repeat' (first | split | dsimp only)
    all_goals first | (intro h; cases h; done) | simp_all

/-- C30: when the sender of a stored message asks to edit it, the HTTP handler answers 403
exactly when the server time minus the stored `createdAt` of the message is more than 300000
milliseconds, and the socket handler (given a channel of which the sender is a member) answers
with its edit-window error exactly then.  In that case the handler writes nothing and sends
nothing: the store, with the message text and the channel summary, is the one before. -/
theorem edit_rejected_iff_older_than_five_minutes (busUp : Bool) (now : Time) (s : Store)
    (u : UserId) (mid : MessageId) (text : String) (cid : ChannelId) (m : Message) (c : Channel)
    (hm : findMessage s.messages mid = some m) (hu : m.user = u)
    (hc : findChannelFor s.channels cid u = some c) :
    ((MessageController.editMessage busUp now s u mid text).reply = Reply.http 403 ↔
      (now : Int) - (m.createdAt : Int) > 300000) ∧
    ((SocketService.editMessage now s u mid text cid).reply =
        Reply.socketError "Message can only be edited within 5 minutes of sending" ↔
      (now : Int) - (m.createdAt : Int) > 300000) ∧
    ((now : Int) - (m.createdAt : Int) > 300000 →
      MessageController.editMessage busUp now s u mid text = ⟨s, Reply.http 403, []⟩ ∧
      SocketService.editMessage now s u mid text cid =
        ⟨s, Reply.socketError "Message can only be edited within 5 minutes of sending", []⟩) := by
  have h1 := http_edit_by_sender busUp now s u mid text m hm hu
  have h2 := socket_edit_by_sender now s u mid text cid m c hm hu hc
  rw [← editWindowExpired_iff]
  cases he : editWindowExpired now m.createdAt
  · refine ⟨⟨fun h => absurd h (h1.2 he), fun h => by cases h⟩,
      ⟨fun h => absurd h (h2.2 he), fun h => by cases h⟩, fun h => by cases h⟩
  · refine ⟨⟨fun _ => rfl, fun _ => by rw [h1.1 he]⟩, ⟨fun _ => rfl, fun _ => by rw [h2.1 he]⟩,
      fun _ => ⟨h1.1 he, h2.1 he⟩⟩

/-- In scenario A, U1 sends "hi" at time 9 and edits it at time 300009, exactly 300000 ms
later: both handlers accept the edit and store the new text. -/
theorem edit_rejected_iff_older_than_five_minutes_witness :
    (MessageController.editMessage true 300009 (sentInA "hi") 0 3 "hello").reply
      = Reply.http 200 ∧
    (SocketService.editMessage 300009 (sentInA "hi") 0 3 "hello" 2).reply = Reply.ack ∧
    (findMessage (MessageController.editMessage true 300009 (sentInA "hi") 0 3 "hello").store.messages
      3).map (fun m => m.text) = some "hello" ∧
    (MessageController.editMessage true 300010 (sentInA "hi") 0 3 "hello").reply
      = Reply.http 403 ∧
    (((MessageController.editMessage true 300009 (sentInA "hi") 0 3 "hello").reply
        = Reply.http 403 ↔ ((300009 : Nat) : Int) - ((9 : Nat) : Int) > 300000) ∧
      ((SocketService.editMessage 300009 (sentInA "hi") 0 3 "hello" 2).reply =
          Reply.socketError "Message can only be edited within 5 minutes of sending" ↔
        ((300009 : Nat) : Int) - ((9 : Nat) : Int) > 300000) ∧
      (((300009 : Nat) : Int) - ((9 : Nat) : Int) > 300000 →
        MessageController.editMessage true 300009 (sentInA "hi") 0 3 "hello"
          = ⟨sentInA "hi", Reply.http 403, []⟩ ∧
        SocketService.editMessage 300009 (sentInA "hi") 0 3 "hello" 2 =
          ⟨sentInA "hi",
            Reply.socketError "Message can only be edited within 5 minutes of sending", []⟩)) :=
  ⟨by decide, by decide, by decide, by decide,
   edit_rejected_iff_older_than_five_minutes true 300009 (sentInA "hi") 0 3 "hello" 2
    { id := 3, channelId := 2, user := 0, senderId := 0, senderName := "U1", text := "hi",
      attachments := [], replyTo := none, forwardedFrom := none, status := Status.sent,
      createdAt := 9, visibleTo := [0, 1] }
    { directA with
      lastMessage := "hi", lastMessageTime := 9, lastMessageSenderId := some 0,
      unreadCounts := [(0, 0), (1, 1)], updatedAt := 9 }
    (by decide) rfl (by decide)⟩

/-! ## C28: the store does not depend on the fan-out -/

theorem postAll_bus (b : Bool) (now : Time) (userId : UserId) (suffix : String)
    (uids : List UserId) (s : Store) (channel : Channel) (events : List Event) :
    ChannelsController.postAll b now userId suffix uids s channel events =
      ChannelsController.postAll true now userId suffix uids s channel events := by
  induction uids with
  | nil => rfl
  | cons x rest ih =>
    unfold ChannelsController.postAll
    cases hu : findUser s.users x with
    | none => simpa using ih
    | some user => simp [postSystemMessage_throws]

theorem createChannel_bus (b : Bool) (now : Time) (s : Store) (u : UserId)
    (body : ChannelsController.CreateBody) (token : String) :
    (ChannelsController.createChannel b now s u body token).store =
      (ChannelsController.createChannel true now s u body token).store := by
  cases b
  · unfold ChannelsController.createChannel ChannelsController.createNew
    repeat' (first | split | dsimp only)
  · rfl

theorem updateChannel_bus (b : Bool) (now : Time) (s : Store) (u : UserId)
    (cid : ChannelId) (body : ChannelsController.UpdateBody) :
    (ChannelsController.updateChannel b now s u cid body).store =
      (ChannelsController.updateChannel true now s u cid body).store := by
  cases b
  · unfold ChannelsController.updateChannel
    simp only [postAll_bus false]
    repeat' (first | split | dsimp only)
  · rfl

theorem deleteChannel_bus (b : Bool) (now : Time) (s : Store) (u : UserId) (cid : ChannelId) :
    (ChannelsController.deleteChannel b now s u cid).store =
      (ChannelsController.deleteChannel true now s u cid).store := by
  cases b
  · unfold ChannelsController.deleteChannel
    repeat' (first | split | dsimp only)
  · rfl

theorem http_send_bus (b : Bool) (now : Time) (s : Store) (u : UserId)
    (body : MessageController.SendBody) :
    (MessageController.sendMessage b now s u body).store =
      (MessageController.sendMessage true now s u body).store := by
  cases b
  · unfold MessageController.sendMessage
    repeat' (first | split | dsimp only)
  · rfl

theorem http_fetch_bus (b : Bool) (now : Time) (s : Store) (u : UserId) (cid : ChannelId) :
    (MessageController.fetchMessages b now s u cid).1.store =
      (MessageController.fetchMessages true now s u cid).1.store := by
  cases b
  · unfold MessageController.fetchMessages
    repeat' (first | split | dsimp only)
  · rfl

theorem http_markSeen_bus (b : Bool) (now : Time) (s : Store) (u : UserId) (mid : MessageId) :
    (MessageController.markSeen b now s u mid).store =
      (MessageController.markSeen true now s u mid).store := by
  cases b
  · unfold MessageController.markSeen
    repeat' (first | split | dsimp only)
  · rfl

theorem http_delete_bus (b : Bool) (now : Time) (s : Store) (u : UserId) (mid : MessageId) :
    (MessageController.deleteMessage b now s u mid).store =
      (MessageController.deleteMessage true now s u mid).store := by
  cases b
  · unfold MessageController.deleteMessage
    repeat' (first | split | dsimp only)
  · rfl

theorem http_edit_bus (b : Bool) (now : Time) (s : Store) (u : UserId) (mid : MessageId)
    (text : String) :
    (MessageController.editMessage b now s u mid text).store =
      (MessageController.editMessage true now s u mid text).store := by
  cases b
  · unfold MessageController.editMessage
    repeat' (first | split | dsimp only)
  · rfl

/-- C28: for every request, the store left when the socket layer is not available to the
handler (`getIO()` throws) is the store the same request leaves when it is available.  Every
HTTP handler asks for the socket layer after its last write; in `updateChannel` the system
message is rejected by the message schema before the fan-out of that message is reached, so
no unread increment depends on the fan-out either. -/
theorem fanout_failure_keeps_store (s : Store) (op : Op) :
    (run s (Op.withBus false op)).store = (run s (Op.withBus true op)).store := by
  cases op <;> simp only [Op.withBus, run]
  · exact createChannel_bus false _ _ _ _ _
  · exact updateChannel_bus false _ _ _ _ _
  · exact deleteChannel_bus false _ _ _ _
  · exact http_send_bus false _ _ _ _
  · exact http_fetch_bus false _ _ _ _
  · exact http_markSeen_bus false _ _ _ _
  · exact http_delete_bus false _ _ _ _
  · exact http_edit_bus false _ _ _ _ _

/-! ## C29: a refused request writes nothing and sends nothing -/

theorem createChannel_refused (b : Bool) (now : Time) (s : Store) (u : UserId)
    (body : ChannelsController.CreateBody) (token : String) :
    (ChannelsController.createChannel b now s u body token).reply.isRefusal = true →
    (ChannelsController.createChannel b now s u body token).store = s ∧
      (ChannelsController.createChannel b now s u body token).events = [] := by
  unfold ChannelsController.createChannel ChannelsController.createNew
  repeat' (first | split | dsimp only)
  all_goals first | (intro _; exact ⟨rfl, rfl⟩) | (intro h; exact absurd h (by decide))

theorem updateChannel_refused (b : Bool) (now : Time) (s : Store) (u : UserId) (cid : ChannelId) (body : ChannelsController.UpdateBody) :
    (ChannelsController.updateChannel b now s u cid body).reply.isRefusal = true →
    (ChannelsController.updateChannel b now s u cid body).store = s ∧
      (ChannelsController.updateChannel b now s u cid body).events = [] := by
  unfold ChannelsController.updateChannel
  repeat' (first | split | dsimp only)
  all_goals first | (intro _; exact ⟨rfl, rfl⟩) | (intro h; exact absurd h (by decide))

theorem deleteChannel_refused (b : Bool) (now : Time) (s : Store) (u : UserId) (cid : ChannelId) :
    (ChannelsController.deleteChannel b now s u cid).reply.isRefusal = true →
    (ChannelsController.deleteChannel b now s u cid).store = s ∧
      (ChannelsController.deleteChannel b now s u cid).events = [] := by
  unfold ChannelsController.deleteChannel
  repeat' (first | split | dsimp only)
  all_goals first | (intro _; exact ⟨rfl, rfl⟩) | (intro h; exact absurd h (by decide))

theorem generateInviteLink_refused (now : Time) (s : Store) (cid : ChannelId) (token : String) :
    (InviteController.generateInviteLink now s cid token).reply.isRefusal = true →
    (InviteController.generateInviteLink now s cid token).store = s ∧
      (InviteController.generateInviteLink now s cid token).events = [] := by
  unfold InviteController.generateInviteLink
  repeat' (first | split | dsimp only)
  all_goals first | (intro _; exact ⟨rfl, rfl⟩) | (intro h; exact absurd h (by decide))

theorem regenerateInviteLink_refused (now : Time) (s : Store) (cid : ChannelId) (token : String) :
    (InviteController.regenerateInviteLink now s cid token).reply.isRefusal = true →
    (InviteController.regenerateInviteLink now s cid token).store = s ∧
      (InviteController.regenerateInviteLink now s cid token).events = [] := by
  unfold InviteController.regenerateInviteLink
  repeat' (first | split | dsimp only)
  all_goals first | (intro _; exact ⟨rfl, rfl⟩) | (intro h; exact absurd h (by decide))

theorem acceptInvite_refused (now : Time) (s : Store) (u : UserId) (token : String) :
    (InviteController.acceptInvite now s u token).reply.isRefusal = true →
    (InviteController.acceptInvite now s u token).store = s ∧
      (InviteController.acceptInvite now s u token).events = [] := by
  unfold InviteController.acceptInvite
  repeat' (first | split | dsimp only)
  all_goals first | (intro _; exact ⟨rfl, rfl⟩) | (intro h; exact absurd h (by decide))

theorem register_refused (s : Store) (name email : String) :
    (register s name email).reply.isRefusal = true →
    (register s name email).store = s ∧
      (register s name email).events = [] := by
  unfold register
  repeat' (first | split | dsimp only)
  all_goals first | (intro _; exact ⟨rfl, rfl⟩) | (intro h; exact absurd h (by decide))

theorem http_send_refused (b : Bool) (now : Time) (s : Store) (u : UserId) (body : MessageController.SendBody) :
    (MessageController.sendMessage b now s u body).reply.isRefusal = true →
    (MessageController.sendMessage b now s u body).store = s ∧
      (MessageController.sendMessage b now s u body).events = [] := by
  unfold MessageController.sendMessage
  repeat' (first | split | dsimp only)
  all_goals first | (intro _; exact ⟨rfl, rfl⟩) | (intro h; exact absurd h (by decide))

theorem http_fetch_refused (b : Bool) (now : Time) (s : Store) (u : UserId) (cid : ChannelId) :
    ((MessageController.fetchMessages b now s u cid).1).reply.isRefusal = true →
    ((MessageController.fetchMessages b now s u cid).1).store = s ∧
      ((MessageController.fetchMessages b now s u cid).1).events = [] := by
  unfold MessageController.fetchMessages
  repeat' (first | split | dsimp only)
  all_goals first | (intro _; exact ⟨rfl, rfl⟩) | (intro h; exact absurd h (by decide))

theorem http_markSeen_refused (b : Bool) (now : Time) (s : Store) (u : UserId) (mid : MessageId) :
    (MessageController.markSeen b now s u mid).reply.isRefusal = true →
    (MessageController.markSeen b now s u mid).store = s ∧
      (MessageController.markSeen b now s u mid).events = [] := by
  unfold MessageController.markSeen
  repeat' (first | split | dsimp only)
  all_goals first | (intro _; exact ⟨rfl, rfl⟩) | (intro h; exact absurd h (by decide))

theorem http_delete_refused (b : Bool) (now : Time) (s : Store) (u : UserId) (mid : MessageId) :
    (MessageController.deleteMessage b now s u mid).reply.isRefusal = true →
    (MessageController.deleteMessage b now s u mid).store = s ∧
      (MessageController.deleteMessage b now s u mid).events = [] := by
  unfold MessageController.deleteMessage
  repeat' (first | split | dsimp only)
  all_goals first | (intro _; exact ⟨rfl, rfl⟩) | (intro h; exact absurd h (by decide))

theorem http_edit_refused (b : Bool) (now : Time) (s : Store) (u : UserId) (mid : MessageId) (text : String) :
    (MessageController.editMessage b now s u mid text).reply.isRefusal = true →
    (MessageController.editMessage b now s u mid text).store = s ∧
      (MessageController.editMessage b now s u mid text).events = [] := by
  unfold MessageController.editMessage
  repeat' (first | split | dsimp only)
  all_goals first | (intro _; exact ⟨rfl, rfl⟩) | (intro h; exact absurd h (by decide))

theorem socket_send_refused (now : Time) (s : Store) (u : UserId) (message : SocketService.SendPayload) :
    (SocketService.sendMessage now s u message).reply.isRefusal = true →
    (SocketService.sendMessage now s u message).store = s ∧
      (SocketService.sendMessage now s u message).events = [] := by
  unfold SocketService.sendMessage
  repeat' (first | split | dsimp only)
  all_goals first | (intro _; exact ⟨rfl, rfl⟩) | (intro h; exact absurd h (by decide))

theorem socket_markSeen_refused (now : Time) (s : Store) (u : UserId) (cid : ChannelId) (mid : MessageId) :
    (SocketService.markSeen now s u cid mid).reply.isRefusal = true →
    (SocketService.markSeen now s u cid mid).store = s ∧
      (SocketService.markSeen now s u cid mid).events = [] := by
  unfold SocketService.markSeen
  repeat' (first | split | dsimp only)
  all_goals first | (intro _; exact ⟨rfl, rfl⟩) | (intro h; exact absurd h (by decide))

theorem socket_delete_refused (now : Time) (s : Store) (u : UserId) (mid : MessageId) (cid : ChannelId) :
    (SocketService.deleteMessage now s u mid cid).reply.isRefusal = true →
    (SocketService.deleteMessage now s u mid cid).store = s ∧
      (SocketService.deleteMessage now s u mid cid).events = [] := by
  unfold SocketService.deleteMessage
  repeat' (first | split | dsimp only)
  all_goals first | (intro _; exact ⟨rfl, rfl⟩) | (intro h; exact absurd h (by decide))

theorem socket_forward_refused (now : Time) (s : Store) (u : UserId) (mid : MessageId) (target : ChannelId) :
    (SocketService.forwardMessage now s u mid target).reply.isRefusal = true →
    (SocketService.forwardMessage now s u mid target).store = s ∧
      (SocketService.forwardMessage now s u mid target).events = [] := by
  unfold SocketService.forwardMessage
  repeat' (first | split | dsimp only)
  all_goals first | (intro _; exact ⟨rfl, rfl⟩) | (intro h; exact absurd h (by decide))

theorem socket_edit_refused (now : Time) (s : Store) (u : UserId) (mid : MessageId) (text : String) (cid : ChannelId) :
    (SocketService.editMessage now s u mid text cid).reply.isRefusal = true →
    (SocketService.editMessage now s u mid text cid).store = s ∧
      (SocketService.editMessage now s u mid text cid).events = [] := by
  unfold SocketService.editMessage
  repeat' (first | split | dsimp only)
  all_goals first | (intro _; exact ⟨rfl, rfl⟩) | (intro h; exact absurd h (by decide))

theorem socket_deleteChat_refused (now : Time) (s : Store) (u : UserId) (cid : ChannelId) :
    (SocketService.deleteChat now s u cid).reply.isRefusal = true →
    (SocketService.deleteChat now s u cid).store = s ∧
      (SocketService.deleteChat now s u cid).events = [] := by
  unfold SocketService.deleteChat
  repeat' (first | split | dsimp only)
  all_goals first | (intro _; exact ⟨rfl, rfl⟩) | (intro h; exact absurd h (by decide))

/-- C29: whenever a request is answered with a refusal (HTTP 400, 403 or 404, or a socket
error of a failed validation, authorization or lookup), the store after the request is the
store before it and no event is sent to any room.  This holds for every handler, over HTTP
and over the socket. -/
theorem refused_request_changes_nothing (s : Store) (op : Op)
    (h : (run s op).reply.isRefusal = true) :
    (run s op).store = s ∧ (run s op).events = [] := by
  cases op <;> simp only [run] at h ⊢
  · exact register_refused _ _ _ h
  · exact createChannel_refused _ _ _ _ _ _ h
  · exact updateChannel_refused _ _ _ _ _ _ h
  · exact deleteChannel_refused _ _ _ _ _ h
  · exact generateInviteLink_refused _ _ _ _ h
  · exact regenerateInviteLink_refused _ _ _ _ h
  · exact acceptInvite_refused _ _ _ _ h
  · exact http_send_refused _ _ _ _ _ h
  · exact http_fetch_refused _ _ _ _ _ h
  · exact http_markSeen_refused _ _ _ _ _ h
  · exact http_delete_refused _ _ _ _ _ h
  · exact http_edit_refused _ _ _ _ _ _ h
  · exact socket_send_refused _ _ _ _ h
  · exact socket_markSeen_refused _ _ _ _ _ h
  · exact socket_delete_refused _ _ _ _ _ h
  · exact socket_forward_refused _ _ _ _ _ h
  · exact socket_edit_refused _ _ _ _ _ _ h
  · exact socket_deleteChat_refused _ _ _ _ h

/-- In `scenarioM`, U2 asks over the socket to edit the message 5 that U1 wrote: the request is
refused, the store is the one before and nothing is sent. -/
theorem refused_request_changes_nothing_witness :
    (run scenarioM (Op.socketEditMessage 20 1 5 "mine" 3)).reply
      = Reply.socketError "Unauthorized to edit this message" ∧
    (run scenarioM (Op.socketEditMessage 20 1 5 "mine" 3)).store = scenarioM ∧
    (run scenarioM (Op.socketEditMessage 20 1 5 "mine" 3)).events = [] :=
  ⟨by decide,
    refused_request_changes_nothing scenarioM (Op.socketEditMessage 20 1 5 "mine" 3)
      (by decide)⟩

/-! ## No handler stores a `deletedAt` entry -/

theorem noDeletedAt_save (now : Time) (cs : List Channel) (c : Channel)
    (h : NoDeletedAt cs) (hc : c.deletedAt = []) : NoDeletedAt (saveChannel now cs c) := by
  intro x hx
  simp only [saveChannel, List.mem_map] at hx
  obtain ⟨y, hy, rfl⟩ := hx
  split
  · exact hc
  · exact h y hy

theorem noDeletedAt_append (cs : List Channel) (c : Channel) (h : NoDeletedAt cs)
    (hc : c.deletedAt = []) : NoDeletedAt (cs ++ [c]) := by
  intro x hx
  rcases List.mem_append.mp hx with hx | hx
  · exact h x hx
  · rw [List.mem_singleton.mp hx]; exact hc

theorem noDeletedAt_find {cs : List Channel} {p : Channel → Bool} {c : Channel}
    (h : NoDeletedAt cs) (hf : cs.find? p = some c) : c.deletedAt = [] :=
  h c (List.mem_of_find?_eq_some hf)

theorem resummarise_deletedAt (now : Time) (c : Channel) (l : Option Message) :
    (MessageController.resummarise now c l).deletedAt = c.deletedAt := by
  cases l <;> rfl

theorem noDeletedAt_softDelete (now : Time) (s : Store) (userId : UserId) (channel : Channel)
    (h : NoDeletedAt s.channels) (hc : channel.deletedAt = []) :
    NoDeletedAt (softDelete now s userId channel).1.channels := by
  unfold softDelete
  repeat' (first | split | dsimp only)
  · exact fun c hc => h c (List.eraseP_subset _ hc)
  · exact noDeletedAt_save _ _ _ h hc

theorem run_noDeletedAt (s : Store) (op : Op) (h : NoDeletedAt s.channels) :
    NoDeletedAt (run s op).store.channels := by
  cases op
  all_goals simp only [run]
  case updateChannel busUp now userId channelId body =>
    rcases updateChannel_store busUp now s userId channelId body with h2 | ⟨c, _, _, hc, h2⟩
    · rw [h2]; exact h
    · rw [h2]
      exact noDeletedAt_save _ _ _ h (noDeletedAt_find (c := c) h hc)
  all_goals
    first
    | unfold register
    | unfold ChannelsController.createChannel ChannelsController.createNew
    | unfold ChannelsController.deleteChannel
    | unfold InviteController.generateInviteLink
    | unfold InviteController.regenerateInviteLink
    | unfold InviteController.acceptInvite
    | unfold MessageController.sendMessage
    | unfold MessageController.fetchMessages
    | unfold MessageController.markSeen
    | unfold MessageController.deleteMessage
    | unfold MessageController.editMessage
    | unfold SocketService.sendMessage
    | unfold SocketService.markSeen
    | unfold SocketService.deleteMessage
    | unfold SocketService.forwardMessage
    | unfold SocketService.editMessage
    | unfold SocketService.deleteChat
  all_goals repeat' (first | split | dsimp only)
  all_goals first
    | exact h
    | exact noDeletedAt_append _ _ h rfl
    | exact noDeletedAt_softDelete _ _ _ _ h (noDeletedAt_find h (by assumption))
    | (apply noDeletedAt_save _ _ _ h
       try dsimp only
       first
       | exact noDeletedAt_find h (by assumption)
       | (rw [resummarise_deletedAt]; exact noDeletedAt_find h (by assumption)))

theorem reachable_noDeletedAt (s : Store) (h : Reachable s) : NoDeletedAt s.channels := by
  induction h with
  | init => intro c hc; cases hc
  | step op _ ih => exact run_noDeletedAt _ op ih

/-! ## C21: what a channel delete leaves behind -/

theorem deleteChannel_store (busUp : Bool) (now : Time) (s : Store) (U : UserId)
    (cid : ChannelId) (c : Channel) (hc : findChannelFor s.channels cid U = some c) :
    (ChannelsController.deleteChannel busUp now s U cid).store = (softDelete now s U c).1 := by
  unfold ChannelsController.deleteChannel
  simp only [hc]
  repeat' (first | split | dsimp only)

theorem deleteChat_store (now : Time) (s : Store) (U : UserId)
    (cid : ChannelId) (c : Channel) (hc : findChannelFor s.channels cid U = some c) :
    (SocketService.deleteChat now s U cid).store = (softDelete now s U c).1 := by
  unfold SocketService.deleteChat
  simp only [hc]
  repeat' (first | split | dsimp only)

theorem pullVisible_hides (ms : List Message) (cid : ChannelId) (U : UserId) :
    ∀ m ∈ pullVisible ms cid U, m.channelId = cid → U ∉ m.visibleTo := by
  intro m hm hcid
  unfold pullVisible at hm
  obtain ⟨x, _, hx⟩ := List.mem_map.mp hm
  by_cases h : x.channelId = cid ∧ U ∈ x.visibleTo
  · rw [if_pos h] at hx
    subst hx
    simp
  · rw [if_neg h] at hx
    subst hx
    exact fun hv => h ⟨hcid, hv⟩

theorem softDelete_live (now : Time) (s : Store) (U1 U2 : UserId) (c : Channel)
    (hU2 : U2 ∈ c.users) (hne : U2 ≠ U1) :
    (softDelete now s U1 c).1 =
      { s with
        messages := pullVisible s.messages c.id U1
        channels := saveChannel now s.channels
          { c with
            lastMessage := ""
            lastMessageTime := c.createdAt
            lastMessageSenderId := none
            unreadCounts := UMap.set c.unreadCounts U1 0 } } := by
  have hb : ¬ c.users.all (fun uid => decide (uid = U1)) = true := by
    intro h
    have := List.all_eq_true.mp h U2 hU2
    exact hne (by simpa using this)
  unfold softDelete
  simp only [hb, Bool.false_eq_true, if_false]

/-- What the two delete handlers leave of a channel that has another member besides the
requester `U`: the channel is stored with the members and the `deletedAt` map it had, with the
unread entry 0 for `U`, and no message of the channel lists `U` in `visibleTo`. -/
theorem delete_keeps_deletedAt (busUp : Bool) (now : Time) (s t : Store) (U V : UserId)
    (cid : ChannelId) (c : Channel)
    (hc : findChannelFor s.channels cid U = some c) (hV : V ∈ c.users) (hne : V ≠ U)
    (ht : t = (ChannelsController.deleteChannel busUp now s U cid).store ∨
      t = (SocketService.deleteChat now s U cid).store) :
    ∃ c', findChannel t.channels cid = some c' ∧ c'.users = c.users ∧
      c'.deletedAt = c.deletedAt ∧ UMap.get c'.unreadCounts U = some 0 ∧
      ∀ m ∈ t.messages, m.channelId = cid → U ∉ m.visibleTo := by
  have hts : t = (softDelete now s U c).1 := by
    rcases ht with h | h
    · rw [h, deleteChannel_store busUp now s U cid c hc]
    · rw [h, deleteChat_store now s U cid c hc]
  subst hts
  have hid := (findChannelFor_id _ _ _ _ hc).1
  rw [softDelete_live now s U V c hV hne]
  refine ⟨_, findChannel_saveChannel_at now s.channels cid U c _ hc rfl, rfl, rfl, ?_, ?_⟩
  · simp [UMap.get_set]
  · intro m hm hcid
    rw [← hid] at hcid
    exact pullVisible_hides _ _ _ m hm hcid

/-- C21 fails in the program.  In general: no reachable state holds a `deletedAt` entry, and
after `deleteChannel` or `deleteChat` by a member `U` of a channel with another member the
channel is stored with the `deletedAt` map it had before, so without an entry for `U`.
Scenario C: U1 deletes the direct channel 2 (answered 200); the channel is stored with both
members and an empty `deletedAt`.  Scenario E: in the group 3, U2 and U3 have deleted the
group; when U1, the last member, deletes it, the request is answered 500 and the group and its
message "hello" are still stored, over HTTP and over the socket alike. -/
theorem delete_stores_no_deletedAt_entry :
    (∀ s, Reachable s → ∀ c ∈ s.channels, c.deletedAt = []) ∧
    (∀ (busUp : Bool) (now : Time) (s : Store) (U V : UserId) (cid : ChannelId) (c : Channel),
      findChannelFor s.channels cid U = some c → V ∈ c.users → V ≠ U →
        (∃ c', findChannel (ChannelsController.deleteChannel busUp now s U cid).store.channels cid
            = some c' ∧ c'.deletedAt = c.deletedAt) ∧
        (∃ c', findChannel (SocketService.deleteChat now s U cid).store.channels cid
            = some c' ∧ c'.deletedAt = c.deletedAt)) ∧
    (ChannelsController.deleteChannel true 20 (sentInA "hi") 0 2).reply = Reply.http 200 ∧
    (findChannel deletedA.channels 2).map
        (fun c => (c.users, c.deletedAt, UMap.get c.unreadCounts 0))
      = some ([0, 1], [], some 0) ∧
    (SocketService.deleteChat 20 (sentInA "hi") 0 2).store = deletedA ∧
    (findChannel groupTwoLeft.channels 3).map (fun c => (c.users, c.deletedAt))
      = some ([1, 2, 0], []) ∧
    groupTwoLeft.messages.map (fun m => (m.id, m.channelId, m.text, m.visibleTo))
      = [(5, 3, "hello", [0]), (6, 4, "one", [0, 1]), (7, 4, "two", [0, 1])] ∧
    groupAllLeft.reply = Reply.http 500 ∧
    (findChannel groupAllLeft.store.channels 3).map (fun c => (c.users, c.deletedAt))
      = some ([1, 2, 0], []) ∧
    groupAllLeft.store.messages.map (fun m => (m.id, m.channelId, m.text, m.visibleTo))
      = [(5, 3, "hello", []), (6, 4, "one", [0, 1]), (7, 4, "two", [0, 1])] ∧
    (SocketService.deleteChat 40 groupTwoLeft 0 3).reply
      = Reply.socketError "Failed to delete chat" ∧
    (SocketService.deleteChat 40 groupTwoLeft 0 3).store = groupAllLeft.store := by
  refine ⟨reachable_noDeletedAt, ?_, by decide, by decide, by decide, by decide, by decide,
    by decide, by decide, by decide, by decide, by decide⟩
  intro busUp now s U V cid c hc hV hne
  constructor
  · obtain ⟨c', h1, _, h2, _⟩ :=
      delete_keeps_deletedAt busUp now s _ U V cid c hc hV hne (Or.inl rfl)
    exact ⟨c', h1, h2⟩
  · obtain ⟨c', h1, _, h2, _⟩ :=
      delete_keeps_deletedAt busUp now s _ U V cid c hc hV hne (Or.inr rfl)
    exact ⟨c', h1, h2⟩

/-! ## C22: channels without a member who has not deleted them -/

/-- C22 fails in the program.  In `soloGroup` the group 1 has the one member U1 and the message
"memo".  When U1 sends the empty member list to `updateChannel` (answered 500 after the member
list was stored), the reachable store holds the group without any member, so that all its
members have a `deletedAt` entry, together with its message; `deleteChannel` by U1 in the same
state purges the group and the message.  Likewise, after both members of the direct channel of
scenario A have deleted it, the channel and its message are still stored.  What does hold: a
reachable channel with at least one member never has a `deletedAt` entry for all its members,
because no entry is ever stored. -/
theorem memberless_channel_is_kept :
    Reachable soloEmptied.store ∧
    soloGroup.channels.map (fun c => (c.id, c.users, c.deletedAt)) = [(1, [0], [])] ∧
    soloEmptied.reply = Reply.http 500 ∧
    soloEmptied.store.channels.map (fun c => (c.id, c.users, c.deletedAt)) = [(1, [], [])] ∧
    (∃ c ∈ soloEmptied.store.channels, c.id = 1 ∧
      ∀ u ∈ c.users, (UMap.get c.deletedAt u).isSome = true) ∧
    soloEmptied.store.messages.map (fun m => (m.id, m.channelId, m.text))
      = [(2, 1, "memo")] ∧
    soloLeft.reply = Reply.http 200 ∧
    soloLeft.store.channels = [] ∧ soloLeft.store.messages = [] ∧
    Reachable bothDeletedA ∧
    bothDeletedA.channels.map (fun c => (c.id, c.users, c.deletedAt)) = [(2, [0, 1], [])] ∧
    bothDeletedA.messages.map (fun m => (m.id, m.channelId, m.text, m.visibleTo))
      = [(3, 2, "hi", [])] ∧
    (∀ s, Reachable s → ∀ c ∈ s.channels, c.users ≠ [] →
      ¬ ∀ u ∈ c.users, (UMap.get c.deletedAt u).isSome = true) := by
  refine ⟨?_, by decide, by decide, by decide, ?_, by decide, by decide, by decide, by decide,
    ?_, by decide, by decide, ?_⟩
  · exact Reachable.step
      (Op.updateChannel true 20 0 1 { name := "", users := some [] })
      (reachable_runAll _ _ Reachable.init)
  · decide
  · exact reachable_runAll _ _
      (Reachable.step (Op.httpSendMessage true 9 0
        { channelId := 2, text := "hi", replyTo := none, forwardedFrom := none,
          attachments := [] }) (reachable_runAll _ _ Reachable.init))
  · intro s hs c hc hne hall
    cases hu : c.users with
    | nil => exact hne hu
    | cons u rest =>
      have h1 := hall u (by rw [hu]; exact List.mem_cons_self _ _)
      rw [reachable_noDeletedAt s hs c hc] at h1
      cases h1

/-! ## C24: a member leaves a group that stays alive -/

/-- C24 at a concrete input: in `scenarioM` U2 deletes the group 3 while U1 and U3 have not.
Neither handler completes: the HTTP request is answered 500 and the socket request with the
error `Failed to delete chat`.  The channel is stored with its three members, but no system
message is: the messages of the store are the three that were there, and the only event sent
is `channelDeleted` to U2. -/
theorem leaving_group_fails_without_system_message :
    (findChannel scenarioM.channels 3).map (fun c => (c.type, c.users))
      = some ("group", [1, 2, 0]) ∧
    groupLeftHttp.reply = Reply.http 500 ∧
    groupLeftSocket.reply = Reply.socketError "Failed to delete chat" ∧
    groupLeftHttp.succeeded = false ∧ groupLeftSocket.succeeded = false ∧
    (findChannel groupLeftHttp.store.channels 3).map (fun c => c.users)
      = some [1, 2, 0] ∧
    groupLeftHttp.store.messages.map (fun m => (m.id, m.channelId, m.text))
      = [(5, 3, "hello"), (6, 4, "one"), (7, 4, "two")] ∧
    groupLeftSocket.store = groupLeftHttp.store ∧
    groupLeftHttp.events = [{ room := Room.user 1, name := "channelDeleted" }] ∧
    groupLeftSocket.events = [{ room := Room.user 1, name := "channelDeleted" }] := by
  decide

/-! ## C20: asking again for a deleted direct channel -/

/-- C20 fails in the program.  In `softDeletedA` U1 has deleted the direct channel 2 and U2 has
sent "yo" since: the channel has the unread entry 1 for U1 and "yo" is visible to U1 and U2.
When U1 asks `createChannel` for the direct channel with U2, the handler answers 200 and
writes nothing: the channel still has the unread entry 1 for U1, and "yo" still lists U1 in
`visibleTo`. -/
theorem recreate_after_delete_writes_nothing :
    (findChannel softDeletedA.channels 2).map (fun c => (c.type, c.users, c.deletedAt))
      = some ("direct", [0, 1], []) ∧
    (findChannel softDeletedA.channels 2).map (fun c => c.unreadCounts)
      = some [(0, 1), (1, 0)] ∧
    softDeletedA.messages.map (fun m => (m.id, m.channelId, m.text, m.visibleTo))
      = [(3, 2, "hi", [1]), (4, 2, "yo", [0, 1])] ∧
    recreatedAfterYo = ⟨softDeletedA, Reply.http 200, []⟩ ∧
    (findChannel recreatedAfterYo.store.channels 2).map (fun c => UMap.get c.unreadCounts 0)
      = some (some 1) ∧
    (findMessage recreatedAfterYo.store.messages 4).map (fun m => m.visibleTo)
      = some [0, 1] := by
  decide

/-! ## C23: what a channel delete changes for the other member -/

theorem pullVisible_pulled (ms : List Message) (cid : ChannelId) (uid : UserId) :
    pullVisible ms cid uid = ms.map (pulled cid uid) :=
  pullVisible_eq_map ms cid uid

theorem pulled_visible (cid : ChannelId) (U1 U2 : UserId) (hne : U2 ≠ U1) (m : Message) :
    (decide ((pulled cid U1 m).channelId = cid) && decide (U2 ∈ (pulled cid U1 m).visibleTo)) =
      (decide (m.channelId = cid) && decide (U2 ∈ m.visibleTo)) := by
  unfold pulled
  by_cases h : m.channelId = cid
  · simp [h, List.mem_filter, hne]
  · simp [h]

theorem visibleMessages_pulled (ms : List Message) (cid : ChannelId) (U1 U2 : UserId)
    (hne : U2 ≠ U1) :
    MessageController.visibleMessages (ms.map (pulled cid U1)) cid U2 =
      (MessageController.visibleMessages ms cid U2).map (pulled cid U1) := by
  unfold MessageController.visibleMessages
  rw [List.filter_map]
  have hp : ((fun m : Message => decide (m.channelId = cid) && decide (U2 ∈ m.visibleTo)) ∘
      pulled cid U1) = fun m => decide (m.channelId = cid) && decide (U2 ∈ m.visibleTo) := by
    funext m
    exact pulled_visible cid U1 U2 hne m
  rw [hp]
  refine (List.map_insertionSort _ _ (pulled cid U1) _ ?_).symm
  intro a _ b _
  have ha : (pulled cid U1 a).createdAt = a.createdAt := by unfold pulled; split <;> rfl
  have hb : (pulled cid U1 b).createdAt = b.createdAt := by unfold pulled; split <;> rfl
  rw [ha, hb]

theorem visibleMessages_pulled_self (ms : List Message) (cid : ChannelId) (U1 : UserId) :
    MessageController.visibleMessages (ms.map (pulled cid U1)) cid U1 = [] := by
  unfold MessageController.visibleMessages
  have hnil : (ms.map (pulled cid U1)).filter
      (fun m => decide (m.channelId = cid) && decide (U1 ∈ m.visibleTo)) = [] := by
    rw [List.filter_eq_nil_iff]
    intro m hm
    have hh := pullVisible_hides ms cid U1 m (by rw [pullVisible_pulled]; exact hm)
    by_cases hc : m.channelId = cid
    · simp [hc, hh hc]
    · simp [hc]
  rw [hnil]
  rfl

theorem findMessage_pulled (ms : List Message) (cid : ChannelId) (U1 : UserId) (r : MessageId) :
    findMessage (ms.map (pulled cid U1)) r = (findMessage ms r).map (pulled cid U1) := by
  unfold findMessage
  rw [List.find?_map]
  have hp : ((fun m : Message => decide (m.id = r)) ∘ pulled cid U1)
      = fun m => decide (m.id = r) := by
    funext m
    have : (pulled cid U1 m).id = m.id := by unfold pulled; split <;> rfl
    simp [this]
  rw [hp]

theorem newest_pulled (ms : List Message) (cid : ChannelId) (U1 : UserId) :
    newest (ms.map (pulled cid U1)) = (newest ms).map (pulled cid U1) := by
  induction ms with
  | nil => rfl
  | cons m rest ih =>
    simp only [List.map_cons, newest, ih]
    cases hn : newest rest with
    | none => rfl
    | some r =>
      have hr : (pulled cid U1 r).createdAt = r.createdAt := by unfold pulled; split <;> rfl
      have hm : (pulled cid U1 m).createdAt = m.createdAt := by unfold pulled; split <;> rfl
      simp only [Option.map_some', hr, hm]
      split <;> rfl

theorem lastVisible_pulled (ms : List Message) (cid : ChannelId) (U1 U2 : UserId)
    (hne : U2 ≠ U1) :
    ChannelsController.lastVisible (ms.map (pulled cid U1)) cid U2 =
      (ChannelsController.lastVisible ms cid U2).map (pulled cid U1) := by
  unfold ChannelsController.lastVisible
  rw [List.filter_map]
  have hp : ((fun m : Message => decide (m.channelId = cid) && decide (U2 ∈ m.visibleTo)) ∘
      pulled cid U1) = fun m => decide (m.channelId = cid) && decide (U2 ∈ m.visibleTo) := by
    funext m
    exact pulled_visible cid U1 U2 hne m
  rw [hp, newest_pulled]

theorem formatFetched_pulled (s t : Store) (cid : ChannelId) (U1 U2 : UserId) (m : Message)
    (hr : t.receipts = s.receipts) (hm : t.messages = s.messages.map (pulled cid U1))
    (hcid : m.channelId = cid) :
    MessageController.formatFetched t U2 (pulled cid U1 m) =
      hideFrom U1 (MessageController.formatFetched s U2 m) := by
  have hp : pulled cid U1 m =
      { m with visibleTo := m.visibleTo.filter (fun v => decide (v ≠ U1)) } := by
    unfold pulled
    rw [if_pos hcid]
  rw [hp]
  unfold MessageController.formatFetched hideFrom
  simp only [hr, hm]
  congr 1
  cases hrt : m.replyTo with
  | none => rfl
  | some r =>
    simp only [Option.some_bind, findMessage_pulled, Option.map_map]
    congr 1
    funext x
    simp only [Function.comp_apply]
    unfold pulled
    split <;> rfl

theorem fetch_pulled (b : Bool) (n : Time) (s t : Store) (cid : ChannelId) (U1 U2 : UserId)
    (c c' : Channel) (hne : U2 ≠ U1)
    (hu : t.users = s.users) (hr : t.receipts = s.receipts)
    (hm : t.messages = s.messages.map (pulled cid U1))
    (hc : findChannelFor s.channels cid U2 = some c)
    (hc' : findChannelFor t.channels cid U2 = some c') :
    (MessageController.fetchMessages b n t U2 cid).2 =
      ((MessageController.fetchMessages b n s U2 cid).2).map (hideFrom U1) := by
  unfold MessageController.fetchMessages
  simp only [hc, hc', hm, hu, visibleMessages_pulled _ _ _ _ hne]
  have hany : ((MessageController.visibleMessages s.messages cid U2).map (pulled cid U1)).any
        (fun m => (findUser s.users m.user).isNone) =
      (MessageController.visibleMessages s.messages cid U2).any
        (fun m => (findUser s.users m.user).isNone) := by
    rw [List.any_map]
    congr 1
    funext m
    have : (pulled cid U1 m).user = m.user := by unfold pulled; split <;> rfl
    simp [this]
  rw [hany]
  cases hq : (MessageController.visibleMessages s.messages cid U2).any
      (fun m => (findUser s.users m.user).isNone)
  · cases b
    · rfl
    · simp only [Bool.false_eq_true, Bool.true_eq_false, if_false, List.map_map]
      apply List.map_congr_left
      intro m hmem
      have hmem2 : m ∈ s.messages.filter
          (fun m => decide (m.channelId = cid) && decide (U2 ∈ m.visibleTo)) := by
        unfold MessageController.visibleMessages at hmem
        exact (List.perm_insertionSort _ _).mem_iff.mp hmem
      have hcid : m.channelId = cid := by
        have := (List.mem_filter.mp hmem2).2
        simp only [Bool.and_eq_true, decide_eq_true_eq] at this
        exact this.1
      exact formatFetched_pulled s t cid U1 U2 m hr hm hcid
  · rfl

theorem fetch_pulled_self (b : Bool) (n : Time) (t : Store) (ms : List Message)
    (cid : ChannelId) (U1 : UserId) (hm : t.messages = ms.map (pulled cid U1)) :
    (MessageController.fetchMessages b n t U1 cid).2 = [] := by
  unfold MessageController.fetchMessages
  rw [hm, visibleMessages_pulled_self]
  repeat' (first | split | dsimp only)
  all_goals rfl

theorem entryOf_pulled (s t : Store) (cid : ChannelId) (U1 U2 : UserId) (c c' : Channel)
    (hne : U2 ≠ U1) (hu : t.users = s.users)
    (hm : t.messages = s.messages.map (pulled cid U1))
    (hid : c.id = cid) (hid' : c'.id = cid)
    (hun : UMap.get c'.unreadCounts U2 = UMap.get c.unreadCounts U2) :
    (ChannelsController.entryOf t U2 c').unreadCount
      = (ChannelsController.entryOf s U2 c).unreadCount ∧
    (ChannelsController.entryOf t U2 c').lastMessage
      = (ChannelsController.entryOf s U2 c).lastMessage ∧
    (ChannelsController.entryOf t U2 c').lastMessageSenderId
      = (ChannelsController.entryOf s U2 c).lastMessageSenderId := by
  unfold ChannelsController.entryOf
  simp only [hm, hu, hid, hid', hun, lastVisible_pulled _ _ _ _ hne]
  refine ⟨trivial, ?_, ?_⟩
  · cases ChannelsController.lastVisible s.messages cid U2 with
    | none => rfl
    | some m =>
      simp only [Option.map_some']
      unfold pulled
      split <;> rfl
  · cases ChannelsController.lastVisible s.messages cid U2 with
    | none => rfl
    | some m =>
      simp only [Option.map_some', Option.some_bind]
      have : (pulled cid U1 m).user = m.user := by unfold pulled; split <;> rfl
      rw [this]

theorem viewKept_of_pulled (s t : Store) (cid : ChannelId) (U1 U2 : UserId) (c c' : Channel)
    (hne : U2 ≠ U1) (hu : t.users = s.users) (hr : t.receipts = s.receipts)
    (hm : t.messages = s.messages.map (pulled cid U1))
    (hc : findChannelFor s.channels cid U2 = some c)
    (hc' : findChannelFor t.channels cid U2 = some c')
    (hdel : UMap.get c'.deletedAt U2 = none)
    (hun : UMap.get c'.unreadCounts U2 = UMap.get c.unreadCounts U2)
    (hl : c'.lastMessage = "") (hsid : c'.lastMessageSenderId = none) :
    ViewKept s t U1 U2 cid c := by
  have hid := (findChannelFor_id _ _ _ _ hc).1
  have hid' := findChannelFor_id _ _ _ _ hc'
  refine ⟨fun b n => fetch_pulled b n s t cid U1 U2 c c' hne hu hr hm hc hc',
    fun b n => fetch_pulled_self b n t s.messages cid U1 hm, c', hc', ?_, hun, ?_⟩
  · exact (mem_listedChannels _ _ _).mpr ⟨List.mem_of_find?_eq_some hc', hid'.2, hdel⟩
  · obtain ⟨h1, h2, h3⟩ := entryOf_pulled s t cid U1 U2 c c' hne hu hm hid hid'.1 hun
    exact ⟨h1, h2, h3, hl, hsid⟩

theorem findChannelFor_of_mem (cs : List Channel) (c : Channel) (u : UserId)
    (hids : (cs.map (fun x => x.id)).Nodup) (hmem : c ∈ cs) (hu : u ∈ c.users) :
    findChannelFor cs c.id u = some c := by
  induction cs with
  | nil => cases hmem
  | cons x rest ih =>
    have hnd : x.id ∉ rest.map (fun y => y.id) ∧ (rest.map (fun y => y.id)).Nodup :=
      List.nodup_cons.mp hids
    rcases List.mem_cons.mp hmem with e | hr
    · subst e
      simp [findChannelFor, hu]
    · have hx : x.id ≠ c.id := fun e => hnd.1 (e ▸ List.mem_map.mpr ⟨c, hr, rfl⟩)
      have h2 := ih hnd.2 hr
      unfold findChannelFor at h2 ⊢
      simp only [List.find?_cons, hx, decide_False, Bool.false_and]
      exact h2

theorem softDelete_viewKept (now : Time) (s : Store) (U1 U2 : UserId) (cid : ChannelId)
    (c : Channel) (hc : findChannelFor s.channels cid U1 = some c)
    (hids : (s.channels.map (fun x => x.id)).Nodup)
    (hU2 : U2 ∈ c.users) (hne : U2 ≠ U1) (hlive : UMap.get c.deletedAt U2 = none) :
    ViewKept s (softDelete now s U1 c).1 U1 U2 cid c := by
  have hne2 : ¬ U1 = U2 := fun e => hne e.symm
  have hid : c.id = cid := (findChannelFor_id _ _ _ _ hc).1
  have hc2 : findChannelFor s.channels cid U2 = some c := by
    rw [← hid]
    exact findChannelFor_of_mem _ _ _ hids (List.mem_of_find?_eq_some hc) hU2
  rw [softDelete_live now s U1 U2 c hU2 hne]
  refine viewKept_of_pulled s _ cid U1 U2 c _ hne rfl rfl ?_ hc2
    (findChannelFor_saveChannel now s.channels cid U2 c _ hc2 rfl hU2) hlive ?_ rfl rfl
  · rw [hid]
    exact pullVisible_pulled _ _ _
  · simp [UMap.get_set, hne2]

/-- C23 (amended): let `U1` and `U2` be two members of the stored channel `c` (channel ids
being unique), `U2` without a `deletedAt` entry, and let `t1` be the store after `U1` deleted
the channel with `deleteChannel` or `deleteChat`.  In `t1`, and also in the store after `U1`
then asks `createChannel` for the direct channel of a pair that has one, the following holds
(`ViewKept`): `fetchMessages` answers to `U2` the messages it answered before, with `U1` taken
out of their `visibleTo` fields; the unread entry of `U2` is the one before; `listChannels`
lists the channel to `U2` with the `lastMessage`, `lastMessageSenderId` and unread count it had
before; `fetchMessages` answers no message to `U1`; and the summary stored in the channel
document is cleared (`lastMessage` empty, `lastMessageSenderId` null). -/
theorem soft_delete_keeps_other_view (b1 b2 : Bool) (now now2 : Time) (s t1 : Store)
    (U1 U2 : UserId) (cid : ChannelId) (c e : Channel)
    (body : ChannelsController.CreateBody) (token : String) (users : List UserId)
    (hc : findChannelFor s.channels cid U1 = some c)
    (hids : (s.channels.map (fun x => x.id)).Nodup)
    (hU2 : U2 ∈ c.users) (hne : U2 ≠ U1) (hlive : UMap.get c.deletedAt U2 = none)
    (ht1 : t1 = (ChannelsController.deleteChannel b1 now s U1 cid).store ∨
      t1 = (SocketService.deleteChat now s U1 cid).store)
    (hd : body.type = "direct") (hus : body.users = some users)
    (he : findDirect t1.channels (directPair users U1) = some e) :
    ViewKept s t1 U1 U2 cid c ∧
    (ChannelsController.createChannel b2 now2 t1 U1 body token).store = t1 ∧
    ViewKept s (ChannelsController.createChannel b2 now2 t1 U1 body token).store U1 U2 cid c := by
  have hts : t1 = (softDelete now s U1 c).1 := by
    rcases ht1 with h | h
    · rw [h, deleteChannel_store b1 now s U1 cid c hc]
    · rw [h, deleteChat_store now s U1 cid c hc]
  subst hts
  have hv1 := softDelete_viewKept now s U1 U2 cid c hc hids hU2 hne hlive
  have hsame : (ChannelsController.createChannel b2 now2 (softDelete now s U1 c).1 U1 body
      token).store = (softDelete now s U1 c).1 := by
    rcases createChannel_cases b2 now2 (softDelete now s U1 c).1 U1 body token with
      ⟨h, _⟩ | ⟨_, _, _, _, _, h, _⟩ | ⟨_, _, hnd, _⟩ | ⟨us, _, _, hus2, _, hnone, _⟩
    · exact h
    · exact h
    · exact absurd hd hnd
    · rw [hus] at hus2
      cases hus2
      rw [he] at hnone
      cases hnone
  refine ⟨hv1, hsame, ?_⟩
  rw [hsame]
  exact hv1

/-- Scenario C: in scenario A with the message "hi" of U1, U1 deletes the direct channel and
asks for it again.  The second request is answered 200, and U2 is listed the channel with the
last message "hi" of U1 and one unread message, before and after. -/
theorem soft_delete_keeps_other_view_witness :
    (ChannelsController.createChannel true 30 deletedA 0
      { type := "direct", name := "", users := some [1] } "").reply = Reply.http 200 ∧
    (ChannelsController.listChannels (sentInA "hi") 1).map
        (fun x => (x.id, x.lastMessage, x.lastMessageSenderId, x.unreadCount))
      = [(2, "hi", some 0, 1)] ∧
    (ChannelsController.listChannels recreatedA 1).map
        (fun x => (x.id, x.lastMessage, x.lastMessageSenderId, x.unreadCount))
      = [(2, "hi", some 0, 1)] ∧
    (ViewKept (sentInA "hi") deletedA 0 1 2
        { directA with
          lastMessage := "hi", lastMessageTime := 9, lastMessageSenderId := some 0,
          unreadCounts := [(0, 0), (1, 1)], updatedAt := 9 } ∧
      recreatedA = deletedA ∧
      ViewKept (sentInA "hi") recreatedA 0 1 2
        { directA with
          lastMessage := "hi", lastMessageTime := 9, lastMessageSenderId := some 0,
          unreadCounts := [(0, 0), (1, 1)], updatedAt := 9 }) :=
  ⟨by decide, by decide, by decide,
    soft_delete_keeps_other_view true true 20 30 (sentInA "hi") deletedA 0 1 2
      { directA with
        lastMessage := "hi", lastMessageTime := 9, lastMessageSenderId := some 0,
        unreadCounts := [(0, 0), (1, 1)], updatedAt := 9 }
      { directA with
        lastMessage := "", lastMessageTime := 5,
        lastMessageSenderId := none, unreadCounts := [(0, 0), (1, 1)], updatedAt := 20 }
      { type := "direct", name := "", users := some [1] } "" [1]
      (by decide) (by decide) (by decide) (by decide) (by decide) (Or.inl rfl) rfl rfl
      (by decide)⟩

/-- C23 as stated fails at a concrete input: in scenario A, U1 has sent "hi".  Before the
delete the stored channel summary is "hi" from U1, and the message fetched by U2 names U1 and
U2 in `visibleTo`.  After U1 deleted the channel, and also after U1 asked for it again, the
stored summary is empty with no sender, and the message fetched by U2 names only U2. -/
theorem soft_delete_clears_shared_summary :
    (findChannel (sentInA "hi").channels 2).map (fun c => (c.lastMessage, c.lastMessageSenderId))
      = some ("hi", some 0) ∧
    (findChannel deletedA.channels 2).map (fun c => (c.lastMessage, c.lastMessageSenderId))
      = some ("", none) ∧
    (findChannel recreatedA.channels 2).map (fun c => (c.lastMessage, c.lastMessageSenderId))
      = some ("", none) ∧
    (MessageController.fetchMessages true 40 (sentInA "hi") 1 2).2.map
        (fun f => (f.id, f.content, f.visibleTo)) = [(3, "hi", [0, 1])] ∧
    (MessageController.fetchMessages true 40 deletedA 1 2).2.map
        (fun f => (f.id, f.content, f.visibleTo)) = [(3, "hi", [1])] ∧
    (MessageController.fetchMessages true 40 recreatedA 1 2).2.map
        (fun f => (f.id, f.content, f.visibleTo)) = [(3, "hi", [1])] ∧
    (MessageController.fetchMessages true 40 recreatedA 0 2).2 = [] := by
  decide

end CommPlatform
